import Mathlib

/-! # Migration runner (`migrations/migrate.go`)

A shallow embedding of `MigrationRunner.RunMigrations`, `createMigrationsTable` and
`runMigration`, together with the collaborators they call: the database connection
(`db.Exec`, `db.QueryRow(...).Scan`), the filesystem (`filepath.Glob`, `ioutil.ReadFile`),
and the library functions `sort.Strings`, `filepath.Base` and `fmt.Errorf`.

The Go code is stateful; here every operation takes the current `World` and returns the
Go `error` (`none` is `nil`) together with the next `World`.

Scope of the database model.  The bookkeeping table `schema_migrations` is changed by the
runner's own statements (`CREATE TABLE IF NOT EXISTS`, `INSERT`) and by the migration bodies:
a body is arbitrary SQL run on the database that holds `schema_migrations`, so running it
leaves the table `Env.scriptEffect` gives for it (a body may delete rows, add rows or drop the
table), whether the script succeeds or fails half-way.  A script that succeeds also appends its
text to `World.applied`, the history of scripts the database has applied.  The predicate
`Env.keepsTable` singles out the environments whose bodies leave `schema_migrations` as it
is.  Any database call may fail: the failure pattern is the function `Env.fault`, indexed by
the number of database calls made so far, and `Env.scriptError` lets a script be invalid by
its text.
-/

namespace Migrations

/-! ## Go errors -/

/-- A Go `error` value: either a leaf error with a message, or the value built by
`fmt.Errorf` with a `%w` verb, which keeps its formatted message and the wrapped error. -/
inductive GoError where
  | base (msg : String)
  | wrap (msg : String) (inner : GoError)
deriving DecidableEq, Repr

/-- The method `Error()`: the message of an error. -/
def GoError.Error : GoError → String
  | .base msg => msg
  | .wrap msg _ => msg

/-- The method `Unwrap()` as seen by `errors.Unwrap`: the wrapped error, if any. -/
def GoError.Unwrap : GoError → Option GoError
  | .base _ => none
  | .wrap _ inner => some inner

/-- The call `fmt.Errorf("failed to create migrations table: %w", err)`. -/
def errCreateTable (err : GoError) : GoError :=
  .wrap ("failed to create migrations table: " ++ err.Error) err

/-- The call `fmt.Errorf("failed to list migration files: %w", err)`. -/
def errListFiles (err : GoError) : GoError :=
  .wrap ("failed to list migration files: " ++ err.Error) err

/-- The call `fmt.Errorf("failed to run migration %s: %w", file, err)`. -/
def errRunMigration (file : String) (err : GoError) : GoError :=
  .wrap ("failed to run migration " ++ file ++ ": " ++ err.Error) err

/-! ## Library functions -/

/-- Go compares strings bytewise and lexicographically.  On valid UTF-8, which is what a Lean
`String` holds, that is the lexicographic order of the code points. -/
def stringLE (a b : String) : Prop := a.data ≤ b.data

instance stringLE.decidable (a b : String) : Decidable (stringLE a b) := by
  unfold stringLE; infer_instance

instance stringLE.isTotal : IsTotal String stringLE := ⟨fun a b => le_total a.data b.data⟩

instance stringLE.isTrans : IsTrans String stringLE :=
  ⟨fun a b c (h1 : a.data ≤ b.data) (h2 : b.data ≤ c.data) => le_trans h1 h2⟩

instance stringLE.isAntisymm : IsAntisymm String stringLE :=
  ⟨fun a b (h1 : a.data ≤ b.data) (h2 : b.data ≤ a.data) => String.ext (le_antisymm h1 h2)⟩

/-- The call `sort.Strings(files)`: the list in ascending order.  Equal strings cannot be told
apart, so every sorting algorithm gives this result. -/
def sortStrings (files : List String) : List String := files.insertionSort stringLE

/-- The function `filepath.Base` (Unix separators): the last element of the path, after
trailing slashes are removed; `"."` for the empty path and `"/"` for a path of slashes. -/
def filepathBase (path : String) : String :=
  if path = "" then "."
  else
    let stripped := path.data.reverse.dropWhile (· == '/')
    let last := stripped.takeWhile (· != '/')
    if last = [] then "/" else String.mk last.reverse

/-! ## The world: database, filesystem, failures -/

/-- One call the runner makes to a collaborator.  The `file` argument is the candidate being
processed when the call is made (the database itself sees only the SQL text and parameters). -/
inductive Call where
  /-- The statement `CREATE TABLE IF NOT EXISTS schema_migrations (...)`. -/
  | createTable
  /-- The call `filepath.Glob(filepath.Join(migrationsPath, "*.sql"))`. -/
  | glob (migrationsPath : String)
  /-- The query `SELECT COUNT(*) FROM schema_migrations WHERE version = $1`. -/
  | countVersion (file version : String)
  /-- The call `ioutil.ReadFile(filePath)`. -/
  | readFile (file : String)
  /-- The call `db.Exec(string(content))`. -/
  | execScript (file sql : String)
  /-- The statement `INSERT INTO schema_migrations (version) VALUES ($1)`. -/
  | insertVersion (file version : String)
deriving DecidableEq, Repr

/-- A logged call: the call, whether it succeeded, and the recorded versions right after it. -/
structure Entry where
  call : Call
  ok : Bool
  rows : List String
deriving DecidableEq, Repr

/-- The mutable state a run acts on.  `table` is `schema_migrations` (`none`: the table does not
exist; otherwise its `version` column in insertion order), `applied` the scripts the database
has applied, `tick` the number of database calls made so far, `log` the calls made so far. -/
structure World where
  table : Option (List String)
  applied : List String
  tick : Nat
  log : List Entry
deriving DecidableEq, Repr

/-- The recorded versions: the rows of `schema_migrations` (none when the table is absent). -/
def World.rows (w : World) : List String := w.table.getD []

/-- What a run cannot change: the directory listing, the file contents, the meaning of the
scripts and the failures.  `glob migrationsPath` is
`filepath.Glob(filepath.Join(migrationsPath, "*.sql"))`.  `scriptEffect sql ok applied table` is
the table `schema_migrations` after the database ran the script `sql` (`ok`: to the end;
otherwise until it failed) from the state in which the scripts `applied` had been applied and
the table was `table`. -/
structure Env where
  glob : String → Except GoError (List String)
  readFile : String → Except GoError String
  scriptError : String → Option GoError
  scriptEffect : String → Bool → List String → Option (List String) → Option (List String)
  fault : Nat → Option GoError

/-- The migration bodies of the environment leave the table `schema_migrations` as it is. -/
def Env.keepsTable (env : Env) : Prop :=
  ∀ sql ok applied table, env.scriptEffect sql ok applied table = table

/-- The effect of scripts that do not touch `schema_migrations`. -/
def keepTable : String → Bool → List String → Option (List String) → Option (List String) :=
  fun _ _ _ table => table

/-- Account for a database call: one more tick, one more log entry. -/
def World.dbStep (w : World) (call : Call) (ok : Bool) : World :=
  { w with tick := w.tick + 1, log := w.log ++ [⟨call, ok, w.rows⟩] }

/-- Account for a filesystem call: one more log entry. -/
def World.fsStep (w : World) (call : Call) (ok : Bool) : World :=
  { w with log := w.log ++ [⟨call, ok, w.rows⟩] }

/-- The error of a statement that names `schema_migrations` while the table does not exist. -/
def errNoTable : GoError := .base "relation schema_migrations does not exist"

/-- The error of an `INSERT` whose `version` is already a row (`version` is the primary key). -/
def errDuplicate : GoError := .base "duplicate key value violates unique constraint"

/-- The call `m.db.Exec("CREATE TABLE IF NOT EXISTS schema_migrations ...")`: creates the
empty table when it is absent and leaves an existing table alone. -/
def dbCreateTable (env : Env) (w : World) : Option GoError × World :=
  match env.fault w.tick with
  | some err => (some err, w.dbStep .createTable false)
  | none => (none, World.dbStep { w with table := some w.rows } .createTable true)

/-- The call `m.db.QueryRow("SELECT COUNT(*) ... WHERE version = $1", version).Scan(&count)`. -/
def dbCountVersion (env : Env) (file version : String) (w : World) : Except GoError Nat × World :=
  match env.fault w.tick with
  | some err => (.error err, w.dbStep (.countVersion file version) false)
  | none =>
    match w.table with
    | none => (.error errNoTable, w.dbStep (.countVersion file version) false)
    | some rows => (.ok (rows.count version), w.dbStep (.countVersion file version) true)

/-- The call `ioutil.ReadFile(filePath)`. -/
def fsReadFile (env : Env) (file : String) (w : World) : Except GoError String × World :=
  match env.readFile file with
  | .error err => (.error err, w.fsStep (.readFile file) false)
  | .ok content => (.ok content, w.fsStep (.readFile file) true)

/-- The world after the database ran the script `sql` of `file`: the table is what the script
makes of it, and a script that ran to the end joins the applied history. -/
def afterScript (env : Env) (file sql : String) (ok : Bool) (w : World) : World :=
  World.dbStep
    { w with
      table := env.scriptEffect sql ok w.applied w.table
      applied := if ok then w.applied ++ [sql] else w.applied }
    (.execScript file sql) ok

/-- The call `m.db.Exec(string(content))`: the script is arbitrary SQL, run on the database
that holds `schema_migrations`. -/
def dbExecScript (env : Env) (file sql : String) (w : World) : Option GoError × World :=
  match env.fault w.tick with
  | some err => (some err, afterScript env file sql false w)
  | none =>
    match env.scriptError sql with
    | some err => (some err, afterScript env file sql false w)
    | none => (none, afterScript env file sql true w)

/-- The call `m.db.Exec("INSERT INTO schema_migrations (version) VALUES ($1)", version)`. -/
def dbInsertVersion (env : Env) (file version : String) (w : World) : Option GoError × World :=
  match env.fault w.tick with
  | some err => (some err, w.dbStep (.insertVersion file version) false)
  | none =>
    match w.table with
    | none => (some errNoTable, w.dbStep (.insertVersion file version) false)
    | some rows =>
      if version ∈ rows then (some errDuplicate, w.dbStep (.insertVersion file version) false)
      else
        (none, World.dbStep { w with table := some (rows ++ [version]) }
          (.insertVersion file version) true)

/-! ## The runner -/

/-- The call `filepath.Glob(filepath.Join(migrationsPath, "*.sql"))`. -/
def fsGlob (env : Env) (migrationsPath : String) (w : World) :
    Except GoError (List String) × World :=
  match env.glob migrationsPath with
  | .error err => (.error err, w.fsStep (.glob migrationsPath) false)
  | .ok files => (.ok files, w.fsStep (.glob migrationsPath) true)

/-- The method `createMigrationsTable`. -/
def createMigrationsTable (env : Env) (w : World) : Option GoError × World :=
  dbCreateTable env w

/-- The method `runMigration`. -/
def runMigration (env : Env) (filePath : String) (w : World) : Option GoError × World :=
  let filename := filepathBase filePath
  -- Check if migration already applied
  match dbCountVersion env filePath filename w with
  | (.error err, w1) => (some err, w1)
  | (.ok count, w1) =>
    if count > 0 then (none, w1) -- Already applied
    else
      -- Read and execute migration
      match fsReadFile env filePath w1 with
      | (.error err, w2) => (some err, w2)
      | (.ok content, w2) =>
        match dbExecScript env filePath content w2 with
        | (some err, w3) => (some err, w3)
        | (none, w3) =>
          -- Record migration as applied
          dbInsertVersion env filePath filename w3

/-- The loop `for _, file := range files` of `RunMigrations`. -/
def runFiles (env : Env) : List String → World → Option GoError × World
  | [], w => (none, w)
  | file :: rest, w =>
    match runMigration env file w with
    | (some err, w1) => (some (errRunMigration file err), w1)
    | (none, w1) => runFiles env rest w1

/-- The method `RunMigrations`. -/
def RunMigrations (env : Env) (migrationsPath : String) (w : World) : Option GoError × World :=
  -- Create migrations table if it doesn't exist
  match createMigrationsTable env w with
  | (some err, w1) => (some (errCreateTable err), w1)
  | (none, w1) =>
    -- Get list of migration files
    match fsGlob env migrationsPath w1 with
    | (.error err, w2) => (some (errListFiles err), w2)
    | (.ok files, w2) => runFiles env (sortStrings files) w2

/-! ## Observations on a world -/

/-- The candidate whose body a logged call executed successfully, if it is such a call. -/
def Entry.executedFile (e : Entry) : Option String :=
  match e.call, e.ok with
  | .execScript file _, true => some file
  | _, _ => none

/-- The candidate whose body a logged call sent to the database, whether or not the
execution succeeded, if it is such a call. -/
def Entry.attemptedFile (e : Entry) : Option String :=
  match e.call with
  | .execScript file _ => some file
  | _ => none

/-- The version a logged call inserted successfully, if it is such a call. -/
def Entry.insertedVersion (e : Entry) : Option String :=
  match e.call, e.ok with
  | .insertVersion _ version, true => some version
  | _, _ => none

/-- The candidate a logged call was made for (none for the table creation). -/
def Entry.file (e : Entry) : Option String :=
  match e.call with
  | .createTable => none
  | .glob _ => none
  | .countVersion file _ => some file
  | .readFile file => some file
  | .execScript file _ => some file
  | .insertVersion file _ => some file

/-- The entries a run added to the log: those of `w1` beyond the log of the start `w`. -/
def newEntries (w w1 : World) : List Entry := w1.log.drop w.log.length

/-- The candidates whose bodies were executed successfully, in execution order. -/
def executedFiles (log : List Entry) : List String := log.filterMap Entry.executedFile

/-- The candidates whose bodies were sent to the database, successfully or not, in order. -/
def attemptedFiles (log : List Entry) : List String := log.filterMap Entry.attemptedFile

/-- The versions inserted successfully, in insertion order. -/
def insertedVersions (log : List Entry) : List String := log.filterMap Entry.insertedVersion

/-- A fresh database: no bookkeeping table, nothing applied, no call made. -/
def World.fresh : World := { table := none, applied := [], tick := 0, log := [] }

/-- No database call fails. -/
def noFault : Nat → Option GoError := fun _ => none

/-- A three-file directory `m` whose files are all readable and valid. -/
def demoEnv (fault : Nat → Option GoError) : Env :=
  { glob := fun _ => .ok ["m/002_b.sql", "m/003_c.sql", "m/001_a.sql"]
    readFile := fun file => .ok ("-- body of " ++ file)
    scriptError := fun _ => none
    scriptEffect := keepTable
    fault := fault }

/-- The failure pattern in which exactly the database call number `n` fails, with `err`. -/
def faultAt (n : Nat) (err : GoError) : Nat → Option GoError :=
  fun m => if m = n then some err else none

/-- A database in which `001_a.sql` is already recorded. -/
def demoRecorded : World :=
  { table := some ["001_a.sql"], applied := ["-- body of m/001_a.sql"], tick := 0, log := [] }

/-- A directory whose files cannot be read. -/
def demoEnvUnreadable (fault : Nat → Option GoError) : Env :=
  { glob := fun _ => .ok ["m/002_b.sql", "m/003_c.sql", "m/001_a.sql"]
    readFile := fun _ => .error (.base "permission denied")
    scriptError := fun _ => some (.base "syntax error")
    scriptEffect := keepTable
    fault := fault }

/-- The same directory when the body of the file `bad` is invalid SQL. -/
def demoEnvInvalid (bad : String) : Env :=
  { glob := fun _ => .ok ["m/002_b.sql", "m/003_c.sql", "m/001_a.sql"]
    readFile := fun file => .ok ("-- body of " ++ file)
    scriptError := fun sql =>
      if sql = "-- body of " ++ bad then some (.base "syntax error") else none
    scriptEffect := keepTable
    fault := noFault }

/-- The effect of scripts of which the body of `file` is `DELETE FROM schema_migrations` and
the others leave the table as it is. -/
def clearsTable (file : String) :
    String → Bool → List String → Option (List String) → Option (List String) :=
  fun sql ok _ table =>
    if sql = "-- body of " ++ file ∧ ok = true then table.map (fun _ => []) else table

/-- The effect of scripts of which the body of `file` holds
`INSERT INTO schema_migrations (version) VALUES (version)` and the others leave the table as
it is. -/
def recordsVersion (file version : String) :
    String → Bool → List String → Option (List String) → Option (List String) :=
  fun sql ok _ table =>
    if sql = "-- body of " ++ file ∧ ok = true then table.map (fun rows => rows ++ [version])
    else table

/-- A directory scan that returns `files`, all readable and valid, with the given effect of
the bodies on `schema_migrations`. -/
def demoEnvScripts (files : List String)
    (scriptEffect : String → Bool → List String → Option (List String) → Option (List String))
    (fault : Nat → Option GoError) : Env :=
  { glob := fun _ => .ok files
    readFile := fun file => .ok ("-- body of " ++ file)
    scriptError := fun _ => none
    scriptEffect := scriptEffect
    fault := fault }

/-- The version a logged call tried to insert, whether or not the insert succeeded. -/
def Entry.attemptedInsert (e : Entry) : Option String :=
  match e.call with
  | .insertVersion _ version => some version
  | _ => none

/-- The versions for which an insert was issued, successfully or not, in order. -/
def attemptedInserts (log : List Entry) : List String := log.filterMap Entry.attemptedInsert

/-- Every insert in the log comes right after a successful existence query, the read and
the execution of the same file, and the query saw the version absent from the table. -/
def insertsAfterAbsentCount (es : List Entry) : Prop :=
  ∀ pre e post, es = pre ++ e :: post → ∀ f v, e.call = .insertVersion f v →
    ∃ pre0 rows sql, pre = pre0 ++ [⟨.countVersion f v, true, rows⟩, ⟨.readFile f, true, rows⟩,
      ⟨.execScript f sql, true, rows⟩] ∧ v ∉ rows

/-- Every insert in the log comes right after a successful existence query that saw the
version absent from the table, the read and the successful execution of the same file;
`rows2` is the table the body left. -/
def insertsFollowAbsentCount (es : List Entry) : Prop :=
  ∀ pre e post, es = pre ++ e :: post → ∀ f v, e.call = .insertVersion f v →
    ∃ pre0 rows rows2 sql, pre = pre0 ++ [⟨.countVersion f v, true, rows⟩,
      ⟨.readFile f, true, rows⟩, ⟨.execScript f sql, true, rows2⟩] ∧ v ∉ rows

/-! ## The directory scan on a filesystem -/

/-- The filesystem as `filepath.Glob(filepath.Join(migrationsPath, "*.sql"))` sees it.
`readDir dir` are the names of the entries of `dir`, and `none` when `dir` does not exist, is
not a directory or cannot be read.  `expand dir` is the result of `Glob(dir)` for a directory
path that holds pattern characters: the paths it expands to, or the error `ErrBadPattern`
when the pattern is malformed. -/
structure FileSystem where
  expand : String → Except GoError (List String)
  readDir : String → Option (List String)

/-- The function `hasMeta` of `path/filepath` (Unix): whether the path holds one of the
pattern characters `*`, `?`, `[` and the backslash. -/
def hasMeta (path : String) : Bool :=
  path.data.any (fun c => c == '*' || c == '?' || c == '[' || c == Char.ofNat 92)

/-- The elements of a path: the runs of characters between its slashes. -/
def pathElements : List Char → List (List Char)
  | [] => [[]]
  | c :: cs =>
    if c = '/' then [] :: pathElements cs
    else
      match pathElements cs with
      | [] => [[c]]
      | e :: es => (c :: e) :: es

/-- One step of the loop of `filepath.Clean`: `out` are the elements written so far, the last
one first.  An empty element and `.` are dropped; `..` removes the last element written, is
dropped at the root, and is kept where there is nothing to remove in a relative path. -/
def cleanElement (rooted : Bool) (out : List (List Char)) (e : List Char) : List (List Char) :=
  if e = [] ∨ e = ['.'] then out
  else if e = ['.', '.'] then
    match out with
    | [] => if rooted then [] else [e]
    | top :: rest => if top = ['.', '.'] then e :: out else rest
  else e :: out

/-- The function `filepath.Clean` (Unix): the shortest path equivalent to `path` by purely
lexical processing. -/
def filepathClean (path : String) : String :=
  let rooted := path.data.head? = some '/'
  let out := (pathElements path.data).foldl (cleanElement rooted) []
  let body := String.mk (List.intercalate ['/'] out.reverse)
  if rooted then "/" ++ body else if out = [] then "." else body

/-- The call `filepath.Join(dir, name)`: the elements that are not empty, joined by a slash
and cleaned. -/
def filepathJoin (dir name : String) : String :=
  if dir = "" then (if name = "" then "" else filepathClean name)
  else filepathClean (dir ++ "/" ++ name)

/-- The function `filepath.Split` (Unix): the path up to and including its last slash, and
what follows that slash. -/
def filepathSplit (path : String) : String × String :=
  let file := (path.data.reverse.takeWhile (· != '/')).reverse
  (String.mk (path.data.take (path.data.length - file.length)), String.mk file)

/-- The function `cleanGlobPath` of `path/filepath` (Unix), which prepares the directory part
of a pattern: `.` for the empty path, the root as it is, otherwise the path without its
trailing slash. -/
def cleanGlobPath (path : String) : String :=
  if path = "" then "."
  else if path = "/" then "/"
  else String.mk path.data.dropLast

/-- The pattern `RunMigrations` passes to `filepath.Glob`. -/
def globPattern (migrationsPath : String) : String := filepathJoin migrationsPath "*.sql"

/-- The directory part of the pattern `filepath.Join(migrationsPath, "*.sql")` as `Glob`
splits it off: the source path as `Join` cleaned it (`m` for `./m` and for `m/`, `.` for the
empty path).  The file part is `*.sql`. -/
def scanDir (migrationsPath : String) : String :=
  cleanGlobPath (filepathSplit (globPattern migrationsPath)).1

/-- The directories `Glob` scans for the pattern `Join(migrationsPath, "*.sql")`: the
directory part of the pattern itself when it holds no pattern character, what it expands to
otherwise. -/
def globDirs (fs : FileSystem) (migrationsPath : String) : Except GoError (List String) :=
  if hasMeta (scanDir migrationsPath) then fs.expand (scanDir migrationsPath)
  else .ok [scanDir migrationsPath]

/-- The call `filepath.Match("*.sql", name)`: the star matches any run of characters other
than the separator, so the name ends in `.sql` and holds no slash. -/
def matchSql (name : String) : Bool :=
  (".sql".data).isSuffixOf name.data && !(name.data.contains '/')

/-- The matches `filepath.Glob` collects in one directory: it sorts the entry names and keeps
those the pattern matches; a directory that cannot be read contributes nothing, since `Glob`
ignores file system errors. -/
def globDir (fs : FileSystem) (dir : String) : List String :=
  match fs.readDir dir with
  | none => []
  | some names => ((sortStrings names).filter matchSql).map (filepathJoin dir)

/-- The call `filepath.Glob(filepath.Join(migrationsPath, "*.sql"))` on a filesystem. -/
def globSql (fs : FileSystem) (migrationsPath : String) : Except GoError (List String) :=
  match globDirs fs migrationsPath with
  | .error err => .error err
  | .ok ds => .ok (ds.flatMap (globDir fs))

/-- The environment of a run on a filesystem, with bodies that leave `schema_migrations` as
it is. -/
def fsEnv (fs : FileSystem) (readFile : String → Except GoError String)
    (scriptError : String → Option GoError) (fault : Nat → Option GoError) : Env :=
  { glob := globSql fs, readFile := readFile, scriptError := scriptError,
    scriptEffect := keepTable, fault := fault }

/-- A filesystem whose only directory is `m`, with the entries `names`; a pattern expands to
nothing. -/
def demoFS (names : List String) : FileSystem :=
  { expand := fun _ => .ok []
    readDir := fun dir => if dir = "m" then some names else none }

/-- A filesystem with the directories `m*` (a note only), `m1` (with `002_b.sql`), `m2`
(with `001_a.sql`), `a[1]` (with `x.sql`) and `a1` (with `y.sql`).  As a pattern, `m*` matches
`m*`, `m1` and `m2`, and `a[1]` matches `a1` only. -/
def demoFSPatterns : FileSystem :=
  { expand := fun dir =>
      if dir = "m*" then .ok ["m*", "m1", "m2"]
      else if dir = "a[1]" then .ok ["a1"]
      else .ok []
    readDir := fun dir =>
      if dir = "m*" then some ["notes.txt"]
      else if dir = "m1" then some ["002_b.sql"]
      else if dir = "m2" then some ["001_a.sql"]
      else if dir = "a[1]" then some ["x.sql"]
      else if dir = "a1" then some ["y.sql"]
      else none }

/-- Two directories `m1` and `m2` that both hold a file `001_a.sql`. -/
def demoEnvSameBase : Env :=
  { glob := fun _ => .ok ["m2/001_a.sql", "m1/002_b.sql", "m1/001_a.sql"]
    readFile := fun file => .ok ("-- body of " ++ file)
    scriptError := fun _ => none
    scriptEffect := keepTable
    fault := noFault }

/-- The two directories of `demoEnvSameBase` when the body of `m1/002_b.sql` is invalid
SQL. -/
def demoEnvSameBaseInvalid : Env :=
  { demoEnvSameBase with
    scriptError := fun sql =>
      if sql = "-- body of m1/002_b.sql" then some (.base "syntax error") else none }

/-- The world after the existence query for `file`. -/
def afterCount (file : String) (ok : Bool) (w : World) : World :=
  w.dbStep (.countVersion file (filepathBase file)) ok

/-- The world after the existence query succeeded and `file` was read. -/
def afterRead (file : String) (ok : Bool) (w : World) : World :=
  (afterCount file true w).fsStep (.readFile file) ok

/-- The world after the body `sql` of `file` failed to execute, leaving the table as it
was. -/
def afterExecFailed (file sql : String) (w : World) : World :=
  (afterRead file true w).dbStep (.execScript file sql) false

/-- The world after the body `sql` of `file` was executed, leaving the table as it was. -/
def afterExec (file sql : String) (w : World) : World :=
  World.dbStep { afterRead file true w with applied := w.applied ++ [sql] }
    (.execScript file sql) true

/-- The world after the body of `file` was executed and the insert of its version failed. -/
def afterInsertFailed (file sql : String) (w : World) : World :=
  (afterExec file sql w).dbStep (.insertVersion file (filepathBase file)) false

/-- The world after the body of `file` was executed and its version was recorded. -/
def afterInsert (file sql : String) (w : World) : World :=
  World.dbStep { afterExec file sql w with table := some (w.rows ++ [filepathBase file]) }
    (.insertVersion file (filepathBase file)) true

/-- The world after `CREATE TABLE IF NOT EXISTS` succeeded. -/
def afterCreate (w : World) : World :=
  World.dbStep { w with table := some w.rows } .createTable true

/-- The world after the table creation succeeded and the directory was listed. -/
def afterGlob (migrationsPath : String) (ok : Bool) (w : World) : World :=
  (afterCreate w).fsStep (.glob migrationsPath) ok

/-- The recorded versions `rows` are, as a set, the base names of a beginning of the sorted
candidate list. -/
def recordedPrefix (sorted rows : List String) : Prop :=
  ∃ n, ∀ v, v ∈ rows ↔ v ∈ (sorted.take n).map filepathBase

/-- The six ways a call of `runMigration` on `file` can end when the bodies leave the table
as it is, with the error returned and the world it leaves. -/
inductive StepFacts (env : Env) (file : String) (w : World) : Option GoError → World → Prop where
  | countFailed (err : GoError)
      (hwhy : env.fault w.tick = some err ∨ (w.table = none ∧ err = errNoTable)) :
      StepFacts env file w (some err) (afterCount file false w)
  | skipped (hfault : env.fault w.tick = none) (htable : w.table.isSome)
      (hmem : filepathBase file ∈ w.rows) : StepFacts env file w none (afterCount file true w)
  | readFailed (err : GoError) (htable : w.table.isSome) (hmem : filepathBase file ∉ w.rows)
      (hread : env.readFile file = .error err) :
      StepFacts env file w (some err) (afterRead file false w)
  | execFailed (err : GoError) (sql : String) (htable : w.table.isSome)
      (hmem : filepathBase file ∉ w.rows) (hread : env.readFile file = .ok sql)
      (hwhy : env.fault (w.tick + 1) = some err ∨ env.scriptError sql = some err) :
      StepFacts env file w (some err) (afterExecFailed file sql w)
  | insertFailed (err : GoError) (sql : String) (htable : w.table.isSome)
      (hmem : filepathBase file ∉ w.rows) (hread : env.readFile file = .ok sql)
      (hwhy : env.fault (w.tick + 2) = some err) :
      StepFacts env file w (some err) (afterInsertFailed file sql w)
  | recorded (sql : String) (htable : w.table.isSome) (hmem : filepathBase file ∉ w.rows)
      (hread : env.readFile file = .ok sql) :
      StepFacts env file w none (afterInsert file sql w)

/-- The ways the loop of `RunMigrations` over a list of files can end. -/
inductive LoopFacts (env : Env) : List String → World → Option GoError → World → Prop where
  | done (w : World) : LoopFacts env [] w none w
  | halt (file : String) (rest : List String) (w w1 : World) (err : GoError)
      (hstep : StepFacts env file w (some err) w1)
      (hrun : runMigration env file w = (some err, w1)) :
      LoopFacts env (file :: rest) w (some (errRunMigration file err)) w1
  | next (file : String) (rest : List String) (w w1 w2 : World) (r : Option GoError)
      (hstep : StepFacts env file w none w1) (hrest : LoopFacts env rest w1 r w2) :
      LoopFacts env (file :: rest) w r w2

/-- The three ways a call of `RunMigrations` can proceed. -/
inductive RunFacts (env : Env) (migrationsPath : String) (w : World) :
    Option GoError → World → Prop where
  | createFailed (err : GoError) (hfault : env.fault w.tick = some err) :
      RunFacts env migrationsPath w (some (errCreateTable err)) (w.dbStep .createTable false)
  | globFailed (err : GoError) (hfault : env.fault w.tick = none)
      (hglob : env.glob migrationsPath = .error err) :
      RunFacts env migrationsPath w (some (errListFiles err)) (afterGlob migrationsPath false w)
  | looped (files : List String) (r : Option GoError) (w1 : World)
      (hfault : env.fault w.tick = none) (hglob : env.glob migrationsPath = .ok files)
      (hloop : LoopFacts env (sortStrings files) (afterGlob migrationsPath true w) r w1) :
      RunFacts env migrationsPath w r w1

end Migrations

/-! # HTTP layer (`middleware/logging.go`, `config/db.go`, `handlers/`)

A shallow embedding of the request-ID middleware, the database health check and the employee
and health handlers.  A handler takes the `gin.Context` it is called with and returns the
context it leaves, or the way it was cut short (a panic, or `log.Fatal`).  What the libraries
decide is an input: the outcome of `ShouldBindJSON` for the request body, the results of the
database calls, the UUID that `uuid.New` draws.  Log lines are kept as level and message;
their fields are not modelled. -/

namespace Models

/-- The struct `Employee` of `models/employee.go`; the two times are seconds since the
epoch. -/
structure Employee where
  ID : Nat
  FirstName : String
  LastName : String
  CreatedAt : Int
  UpdatedAt : Int
deriving DecidableEq, Repr

end Models

namespace Gin

open Migrations (GoError)

/-- The struct `ErrorResponse` of `middleware/error_handler.go`. -/
structure ErrorResponse where
  Error : String
deriving DecidableEq, Repr

/-- The struct `HealthResponse` of `handlers/health.go`. -/
structure HealthResponse where
  Status : String
  Database : String
  Message : String
deriving DecidableEq, Repr

/-- A value stored in the context under a key (`interface{}`): a string, or anything else. -/
inductive Value where
  | str (s : String)
  | other (description : String)
deriving DecidableEq, Repr

/-- The value a handler passes to `c.JSON`. -/
inductive Body where
  | errorResponse (r : ErrorResponse)
  | employee (e : Models.Employee)
  | health (h : HealthResponse)
deriving DecidableEq, Repr

/-- The fields of the JSON object `c.JSON` renders for an `ErrorResponse` (tag `error`). -/
def ErrorResponse.jsonFields (r : ErrorResponse) : List (String × String) :=
  [("error", r.Error)]

/-- The fields of the JSON object `c.JSON` renders for a `HealthResponse`. -/
def HealthResponse.jsonFields (h : HealthResponse) : List (String × String) :=
  [("status", h.Status), ("database", h.Database), ("message", h.Message)]

/-- One call of `c.JSON`: the status code and the value rendered. -/
structure Response where
  status : Nat
  body : Body
deriving DecidableEq, Repr

/-- The ways a handler is cut short: a panic, or `log.Fatal` ending the process. -/
inductive Abort where
  | panic (msg : String)
  | fatal (msg : String)
deriving DecidableEq, Repr

/-- A database access made while handling a request. -/
inductive DbCall where
  | getDB
  | create (e : Models.Employee)
  | first (id : String)
  | updates (existing data : Models.Employee)
deriving DecidableEq, Repr

/-- A line written to the application log. -/
structure LogLine where
  level : String
  message : String
deriving DecidableEq, Repr

/-- The `gin.Context` of one request, with what handling it has done so far: `written` are the
calls of `c.JSON`, `logs` the log lines, `dbCalls` the database accesses.  The header maps are
keyed by canonical header name; `bindJSON` is what `ShouldBindJSON` returns for the body. -/
structure Context where
  requestHeader : String → List String
  params : String → String
  bindJSON : Except GoError Models.Employee
  keys : String → Option Value
  responseHeader : String → List String
  written : List Response
  logs : List LogLine
  dbCalls : List DbCall

/-- The table `isTokenTable` of `net/textproto`: the bytes allowed in a header name. -/
def validHeaderFieldByte (c : Char) : Bool :=
  c.isAlphanum || "!#$%&*+-.^_|~".data.contains c || c == Char.ofNat 39 || c == Char.ofNat 96

/-- The loop of `textproto.canonicalMIMEHeaderKey`: upper case at the start and after a
hyphen, lower case elsewhere. -/
def canonicalChars : Bool → List Char → List Char
  | _, [] => []
  | upper, c :: cs =>
    let c1 :=
      if upper && c.isLower then c.toUpper
      else if !upper && c.isUpper then c.toLower
      else c
    c1 :: canonicalChars (c1 == '-') cs

/-- The function `textproto.CanonicalMIMEHeaderKey`: a name with a byte that is not allowed
is returned unchanged. -/
def canonicalMIMEHeaderKey (s : String) : String :=
  if s.data.all validHeaderFieldByte then String.mk (canonicalChars true s.data) else s

/-- The method `c.GetHeader(key)`: the first value of the request header, or `""`. -/
def Context.GetHeader (c : Context) (key : String) : String :=
  (c.requestHeader (canonicalMIMEHeaderKey key)).headD ""

/-- The call `c.Writer.Header().Get(key)`: the first value of the response header. -/
def Context.responseHeaderGet (c : Context) (key : String) : String :=
  (c.responseHeader (canonicalMIMEHeaderKey key)).headD ""

/-- The method `c.Header(key, value)`: sets the response header, and deletes it when the
value is empty. -/
def Context.Header (c : Context) (key value : String) : Context :=
  if value = "" then
    { c with responseHeader := fun k =>
        if k = canonicalMIMEHeaderKey key then [] else c.responseHeader k }
  else
    { c with responseHeader := fun k =>
        if k = canonicalMIMEHeaderKey key then [value] else c.responseHeader k }

/-- The method `c.Set(key, value)`. -/
def Context.Set (c : Context) (key : String) (value : Value) : Context :=
  { c with keys := fun k => if k = key then some value else c.keys k }

/-- The method `c.Get(key)`: the value and whether it exists. -/
def Context.Get (c : Context) (key : String) : Option Value := c.keys key

/-- The method `c.Param(key)`. -/
def Context.Param (c : Context) (key : String) : String := c.params key

/-- The method `c.ShouldBindJSON(&obj)`. -/
def Context.ShouldBindJSON (c : Context) : Except GoError Models.Employee := c.bindJSON

/-- The method `c.JSON(code, obj)`. -/
def Context.JSON (c : Context) (code : Nat) (obj : Body) : Context :=
  { c with written := c.written ++ [⟨code, obj⟩] }

/-- A log line written through the application logger. -/
def Context.log (c : Context) (level message : String) : Context :=
  { c with logs := c.logs ++ [⟨level, message⟩] }

/-- A database access. -/
def Context.db (c : Context) (call : DbCall) : Context :=
  { c with dbCalls := c.dbCalls ++ [call] }

/-- The status codes of `net/http` the handlers use. -/
def StatusOK : Nat := 200

def StatusCreated : Nat := 201

def StatusBadRequest : Nat := 400

def StatusNotFound : Nat := 404

def StatusInternalServerError : Nat := 500

def StatusServiceUnavailable : Nat := 503

end Gin

namespace Uuid

/-- A UUID of `github.com/google/uuid`: sixteen bytes. -/
structure UUID where
  byte : Fin 16 → Fin 256

/-- Two lower-case hexadecimal digits of a byte (`hex.Encode`). -/
def hexByte (b : Fin 256) : List Char :=
  [Nat.digitChar (b.val / 16), Nat.digitChar (b.val % 16)]

/-- The method `UUID.String`: the form `xxxxxxxx-xxxx-xxxx-xxxx-xxxxxxxxxxxx`. -/
def UUID.String (u : UUID) : String :=
  String.mk (hexByte (u.byte 0) ++ hexByte (u.byte 1) ++ hexByte (u.byte 2) ++
    hexByte (u.byte 3) ++ ['-'] ++ hexByte (u.byte 4) ++ hexByte (u.byte 5) ++ ['-'] ++
    hexByte (u.byte 6) ++ hexByte (u.byte 7) ++ ['-'] ++ hexByte (u.byte 8) ++
    hexByte (u.byte 9) ++ ['-'] ++ hexByte (u.byte 10) ++ hexByte (u.byte 11) ++
    hexByte (u.byte 12) ++ hexByte (u.byte 13) ++ hexByte (u.byte 14) ++ hexByte (u.byte 15))

end Uuid

namespace Middleware

open Gin

/-- The handler `RequestID` returns; `newUUID` is the value of `uuid.New()` at this call and
`next` the rest of the chain, run by `c.Next()`. -/
def RequestID (newUUID : Uuid.UUID) (next : Context → Except Abort Context) (c : Context) :
    Except Abort Context :=
  let requestID := c.GetHeader "X-Request-ID"
  let requestID := if requestID = "" then newUUID.String else requestID
  -- Set the request ID in both the response header and context
  let c := c.Header "X-Request-ID" requestID
  let c := c.Set "request_id" (.str requestID)
  next c

/-- The function `GetRequestID`: the type assertion `requestID.(string)` panics on a value
that is not a string. -/
def GetRequestID (c : Context) : Except Abort String :=
  match c.Get "request_id" with
  | some (.str requestID) => .ok requestID
  | some (.other _) => .error (.panic "interface conversion: interface {} is not string")
  | none => .ok ""

end Middleware

namespace Config

open Gin
open Migrations (GoError)

/-- The error `gorm.ErrInvalidDB`. -/
def ErrInvalidDB : GoError := .base "invalid db"

/-- The error `gorm.ErrRecordNotFound`. -/
def ErrRecordNotFound : GoError := .base "record not found"

/-- The handle `*sql.DB`: `ping` is what `PingContext` returns within its five seconds. -/
structure SqlDB where
  ping : Option GoError

/-- The handle `*gorm.DB` as the handlers use it: the result of `db.DB()`, of `Create`, of
`First` (which may differ from one database access of the request to the next, hence the
index) and of `Model(..).Updates(..)`. -/
structure GormDB where
  DB : Except GoError SqlDB
  create : Models.Employee → Except GoError Models.Employee
  first : Nat → String → Except GoError Models.Employee
  updates : Models.Employee → Models.Employee → Option GoError

/-- The function `GetDB`; the package variable `db` is `none` before `InitDB`. -/
def GetDB (db : Option GormDB) : Except Abort GormDB :=
  match db with
  | none => .error (.fatal "Database not initialized. Call InitDB() first.")
  | some gorm => .ok gorm

/-- The function `HealthCheck`. -/
def HealthCheck (db : Option GormDB) : Option GoError :=
  match db with
  | none => some ErrInvalidDB
  | some gorm =>
    match gorm.DB with
    | .error err => some err
    | .ok sqlDB => sqlDB.ping

end Config

namespace Utils

open Gin
open Migrations (GoError)

/-- The function `LogDBError`. -/
def LogDBError (c : Context) (err : GoError) : Context :=
  if err = Config.ErrRecordNotFound then c.log "warning" "Database record not found"
  else c.log "error" "Database operation failed"

/-- The function `LogValidationError`. -/
def LogValidationError (c : Context) : Context :=
  c.log "warning" "Validation error occurred"

end Utils

namespace Handlers

open Gin
open Migrations (GoError)

/-- The handler `CreateEmployeeHandler`. -/
def CreateEmployeeHandler (db : Option Config.GormDB) (c : Context) : Except Abort Context :=
  match Middleware.GetRequestID c with
  | .error abort => .error abort
  | .ok _ =>
    -- Log request start
    let c := c.log "info" "Processing create employee request"
    -- Bind JSON to the employee struct and validate
    match c.ShouldBindJSON with
    | .error _ =>
      let c := Utils.LogValidationError c
      .ok (c.JSON StatusBadRequest (.errorResponse ⟨"Invalid request format"⟩))
    | .ok employee =>
      -- Validate required fields
      if employee.FirstName = "" then
        let c := Utils.LogValidationError c
        .ok (c.JSON StatusBadRequest (.errorResponse ⟨"first_name is required"⟩))
      else if employee.LastName = "" then
        let c := Utils.LogValidationError c
        .ok (c.JSON StatusBadRequest (.errorResponse ⟨"last_name is required"⟩))
      else
        -- Get database connection
        match Config.GetDB db with
        | .error abort => .error abort
        | .ok gorm =>
          let c := c.db .getDB
          -- Insert into database
          let c := c.db (.create employee)
          match gorm.create employee with
          | .error err =>
            let c := Utils.LogDBError c err
            .ok (c.JSON StatusInternalServerError
              (.errorResponse ⟨"Failed to create employee"⟩))
          | .ok created =>
            let c := c.log "info" "Employee created successfully"
            -- Return created employee
            .ok (c.JSON StatusCreated (.employee created))

/-- The handler `UpdateEmployeeHandler`. -/
def UpdateEmployeeHandler (db : Option Config.GormDB) (c : Context) : Except Abort Context :=
  match Middleware.GetRequestID c with
  | .error abort => .error abort
  | .ok _ =>
    -- Get employee ID from URL parameter
    let employeeID := c.Param "id"
    if employeeID = "" then
      let c := Utils.LogValidationError c
      .ok (c.JSON StatusBadRequest (.errorResponse ⟨"Employee ID is required"⟩))
    else
      -- Log request start
      let c := c.log "info" "Processing update employee request"
      -- Bind JSON to the employee struct
      match c.ShouldBindJSON with
      | .error _ =>
        let c := Utils.LogValidationError c
        .ok (c.JSON StatusBadRequest (.errorResponse ⟨"Invalid request format"⟩))
      | .ok updateData =>
        match Config.GetDB db with
        | .error abort => .error abort
        | .ok gorm =>
          let c := c.db .getDB
          -- Check if employee exists first
          let found := gorm.first c.dbCalls.length employeeID
          let c := c.db (.first employeeID)
          match found with
          | .error err =>
            let c := Utils.LogDBError c err
            if err = Config.ErrRecordNotFound then
              .ok (c.JSON StatusNotFound (.errorResponse ⟨"Employee not found"⟩))
            else
              .ok (c.JSON StatusInternalServerError
                (.errorResponse ⟨"Failed to retrieve employee"⟩))
          | .ok existingEmployee =>
            -- Update employee
            let c := c.db (.updates existingEmployee updateData)
            match gorm.updates existingEmployee updateData with
            | some err =>
              let c := Utils.LogDBError c err
              .ok (c.JSON StatusInternalServerError
                (.errorResponse ⟨"Failed to update employee"⟩))
            | none =>
              -- Fetch updated employee
              let fetched := gorm.first c.dbCalls.length employeeID
              let c := c.db (.first employeeID)
              match fetched with
              | .error err =>
                let c := Utils.LogDBError c err
                .ok (c.JSON StatusInternalServerError
                  (.errorResponse ⟨"Failed to retrieve updated employee"⟩))
              | .ok updatedEmployee =>
                let c := c.log "info" "Employee updated successfully"
                .ok (c.JSON StatusOK (.employee updatedEmployee))

/-- The handler `HealthCheckHandler`. -/
def HealthCheckHandler (db : Option Config.GormDB) (c : Context) : Except Abort Context :=
  match Middleware.GetRequestID c with
  | .error abort => .error abort
  | .ok _ =>
    -- Log health check request
    let c := c.log "info" "Processing health check request"
    let response : HealthResponse :=
      { Status := "ok", Database := "", Message := "GormTest application is running" }
    -- Check database connectivity
    match Config.HealthCheck db with
    | some err =>
      let c := Utils.LogDBError c err
      let response := { response with
        Status := "degraded", Database := "unhealthy",
        Message := "Application is running but database is unavailable" }
      let c := c.log "warning" "Health check returned degraded status"
      .ok (c.JSON StatusServiceUnavailable (.health response))
    | none =>
      let response := { response with Database := "healthy" }
      let c := c.log "info" "Health check completed successfully"
      .ok (c.JSON StatusOK (.health response))

/-- A request without headers, parameters or keys, whose body binds to `bind`. -/
def demoContext (bind : Except GoError Models.Employee) : Context :=
  { requestHeader := fun _ => [], params := fun _ => "", bindJSON := bind,
    keys := fun _ => none, responseHeader := fun _ => [], written := [], logs := [],
    dbCalls := [] }

/-- A request that carries the header `x-request-id: abc-123` (stored, as `net/http` does,
under the canonical name). -/
def demoContextWithID : Context :=
  { demoContext (.error (.base "EOF")) with
    requestHeader := fun k => if k = "X-Request-Id" then ["abc-123"] else [] }

/-- A database that is reachable and accepts every call. -/
def demoGorm : Config.GormDB :=
  { DB := .ok { ping := none }
    create := fun e => .ok { e with ID := 1 }
    first := fun _ _ => .error Config.ErrRecordNotFound
    updates := fun _ _ => none }

end Handlers

namespace Migrations

/-! ## Sorting and base names -/

theorem stringLE_iff_le (a b : String) : stringLE a b ↔ a ≤ b := by
  unfold stringLE; rw [String.le_iff_toList_le]; rfl

theorem sortStrings_perm (files : List String) : (sortStrings files).Perm files :=
  List.perm_insertionSort _ _

theorem mem_sortStrings {files : List String} {f : String} :
    f ∈ sortStrings files ↔ f ∈ files :=
  (sortStrings_perm files).mem_iff

theorem sortStrings_sorted (files : List String) : (sortStrings files).Sorted stringLE :=
  List.sorted_insertionSort _ _

theorem sortStrings_sorted_le (files : List String) :
    (sortStrings files).Sorted (fun a b => a ≤ b) :=
  (sortStrings_sorted files).imp (fun h => (stringLE_iff_le _ _).mp h)

theorem sortStrings_eq_of_perm {files l : List String} (hp : files.Perm l)
    (hs : l.Sorted stringLE) : sortStrings files = l :=
  List.eq_of_perm_of_sorted ((sortStrings_perm files).trans hp) (sortStrings_sorted files) hs

theorem stringLE_append_left (d a b : String) (h : stringLE a b) :
    stringLE (d ++ a) (d ++ b) := by
  unfold stringLE at *
  simp only [String.data_append]
  generalize d.data = l
  induction l with
  | nil => simpa using h
  | cons c t ih => exact List.cons_le_cons c ih

/-- Sorting the paths of one directory sorts the file names. -/
theorem sortStrings_map_append (dir : String) {files names : List String}
    (h : files = names.map (fun name => dir ++ name)) :
    sortStrings files = (sortStrings names).map (fun name => dir ++ name) := by
  apply sortStrings_eq_of_perm
  · rw [h]; exact ((sortStrings_perm names).map _).symm
  · unfold List.Sorted
    rw [List.pairwise_map]
    exact (sortStrings_sorted names).imp (fun hab => stringLE_append_left dir _ _ hab)

/-- The base name of `dir/name` is `name`, for a non-empty `name` without a slash. -/
theorem filepathBase_append_slash (dir name : String) (hne : name.data ≠ [])
    (hslash : ∀ c ∈ name.data, c ≠ '/') : filepathBase (dir ++ "/" ++ name) = name := by
  have hdata : (dir ++ "/" ++ name).data = dir.data ++ '/' :: name.data := by
    simp [String.data_append]
  have hnonempty : dir ++ "/" ++ name ≠ "" := by
    intro h
    have := congrArg String.data h
    rw [hdata] at this
    simp at this
  have hrev : (dir ++ "/" ++ name).data.reverse =
      name.data.reverse ++ '/' :: dir.data.reverse := by
    rw [hdata]; simp
  have hdrop : (name.data.reverse ++ '/' :: dir.data.reverse).dropWhile (· == '/') =
      name.data.reverse ++ '/' :: dir.data.reverse := by
    cases hn : name.data.reverse with
    | nil => simp at hn; exact absurd hn hne
    | cons c t =>
      have hc : c ≠ '/' := hslash c (by
        have : c ∈ name.data.reverse := by rw [hn]; simp
        simpa using this)
      have hb : (c == '/') = false := by simpa using hc
      simp [List.dropWhile, hb]
  have htake : (name.data.reverse ++ '/' :: dir.data.reverse).takeWhile (· != '/') =
      name.data.reverse := by
    rw [List.takeWhile_append_of_pos]
    · simp [List.takeWhile]
    · intro c hc
      simpa using hslash c (by simpa using hc)
  unfold filepathBase
  rw [if_neg hnonempty]
  simp only [hrev, hdrop, htake]
  simp [hne]

theorem sublist_eq_of_subset {α : Type} {l m : List α} (hsub : l.Sublist m) (hnd : m.Nodup)
    (hall : ∀ x ∈ m, x ∈ l) : l = m :=
  hsub.eq_of_length_le (List.subperm_of_subset hnd hall).length_le

/-! ## The fields of the stage worlds -/

@[simp] theorem afterCreate_log (w : World) :
    (afterCreate w).log = w.log ++ [⟨.createTable, true, w.rows⟩] := rfl

@[simp] theorem afterCreate_table (w : World) : (afterCreate w).table = some w.rows := rfl

@[simp] theorem afterCreate_applied (w : World) : (afterCreate w).applied = w.applied := rfl

@[simp] theorem afterCreate_rows (w : World) : (afterCreate w).rows = w.rows := rfl

@[simp] theorem afterCreate_tick (w : World) : (afterCreate w).tick = w.tick + 1 := rfl

@[simp] theorem afterGlob_log (migrationsPath : String) (ok : Bool) (w : World) :
    (afterGlob migrationsPath ok w).log =
      w.log ++ [⟨.createTable, true, w.rows⟩, ⟨.glob migrationsPath, ok, w.rows⟩] := by
  simp [afterGlob, World.fsStep]

@[simp] theorem afterGlob_table (migrationsPath : String) (ok : Bool) (w : World) :
    (afterGlob migrationsPath ok w).table = some w.rows := rfl

@[simp] theorem afterGlob_applied (migrationsPath : String) (ok : Bool) (w : World) :
    (afterGlob migrationsPath ok w).applied = w.applied := rfl

@[simp] theorem afterGlob_rows (migrationsPath : String) (ok : Bool) (w : World) :
    (afterGlob migrationsPath ok w).rows = w.rows := rfl

@[simp] theorem afterGlob_tick (migrationsPath : String) (ok : Bool) (w : World) :
    (afterGlob migrationsPath ok w).tick = w.tick + 1 := rfl

@[simp] theorem dbStep_log (w : World) (call : Call) (ok : Bool) :
    (w.dbStep call ok).log = w.log ++ [⟨call, ok, w.rows⟩] := rfl

@[simp] theorem dbStep_table (w : World) (call : Call) (ok : Bool) :
    (w.dbStep call ok).table = w.table := rfl

@[simp] theorem dbStep_applied (w : World) (call : Call) (ok : Bool) :
    (w.dbStep call ok).applied = w.applied := rfl

@[simp] theorem dbStep_rows (w : World) (call : Call) (ok : Bool) :
    (w.dbStep call ok).rows = w.rows := rfl

theorem table_eq_some_rows {w : World} (h : w.table.isSome) : w.table = some w.rows := by
  cases ht : w.table with
  | none => simp [ht] at h
  | some rows => simp [World.rows, ht]

@[simp] theorem afterCount_log (file : String) (ok : Bool) (w : World) :
    (afterCount file ok w).log = w.log ++ [⟨.countVersion file (filepathBase file), ok, w.rows⟩] :=
  rfl

@[simp] theorem afterCount_table (file : String) (ok : Bool) (w : World) :
    (afterCount file ok w).table = w.table := rfl

@[simp] theorem afterCount_applied (file : String) (ok : Bool) (w : World) :
    (afterCount file ok w).applied = w.applied := rfl

@[simp] theorem afterCount_rows (file : String) (ok : Bool) (w : World) :
    (afterCount file ok w).rows = w.rows := rfl

@[simp] theorem afterRead_log (file : String) (ok : Bool) (w : World) :
    (afterRead file ok w).log = w.log ++ [⟨.countVersion file (filepathBase file), true, w.rows⟩,
      ⟨.readFile file, ok, w.rows⟩] := by
  simp [afterRead, World.fsStep]

@[simp] theorem afterRead_table (file : String) (ok : Bool) (w : World) :
    (afterRead file ok w).table = w.table := rfl

@[simp] theorem afterRead_applied (file : String) (ok : Bool) (w : World) :
    (afterRead file ok w).applied = w.applied := rfl

@[simp] theorem afterRead_rows (file : String) (ok : Bool) (w : World) :
    (afterRead file ok w).rows = w.rows := rfl

@[simp] theorem afterExecFailed_log (file sql : String) (w : World) :
    (afterExecFailed file sql w).log =
      w.log ++ [⟨.countVersion file (filepathBase file), true, w.rows⟩,
        ⟨.readFile file, true, w.rows⟩, ⟨.execScript file sql, false, w.rows⟩] := by
  simp [afterExecFailed, World.dbStep]

@[simp] theorem afterExecFailed_table (file sql : String) (w : World) :
    (afterExecFailed file sql w).table = w.table := rfl

@[simp] theorem afterExecFailed_applied (file sql : String) (w : World) :
    (afterExecFailed file sql w).applied = w.applied := rfl

@[simp] theorem afterExecFailed_rows (file sql : String) (w : World) :
    (afterExecFailed file sql w).rows = w.rows := rfl

@[simp] theorem afterExec_log (file sql : String) (w : World) :
    (afterExec file sql w).log =
      w.log ++ [⟨.countVersion file (filepathBase file), true, w.rows⟩,
        ⟨.readFile file, true, w.rows⟩, ⟨.execScript file sql, true, w.rows⟩] := by
  simp [afterExec, World.dbStep]
  rfl

@[simp] theorem afterExec_table (file sql : String) (w : World) :
    (afterExec file sql w).table = w.table := rfl

@[simp] theorem afterExec_rows (file sql : String) (w : World) :
    (afterExec file sql w).rows = w.rows := rfl

@[simp] theorem afterInsertFailed_log (file sql : String) (w : World) :
    (afterInsertFailed file sql w).log =
      w.log ++ [⟨.countVersion file (filepathBase file), true, w.rows⟩,
        ⟨.readFile file, true, w.rows⟩, ⟨.execScript file sql, true, w.rows⟩,
        ⟨.insertVersion file (filepathBase file), false, w.rows⟩] := by
  simp [afterInsertFailed, World.dbStep]

@[simp] theorem afterInsertFailed_table (file sql : String) (w : World) :
    (afterInsertFailed file sql w).table = w.table := rfl

@[simp] theorem afterInsertFailed_applied (file sql : String) (w : World) :
    (afterInsertFailed file sql w).applied = w.applied ++ [sql] := rfl

@[simp] theorem afterInsertFailed_rows (file sql : String) (w : World) :
    (afterInsertFailed file sql w).rows = w.rows := rfl

@[simp] theorem afterInsert_log (file sql : String) (w : World) :
    (afterInsert file sql w).log =
      w.log ++ [⟨.countVersion file (filepathBase file), true, w.rows⟩,
        ⟨.readFile file, true, w.rows⟩, ⟨.execScript file sql, true, w.rows⟩,
        ⟨.insertVersion file (filepathBase file), true, w.rows ++ [filepathBase file]⟩] := by
  simp [afterInsert, World.dbStep]
  rfl

@[simp] theorem afterInsert_table (file sql : String) (w : World) :
    (afterInsert file sql w).table = some (w.rows ++ [filepathBase file]) := rfl

@[simp] theorem afterInsert_applied (file sql : String) (w : World) :
    (afterInsert file sql w).applied = w.applied ++ [sql] := rfl

@[simp] theorem afterInsert_rows (file sql : String) (w : World) :
    (afterInsert file sql w).rows = w.rows ++ [filepathBase file] := rfl

/-! ## The code meets the case analysis -/

theorem runMigration_facts (env : Env) (hkeep : env.keepsTable) (file : String) (w : World) :
    StepFacts env file w (runMigration env file w).1 (runMigration env file w).2 := by
  have hk : ∀ sql ok applied table, env.scriptEffect sql ok applied table = table := hkeep
  cases hq : env.fault w.tick with
  | some err =>
    have h : runMigration env file w = (some err, afterCount file false w) := by
      simp [runMigration, dbCountVersion, hq, afterCount]
    rw [h]; exact .countFailed err (Or.inl hq)
  | none =>
    cases ht : w.table with
    | none =>
      have h : runMigration env file w = (some errNoTable, afterCount file false w) := by
        simp [runMigration, dbCountVersion, hq, ht, afterCount]
      rw [h]; exact .countFailed _ (Or.inr ⟨ht, rfl⟩)
    | some rows =>
      have hrows : w.rows = rows := by simp [World.rows, ht]
      have hsome : w.table.isSome := by simp [ht]
      by_cases hmem : filepathBase file ∈ rows
      · have h : runMigration env file w = (none, afterCount file true w) := by
          simp [runMigration, dbCountVersion, hq, ht, afterCount, List.count_pos_iff, hmem]
        rw [h]; exact .skipped hq hsome (hrows ▸ hmem)
      · have hmem1 : filepathBase file ∉ w.rows := hrows ▸ hmem
        cases hr : env.readFile file with
        | error err =>
          have h : runMigration env file w = (some err, afterRead file false w) := by
            simp [runMigration, dbCountVersion, fsReadFile, hq, ht, hr, afterCount, afterRead,
              List.count_pos_iff, hmem]
          rw [h]; exact .readFailed err hsome hmem1 hr
        | ok sql =>
          cases hq2 : env.fault (w.tick + 1) with
          | some err =>
            have h : runMigration env file w = (some err, afterExecFailed file sql w) := by
              simp [runMigration, dbCountVersion, fsReadFile, dbExecScript, afterScript, hk, hq, ht, hr, hq2,
                afterCount, afterRead, afterExecFailed, List.count_pos_iff, hmem, World.dbStep,
                World.fsStep]
            rw [h]; exact .execFailed err sql hsome hmem1 hr (Or.inl hq2)
          | none =>
            cases hs : env.scriptError sql with
            | some err =>
              have h : runMigration env file w = (some err, afterExecFailed file sql w) := by
                simp [runMigration, dbCountVersion, fsReadFile, dbExecScript, afterScript, hk, hq, ht, hr, hq2, hs,
                  afterCount, afterRead, afterExecFailed, List.count_pos_iff, hmem, World.dbStep,
                  World.fsStep]
              rw [h]; exact .execFailed err sql hsome hmem1 hr (Or.inr hs)
            | none =>
              cases hq3 : env.fault (w.tick + 1 + 1) with
              | some err =>
                have h : runMigration env file w = (some err, afterInsertFailed file sql w) := by
                  simp [runMigration, dbCountVersion, fsReadFile, dbExecScript, afterScript, hk, dbInsertVersion,
                    hq, ht, hr, hq2, hs, hq3, afterCount, afterRead, afterExec, afterInsertFailed,
                    List.count_pos_iff, hmem, World.dbStep, World.fsStep]
                rw [h]; exact .insertFailed err sql hsome hmem1 hr hq3
              | none =>
                have h : runMigration env file w = (none, afterInsert file sql w) := by
                  simp [runMigration, dbCountVersion, fsReadFile, dbExecScript, afterScript, hk, dbInsertVersion,
                    hq, ht, hr, hq2, hs, hq3, afterCount, afterRead, afterExec, afterInsert,
                    List.count_pos_iff, hmem, World.dbStep, World.fsStep, World.rows]
                rw [h]; exact .recorded sql hsome hmem1 hr

theorem runFiles_facts (env : Env) (hkeep : env.keepsTable) (files : List String) (w : World) :
    LoopFacts env files w (runFiles env files w).1 (runFiles env files w).2 := by
  induction files generalizing w with
  | nil => exact .done w
  | cons file rest ih =>
    have hstep := runMigration_facts env hkeep file w
    cases hrm : runMigration env file w with
    | mk r w1 =>
      rw [hrm] at hstep
      cases r with
      | some err =>
        have h : runFiles env (file :: rest) w = (some (errRunMigration file err), w1) := by
          simp [runFiles, hrm]
        rw [h]; exact .halt file rest w w1 err hstep hrm
      | none =>
        have h : runFiles env (file :: rest) w = runFiles env rest w1 := by
          simp [runFiles, hrm]
        rw [h]; exact .next file rest w w1 _ _ hstep (ih w1)

theorem createMigrationsTable_ok {env : Env} {w : World} (h : env.fault w.tick = none) :
    createMigrationsTable env w = (none, afterCreate w) := by
  simp [createMigrationsTable, dbCreateTable, h, afterCreate]

theorem createMigrationsTable_fail {env : Env} {w : World} {err : GoError}
    (h : env.fault w.tick = some err) :
    createMigrationsTable env w = (some err, w.dbStep .createTable false) := by
  simp [createMigrationsTable, dbCreateTable, h]

theorem RunMigrations_create_fail {env : Env} {w : World} {err : GoError}
    (migrationsPath : String) (h : env.fault w.tick = some err) :
    RunMigrations env migrationsPath w =
      (some (errCreateTable err), w.dbStep .createTable false) := by
  simp [RunMigrations, createMigrationsTable_fail h]

theorem RunMigrations_glob_fail {env : Env} {w : World} {err : GoError}
    {migrationsPath : String} (h : env.fault w.tick = none)
    (hglob : env.glob migrationsPath = .error err) :
    RunMigrations env migrationsPath w =
      (some (errListFiles err), afterGlob migrationsPath false w) := by
  simp [RunMigrations, createMigrationsTable_ok h, fsGlob, hglob, afterGlob]

theorem RunMigrations_loop {env : Env} {w : World} {files : List String}
    {migrationsPath : String} (h : env.fault w.tick = none)
    (hglob : env.glob migrationsPath = .ok files) :
    RunMigrations env migrationsPath w =
      runFiles env (sortStrings files) (afterGlob migrationsPath true w) := by
  simp [RunMigrations, createMigrationsTable_ok h, fsGlob, hglob, afterGlob]

theorem RunMigrations_facts (env : Env) (hkeep : env.keepsTable) (migrationsPath : String)
    (w : World) :
    RunFacts env migrationsPath w (RunMigrations env migrationsPath w).1
      (RunMigrations env migrationsPath w).2 := by
  cases hq : env.fault w.tick with
  | some err =>
    rw [RunMigrations_create_fail migrationsPath hq]; exact .createFailed err hq
  | none =>
    cases hg : env.glob migrationsPath with
    | error err => rw [RunMigrations_glob_fail hq hg]; exact .globFailed err hq hg
    | ok files =>
      rw [RunMigrations_loop hq hg]
      exact .looped files _ _ hq hg (runFiles_facts env hkeep _ _)

/-! ## What a run of the loop adds to the log and to the table -/

theorem getLast_cons_of_some {α : Type} {a e : α} {l : List α} (h : l.getLast? = some e) :
    (a :: l).getLast? = some e := by
  cases l with
  | nil => simp at h
  | cons b t => rw [List.getLast?_cons_cons]; exact h

theorem executedFiles_append (a b : List Entry) :
    executedFiles (a ++ b) = executedFiles a ++ executedFiles b := by
  simp [executedFiles]

theorem attemptedFiles_append (a b : List Entry) :
    attemptedFiles (a ++ b) = attemptedFiles a ++ attemptedFiles b := by
  simp [attemptedFiles]

theorem insertedVersions_append (a b : List Entry) :
    insertedVersions (a ++ b) = insertedVersions a ++ insertedVersions b := by
  simp [insertedVersions]

theorem newEntries_of_log {w w1 : World} {es : List Entry} (h : w1.log = w.log ++ es) :
    newEntries w w1 = es := by
  simp [newEntries, h]

/-- The log of one call of `runMigration`: it grows by entries for that file, the table grows
by the versions inserted, and at most the file's own body is executed. -/
theorem step_log {env : Env} {file : String} {w w1 : World} {r : Option GoError}
    (h : StepFacts env file w r w1) :
    ∃ es, w1.log = w.log ++ es ∧
      w1.rows = w.rows ++ insertedVersions es ∧
      (w1.table.isSome ↔ w.table.isSome) ∧
      (∀ e ∈ es, e.file = some file ∧ (e.rows = w.rows ∨ (r = none ∧ e.rows = w1.rows))) ∧
      (executedFiles es = [] ∨ executedFiles es = [file]) ∧
      (attemptedFiles es = [] ∨ attemptedFiles es = [file]) ∧
      (insertedVersions es = (executedFiles es).map filepathBase ∨
        (r ≠ none ∧ insertedVersions es = [] ∧ executedFiles es = [file] ∧
          es.getLast? = some ⟨.insertVersion file (filepathBase file), false, w.rows⟩)) ∧
      (r = none → filepathBase file ∈ w.rows ∨
        ⟨.insertVersion file (filepathBase file), true, w1.rows⟩ ∈ es) ∧
      (r ≠ none → ∃ e, es.getLast? = some e ∧ e.ok = false ∧ e.file = some file) ∧
      (r ≠ none → w1.table = w.table ∧ insertedVersions es = []) ∧
      (insertedVersions es = [] ∨
        (insertedVersions es = [filepathBase file] ∧ filepathBase file ∉ w.rows)) ∧
      (∀ e ∈ es, ∀ f, e.attemptedFile = some f → e.rows = w.rows) := by
  cases h
  case countFailed err hwhy =>
    exact ⟨_, afterCount_log _ _ _, by
      simp [insertedVersions, executedFiles, attemptedFiles, Entry.attemptedFile, Entry.file,
        Entry.insertedVersion, Entry.executedFile]⟩
  case skipped hfault htable hmem =>
    exact ⟨_, afterCount_log _ _ _, by
      simp [insertedVersions, executedFiles, attemptedFiles, Entry.attemptedFile, Entry.file,
        Entry.insertedVersion, Entry.executedFile, hmem]⟩
  case readFailed err htable hmem hread =>
    exact ⟨_, afterRead_log _ _ _, by
      simp [insertedVersions, executedFiles, attemptedFiles, Entry.attemptedFile, Entry.file,
        Entry.insertedVersion, Entry.executedFile]⟩
  case execFailed err sql htable hmem hread hwhy =>
    exact ⟨_, afterExecFailed_log _ _ _, by
      simp [insertedVersions, executedFiles, attemptedFiles, Entry.attemptedFile, Entry.file,
        Entry.insertedVersion, Entry.executedFile]⟩
  case insertFailed err sql htable hmem hread hwhy =>
    exact ⟨_, afterInsertFailed_log _ _ _, by
      simp [insertedVersions, executedFiles, attemptedFiles, Entry.attemptedFile, Entry.file,
        Entry.insertedVersion, Entry.executedFile]⟩
  case recorded sql htable hmem hread =>
    exact ⟨_, afterInsert_log _ _ _, by simp [insertedVersions, executedFiles, attemptedFiles,
      Entry.attemptedFile, Entry.file, Entry.insertedVersion, Entry.executedFile, htable, hmem]⟩

theorem mem_insertedVersions_of_entry {es : List Entry} {file version : String}
    {rows : List String} (h : (⟨.insertVersion file version, true, rows⟩ : Entry) ∈ es) :
    version ∈ insertedVersions es := by
  simp only [insertedVersions, List.mem_filterMap]
  exact ⟨_, h, rfl⟩

/-- The log of the loop over `files`. -/
theorem loop_log {env : Env} {files : List String} {w w1 : World} {r : Option GoError}
    (h : LoopFacts env files w r w1) :
    ∃ es, w1.log = w.log ++ es ∧
      w1.rows = w.rows ++ insertedVersions es ∧
      (w1.table.isSome ↔ w.table.isSome) ∧
      (∀ e ∈ es, (∃ f ∈ files, e.file = some f) ∧ ∃ extra, e.rows = w.rows ++ extra) ∧
      (executedFiles es).Sublist files ∧
      (attemptedFiles es).Sublist files ∧
      (insertedVersions es = (executedFiles es).map filepathBase ∨
        (r ≠ none ∧ ∃ f rows, insertedVersions es ++ [filepathBase f] =
          (executedFiles es).map filepathBase ∧
          es.getLast? = some ⟨.insertVersion f (filepathBase f), false, rows⟩)) ∧
      (r = none → ∀ f ∈ files, filepathBase f ∈ w.rows ∨
        filepathBase f ∈ insertedVersions es) ∧
      (∀ err, r = some err → ∃ e f cause, es.getLast? = some e ∧ e.ok = false ∧
        e.file = some f ∧ f ∈ files ∧ err = errRunMigration f cause) := by
  induction h with
  | done w => exact ⟨[], by simp [insertedVersions, executedFiles, attemptedFiles]⟩
  | halt file rest w w1 err hstep hrun =>
    obtain ⟨es, hlog, hrows, htab, hent, hexec, hatt, hrel, -, hlast, -⟩ := step_log hstep
    refine ⟨es, hlog, hrows, htab, ?_, ?_, ?_, ?_, by simp [errRunMigration], ?_⟩
    · intro e he
      obtain ⟨hf, hr⟩ := hent e he
      refine ⟨⟨file, by simp, hf⟩, ?_⟩
      rcases hr with hr | ⟨hr, -⟩
      · exact ⟨[], by simp [hr]⟩
      · cases hr
    · rcases hexec with hx | hx <;> simp [hx]
    · rcases hatt with hx | hx <;> simp [hx]
    · rcases hrel with hx | ⟨-, h1, h2, h3⟩
      · exact Or.inl hx
      · exact Or.inr ⟨by simp [errRunMigration], file, w.rows, by simp [h1, h2], h3⟩
    · intro err2 herr
      obtain ⟨e, he, hok, hf⟩ := hlast (by simp)
      exact ⟨e, file, err, he, hok, hf, by simp, by simpa using herr.symm⟩
  | next file rest w w1 w2 r hstep hrest ih =>
    obtain ⟨es1, hlog1, hrows1, htab1, hent1, hexec1, hatt1, hrel1, hok1, -⟩ := step_log hstep
    obtain ⟨es2, hlog2, hrows2, htab2, hent2, hexec2, hatt2, hrel2, hok2, hlast2⟩ := ih
    have hrel1 : insertedVersions es1 = (executedFiles es1).map filepathBase := by
      rcases hrel1 with hx | ⟨hx, -⟩
      · exact hx
      · exact absurd rfl hx
    refine ⟨es1 ++ es2, by simp [hlog2, hlog1], ?_, htab2.trans htab1, ?_, ?_, ?_, ?_, ?_, ?_⟩
    · simp [hrows2, hrows1, insertedVersions_append]
    · intro e he
      rcases List.mem_append.mp he with he | he
      · obtain ⟨hf, hr⟩ := hent1 e he
        refine ⟨⟨file, by simp, hf⟩, ?_⟩
        rcases hr with hr | ⟨-, hr⟩
        · exact ⟨[], by simp [hr]⟩
        · exact ⟨insertedVersions es1, by rw [hr, hrows1]⟩
      · obtain ⟨⟨f, hf, hfe⟩, extra, hr⟩ := hent2 e he
        exact ⟨⟨f, List.mem_cons_of_mem _ hf, hfe⟩, insertedVersions es1 ++ extra,
          by rw [hr, hrows1, List.append_assoc]⟩
    · rw [executedFiles_append]
      rcases hexec1 with hx | hx
      · rw [hx]; exact List.Sublist.cons _ hexec2
      · rw [hx]; exact List.Sublist.cons₂ _ hexec2
    · rw [attemptedFiles_append]
      rcases hatt1 with hx | hx
      · rw [hx]; exact List.Sublist.cons _ hatt2
      · rw [hx]; exact List.Sublist.cons₂ _ hatt2
    · rcases hrel2 with hx | ⟨hne, f, rows, hx, hl⟩
      · left; simp [insertedVersions_append, executedFiles_append, hx, hrel1]
      · right
        refine ⟨hne, f, rows, ?_, by simp [List.getLast?_append, hl]⟩
        simp [insertedVersions_append, executedFiles_append, hrel1, ← hx]
    · intro hr f hf
      rw [insertedVersions_append]
      rcases List.mem_cons.mp hf with rfl | hf
      · rcases hok1 rfl with hmem | hin
        · exact Or.inl hmem
        · exact Or.inr (List.mem_append_left _ (mem_insertedVersions_of_entry hin))
      · rcases hok2 hr f hf with hmem | hin
        · rw [hrows1] at hmem
          rcases List.mem_append.mp hmem with hmem | hmem
          · exact Or.inl hmem
          · exact Or.inr (List.mem_append_left _ hmem)
        · exact Or.inr (List.mem_append_right _ hin)
    · intro err herr
      obtain ⟨e, f, cause, he, hok, hfe, hf, hc⟩ := hlast2 err herr
      exact ⟨e, f, cause, by simp [List.getLast?_append, he], hok, hfe,
        List.mem_cons_of_mem _ hf, hc⟩

/-- When no database call fails and every file is readable and valid, the loop succeeds. -/
theorem loop_success {env : Env} {files : List String} {w w1 : World} {r : Option GoError}
    (h : LoopFacts env files w r w1) (hnofault : ∀ n, env.fault n = none)
    (hfiles : ∀ f ∈ files, ∃ sql, env.readFile f = .ok sql ∧ env.scriptError sql = none)
    (htable : w.table.isSome) : r = none := by
  induction h with
  | done w => rfl
  | halt file rest w w1 err hstep hrun =>
    obtain ⟨sql, hread, hvalid⟩ := hfiles file (by simp)
    cases hstep with
    | countFailed err hwhy =>
      rcases hwhy with hq | ⟨ht, -⟩
      · simp [hnofault] at hq
      · simp [ht] at htable
    | readFailed err htable hmem hread2 => simp [hread] at hread2
    | execFailed err sql2 htable hmem hread2 hwhy =>
      rcases hwhy with hq | hs
      · simp [hnofault] at hq
      · rw [hread] at hread2
        cases hread2
        simp [hvalid] at hs
    | insertFailed err sql2 htable hmem hread2 hwhy => simp [hnofault] at hwhy
  | next file rest w w1 w2 r hstep hrest ih =>
    obtain ⟨es1, -, -, htab1, -⟩ := step_log hstep
    exact ih (fun f hf => hfiles f (List.mem_cons_of_mem _ hf)) (htab1.mpr htable)

/-- The log of a whole run of `RunMigrations`. -/
theorem run_log {env : Env} {migrationsPath : String} {w w1 : World} {r : Option GoError}
    (h : RunFacts env migrationsPath w r w1) :
    ∃ es, w1.log = w.log ++ es ∧
      w1.rows = w.rows ++ insertedVersions es ∧
      (∀ e ∈ es, ∃ extra, e.rows = w.rows ++ extra) ∧
      (∀ files, env.glob migrationsPath = .ok files →
        (executedFiles es).Sublist (sortStrings files) ∧
        (attemptedFiles es).Sublist (sortStrings files)) ∧
      (insertedVersions es = (executedFiles es).map filepathBase ∨
        (r ≠ none ∧ ∃ f rows, insertedVersions es ++ [filepathBase f] =
          (executedFiles es).map filepathBase ∧
          es.getLast? = some ⟨.insertVersion f (filepathBase f), false, rows⟩)) ∧
      (r = none → ∃ files, env.glob migrationsPath = .ok files ∧
        ∀ f ∈ sortStrings files, filepathBase f ∈ w.rows ∨
          filepathBase f ∈ insertedVersions es) := by
  cases h with
  | createFailed err hfault =>
    exact ⟨_, dbStep_log _ _ _, by simp [insertedVersions, executedFiles, attemptedFiles,
      Entry.insertedVersion, Entry.executedFile, Entry.attemptedFile, errCreateTable]⟩
  | globFailed err hfault hglob =>
    exact ⟨_, afterGlob_log _ _ _, by simp [insertedVersions, executedFiles, attemptedFiles,
      Entry.insertedVersion, Entry.executedFile, Entry.attemptedFile, errListFiles]⟩
  | looped files r w1 hfault hglob hloop =>
    obtain ⟨es, hlog, hrows, -, hent, hexec, hatt, hrel, hok, -⟩ := loop_log hloop
    have hatt2 : attemptedFiles ((⟨.createTable, true, w.rows⟩ : Entry) ::
        ⟨.glob migrationsPath, true, w.rows⟩ :: es) = attemptedFiles es := by
      simp [attemptedFiles, Entry.attemptedFile]
    have hins : insertedVersions ((⟨.createTable, true, w.rows⟩ : Entry) ::
        ⟨.glob migrationsPath, true, w.rows⟩ :: es) = insertedVersions es := by
      simp [insertedVersions, Entry.insertedVersion]
    have hexe : executedFiles ((⟨.createTable, true, w.rows⟩ : Entry) ::
        ⟨.glob migrationsPath, true, w.rows⟩ :: es) = executedFiles es := by
      simp [executedFiles, Entry.executedFile]
    refine ⟨⟨.createTable, true, w.rows⟩ :: ⟨.glob migrationsPath, true, w.rows⟩ :: es,
      by simp [hlog], ?_, ?_, ?_, ?_, ?_⟩
    · rw [hins, hrows, afterGlob_rows]
    · intro e he
      rcases List.mem_cons.mp he with rfl | he
      · exact ⟨[], by simp⟩
      rcases List.mem_cons.mp he with rfl | he
      · exact ⟨[], by simp⟩
      · simpa using (hent e he).2
    · intro files2 hglob2
      rw [hglob] at hglob2
      cases hglob2
      rw [hexe, hatt2]; exact ⟨hexec, hatt⟩
    · rw [hins, hexe]
      rcases hrel with hx | ⟨hne, f, rows, hx, hl⟩
      · exact Or.inl hx
      · refine Or.inr ⟨hne, f, rows, hx, ?_⟩
        exact getLast_cons_of_some (getLast_cons_of_some hl)
    · intro hr
      refine ⟨files, hglob, fun f hf => ?_⟩
      rw [hins]
      simpa using hok hr f hf

theorem runFiles_append {env : Env} {pre : List String} {w w1 : World}
    (h : runFiles env pre w = (none, w1)) (rest : List String) :
    runFiles env (pre ++ rest) w = runFiles env rest w1 := by
  induction pre generalizing w with
  | nil =>
    simp only [runFiles, Prod.mk.injEq, true_and] at h
    simp [h]
  | cons file pre ih =>
    cases hrm : runMigration env file w with
    | mk r w2 =>
      cases r with
      | some err => simp [runFiles, hrm] at h
      | none =>
        have hrest : runFiles env pre w2 = (none, w1) := by simpa [runFiles, hrm] using h
        simpa [runFiles, hrm] using ih hrest

theorem runFiles_halt {env : Env} {file : String} {w w1 : World} {err : GoError}
    (h : runMigration env file w = (some err, w1)) (rest : List String) :
    runFiles env (file :: rest) w = (some (errRunMigration file err), w1) := by
  simp [runFiles, h]

theorem createMigrationsTable_inv {env : Env} {w w1 : World}
    (h : createMigrationsTable env w = (none, w1)) :
    env.fault w.tick = none ∧ w1 = afterCreate w := by
  cases hq : env.fault w.tick with
  | some err => simp [createMigrationsTable_fail hq] at h
  | none =>
    rw [createMigrationsTable_ok hq] at h
    exact ⟨rfl, by simpa using h.symm⟩

theorem fsGlob_inv {env : Env} {migrationsPath : String} {w w1 : World} {files : List String}
    (h : fsGlob env migrationsPath w = (.ok files, w1)) :
    env.glob migrationsPath = .ok files ∧ w1 = w.fsStep (.glob migrationsPath) true := by
  cases hg : env.glob migrationsPath with
  | error err => simp [fsGlob, hg] at h
  | ok files2 =>
    simp only [fsGlob, hg, Prod.mk.injEq, Except.ok.injEq] at h
    exact ⟨by rw [h.1], h.2.symm⟩

/-- The table after a successful loop: the rows before it and the base names of the files. -/
theorem loop_ok_rows {env : Env} {files : List String} {w w1 : World}
    (h : LoopFacts env files w none w1) :
    ∃ es, w1.log = w.log ++ es ∧ w1.rows = w.rows ++ insertedVersions es ∧
      (insertedVersions es).Sublist (files.map filepathBase) ∧
      (∀ e ∈ es, ∃ f ∈ files, e.file = some f) ∧
      (∀ v, v ∈ w1.rows ↔ v ∈ w.rows ∨ v ∈ files.map filepathBase) := by
  obtain ⟨es, hlog, hrows, -, hent, hexec, -, hrel, hok, -⟩ := loop_log h
  have hins : insertedVersions es = (executedFiles es).map filepathBase := by
    rcases hrel with hx | ⟨hne, -⟩
    · exact hx
    · exact absurd rfl hne
  have hsub : (insertedVersions es).Sublist (files.map filepathBase) := by
    rw [hins]; exact hexec.map _
  refine ⟨es, hlog, hrows, hsub, fun e he => (hent e he).1, fun v => ?_⟩
  rw [hrows, List.mem_append]
  constructor
  · rintro (hv | hv)
    · exact Or.inl hv
    · exact Or.inr (hsub.subset hv)
  · rintro (hv | hv)
    · exact Or.inl hv
    · obtain ⟨f, hf, rfl⟩ := List.mem_map.mp hv
      exact hok rfl f hf

/-- Recording the next candidate keeps the recorded versions a beginning of the list. -/
theorem recordedPrefix_snoc {done rest rows : List String} {file : String}
    (hdone : ∀ g ∈ done, filepathBase g ∈ rows)
    (hpre : recordedPrefix (done ++ file :: rest) rows) (hnew : filepathBase file ∉ rows) :
    recordedPrefix (done ++ file :: rest) (rows ++ [filepathBase file]) := by
  obtain ⟨n, hn⟩ := hpre
  have hle : n ≤ done.length := by
    by_contra hlt
    push_neg at hlt
    apply hnew
    rw [hn]
    apply List.mem_map_of_mem
    rw [List.take_append_eq_append_take]
    apply List.mem_append_right
    obtain ⟨m, hm⟩ : ∃ m, n - done.length = m + 1 := ⟨n - done.length - 1, by omega⟩
    rw [hm]
    simp
  refine ⟨done.length + 1, fun v => ?_⟩
  have htake : (done ++ file :: rest).take (done.length + 1) = done ++ [file] := by
    rw [List.take_append_eq_append_take]
    simp
  rw [htake, List.map_append, List.mem_append, List.mem_append]
  constructor
  · rintro (hv | hv)
    · left
      rw [hn] at hv
      obtain ⟨g, hg, rfl⟩ := List.mem_map.mp hv
      rw [List.take_append_eq_append_take, Nat.sub_eq_zero_of_le hle] at hg
      simp only [List.take_zero, List.append_nil] at hg
      exact List.mem_map_of_mem _ (List.mem_of_mem_take hg)
    · right; simpa using hv
  · rintro (hv | hv)
    · left
      obtain ⟨g, hg, rfl⟩ := List.mem_map.mp hv
      exact hdone g hg
    · right; simpa using hv

/-- The loop keeps the recorded versions a beginning of the sorted list after every call, and
sends a body to the database only when every earlier candidate is recorded. -/
theorem loop_prefix {env : Env} {files : List String} {w w1 : World} {r : Option GoError}
    (h : LoopFacts env files w r w1) (done : List String)
    (hdone : ∀ g ∈ done, filepathBase g ∈ w.rows) :
    ∃ es, w1.log = w.log ++ es ∧
      (recordedPrefix (done ++ files) w.rows →
        recordedPrefix (done ++ files) w1.rows ∧
        ∀ e ∈ es, recordedPrefix (done ++ files) e.rows) ∧
      (∀ e ∈ es, ∀ f, e.attemptedFile = some f →
        ∃ pre post, done ++ files = pre ++ f :: post ∧ ∀ g ∈ pre, filepathBase g ∈ e.rows) := by
  induction h generalizing done with
  | done w => exact ⟨[], by simp⟩
  | halt file rest w w1 err hstep hrun =>
    obtain ⟨es, hlog, hrows, -, hent, -, hatt, -, -, -, hframe, -, hsnap⟩ := step_log hstep
    obtain ⟨-, hnone⟩ := hframe (by simp)
    have hrows1 : w1.rows = w.rows := by rw [hrows, hnone, List.append_nil]
    refine ⟨es, hlog, fun hpre => ⟨by rw [hrows1]; exact hpre, fun e he => ?_⟩,
      fun e he f hf => ?_⟩
    · rcases (hent e he).2 with hr | ⟨hr, -⟩
      · rw [hr]; exact hpre
      · cases hr
    · have hfile : f = file := by
        have h1 := (hent e he).1
        cases hc : e.call <;> simp [Entry.attemptedFile, Entry.file, hc] at hf h1
        rw [← hf, h1]
      subst hfile
      exact ⟨done, rest, rfl, fun g hg => by rw [hsnap e he f hf]; exact hdone g hg⟩
  | next file rest w w1 w2 r hstep hrest ih =>
    obtain ⟨es1, hlog1, hrows1, -, hent1, -, hatt1, -, hok1, -, -, hins1, hsnap1⟩ :=
      step_log hstep
    have hfile : filepathBase file ∈ w1.rows := by
      rw [hrows1]
      rcases hok1 rfl with hm | hm
      · exact List.mem_append_left _ hm
      · exact List.mem_append_right _ (mem_insertedVersions_of_entry hm)
    have hdone1 : ∀ g ∈ done ++ [file], filepathBase g ∈ w1.rows := by
      intro g hg
      rcases List.mem_append.mp hg with hg | hg
      · rw [hrows1]; exact List.mem_append_left _ (hdone g hg)
      · rw [List.mem_singleton.mp hg]; exact hfile
    have hlist : done ++ [file] ++ rest = done ++ file :: rest := by simp
    obtain ⟨es2, hlog2, hpre2, hexec2⟩ := ih (done ++ [file]) hdone1
    rw [hlist] at hpre2 hexec2
    have hstepPre : recordedPrefix (done ++ file :: rest) w.rows →
        recordedPrefix (done ++ file :: rest) w1.rows := by
      intro hpre
      rcases hins1 with hx | ⟨hx, hnew⟩
      · rw [hrows1, hx, List.append_nil]; exact hpre
      · rw [hrows1, hx]; exact recordedPrefix_snoc hdone hpre hnew
    refine ⟨es1 ++ es2, by rw [hlog2, hlog1, List.append_assoc], fun hpre => ?_,
      fun e he f hf => ?_⟩
    · have hp1 := hstepPre hpre
      obtain ⟨hp2, hall2⟩ := hpre2 hp1
      refine ⟨hp2, fun e he => ?_⟩
      rcases List.mem_append.mp he with he | he
      · rcases (hent1 e he).2 with hr | ⟨-, hr⟩
        · rw [hr]; exact hpre
        · rw [hr]; exact hp1
      · exact hall2 e he
    · rcases List.mem_append.mp he with he | he
      · have hfile2 : f = file := by
          have h1 := (hent1 e he).1
          cases hc : e.call <;> simp [Entry.attemptedFile, Entry.file, hc] at hf h1
          rw [← hf, h1]
        subst hfile2
        exact ⟨done, rest, rfl, fun g hg => by rw [hsnap1 e he f hf]; exact hdone g hg⟩
      · exact hexec2 e he f hf

theorem errCreateTable_ne_errListFiles (c1 c2 : GoError) :
    (errCreateTable c1).Error ≠ (errListFiles c2).Error := by
  intro h
  have := congrArg String.data h
  simp [errCreateTable, errListFiles, GoError.Error, String.data_append] at this

theorem errCreateTable_ne_errRunMigration (c1 c2 : GoError) (file : String) :
    (errCreateTable c1).Error ≠ (errRunMigration file c2).Error := by
  intro h
  have := congrArg String.data h
  simp [errCreateTable, errRunMigration, GoError.Error, String.data_append] at this

theorem errListFiles_ne_errRunMigration (c1 c2 : GoError) (file : String) :
    (errListFiles c1).Error ≠ (errRunMigration file c2).Error := by
  intro h
  have := congrArg String.data h
  simp [errListFiles, errRunMigration, GoError.Error, String.data_append] at this

theorem errRunMigration_inj {f1 f2 : String} {c1 c2 : GoError}
    (h : errRunMigration f1 c1 = errRunMigration f2 c2) : f1 = f2 ∧ c1 = c2 := by
  simp only [errRunMigration, GoError.wrap.injEq] at h
  obtain ⟨hmsg, rfl⟩ := h
  refine ⟨?_, rfl⟩
  have hdata := congrArg String.data hmsg
  simp only [String.data_append, List.append_assoc] at hdata
  have h2 : f1.data ++ (": ".data ++ c1.Error.data) = f2.data ++ (": ".data ++ c1.Error.data) :=
    List.append_cancel_left hdata
  exact String.ext (List.append_cancel_right h2)

/-! ## What holds of a run whatever the bodies do to the table -/

theorem afterScript_log (env : Env) (file sql : String) (ok : Bool) (w : World) :
    (afterScript env file sql ok w).log =
      w.log ++ [⟨.execScript file sql, ok, (afterScript env file sql ok w).rows⟩] := rfl

theorem afterScript_tick (env : Env) (file sql : String) (ok : Bool) (w : World) :
    (afterScript env file sql ok w).tick = w.tick + 1 := rfl

theorem dbInsertVersion_trace (env : Env) (file version : String) (w : World) :
    ∃ ok rows, (dbInsertVersion env file version w).2.log =
        w.log ++ [⟨.insertVersion file version, ok, rows⟩] ∧
      ∀ cause, (dbInsertVersion env file version w).1 = some cause → ok = false ∧
        (env.fault w.tick = some cause ∨ cause = errNoTable ∨ cause = errDuplicate) := by
  cases hq : env.fault w.tick with
  | some err =>
    refine ⟨false, w.rows, by simp [dbInsertVersion, hq], fun cause hc => ⟨rfl, Or.inl ?_⟩⟩
    simpa [dbInsertVersion, hq] using hc
  | none =>
    cases ht : w.table with
    | none =>
      refine ⟨false, w.rows, by simp [dbInsertVersion, hq, ht],
        fun cause hc => ⟨rfl, Or.inr (Or.inl ?_)⟩⟩
      have : errNoTable = cause := by simpa [dbInsertVersion, hq, ht] using hc
      exact this.symm
    | some rows =>
      by_cases hmem : version ∈ rows
      · refine ⟨false, w.rows, by simp [dbInsertVersion, hq, ht, hmem],
          fun cause hc => ⟨rfl, Or.inr (Or.inr ?_)⟩⟩
        have : errDuplicate = cause := by simpa [dbInsertVersion, hq, ht, hmem] using hc
        exact this.symm
      · refine ⟨true, rows ++ [version], ?_, fun cause hc => ?_⟩
        · simp [dbInsertVersion, hq, ht, hmem, World.dbStep, World.rows]
        · simp [dbInsertVersion, hq, ht, hmem] at hc

/-- The five ways a call of `runMigration` can proceed, whatever the bodies do. -/
theorem runMigration_cases (env : Env) (file : String) (w : World) :
    (∃ err, runMigration env file w = (some err, afterCount file false w) ∧
      (env.fault w.tick = some err ∨ err = errNoTable)) ∨
    runMigration env file w = (none, afterCount file true w) ∨
    (∃ err, runMigration env file w = (some err, afterRead file false w) ∧
      env.readFile file = .error err) ∨
    (∃ err sql, runMigration env file w =
        (some err, afterScript env file sql false (afterRead file true w)) ∧
      env.readFile file = .ok sql ∧
      (env.fault (w.tick + 1) = some err ∨ env.scriptError sql = some err)) ∨
    (∃ sql, runMigration env file w = dbInsertVersion env file (filepathBase file)
        (afterScript env file sql true (afterRead file true w)) ∧
      env.readFile file = .ok sql ∧ filepathBase file ∉ w.rows) := by
  cases hq : env.fault w.tick with
  | some err =>
    refine Or.inl ⟨err, ?_, Or.inl rfl⟩
    simp [runMigration, dbCountVersion, hq, afterCount]
  | none =>
    cases ht : w.table with
    | none =>
      refine Or.inl ⟨errNoTable, ?_, Or.inr rfl⟩
      simp [runMigration, dbCountVersion, hq, ht, afterCount]
    | some rows =>
      by_cases hmem : filepathBase file ∈ rows
      · refine Or.inr (Or.inl ?_)
        simp [runMigration, dbCountVersion, hq, ht, afterCount, List.count_pos_iff, hmem]
      · cases hr : env.readFile file with
        | error err =>
          refine Or.inr (Or.inr (Or.inl ⟨err, ?_, rfl⟩))
          simp [runMigration, dbCountVersion, fsReadFile, hq, ht, hr, afterCount, afterRead,
            List.count_pos_iff, hmem]
        | ok sql =>
          cases hq2 : env.fault (w.tick + 1) with
          | some err =>
            refine Or.inr (Or.inr (Or.inr (Or.inl ⟨err, sql, ?_, rfl, Or.inl rfl⟩)))
            simp [runMigration, dbCountVersion, fsReadFile, dbExecScript, hq, ht, hr, hq2,
              afterCount, afterRead, List.count_pos_iff, hmem, World.dbStep, World.fsStep]
          | none =>
            cases hs : env.scriptError sql with
            | some err =>
              refine Or.inr (Or.inr (Or.inr (Or.inl ⟨err, sql, ?_, rfl, Or.inr hs⟩)))
              simp [runMigration, dbCountVersion, fsReadFile, dbExecScript, hq, ht, hr, hq2, hs,
                afterCount, afterRead, List.count_pos_iff, hmem, World.dbStep, World.fsStep]
            | none =>
              refine Or.inr (Or.inr (Or.inr (Or.inr ⟨sql, ?_, rfl, by
                simpa [World.rows, ht] using hmem⟩)))
              simp [runMigration, dbCountVersion, fsReadFile, dbExecScript, hq, ht, hr, hq2, hs,
                afterCount, afterRead, List.count_pos_iff, hmem, World.dbStep, World.fsStep]

theorem runMigration_skip {env : Env} {file : String} {w : World}
    (hmem : filepathBase file ∈ w.rows) (hq : env.fault w.tick = none) :
    runMigration env file w = (none, afterCount file true w) := by
  obtain ⟨rows, ht⟩ : ∃ rows, w.table = some rows := by
    cases ht : w.table with
    | none => simp [World.rows, ht] at hmem
    | some rows => exact ⟨rows, rfl⟩
  have hmem2 : filepathBase file ∈ rows := by simpa [World.rows, ht] using hmem
  simp [runMigration, dbCountVersion, hq, ht, afterCount, List.count_pos_iff, hmem2]

/-- A loop over files that are all recorded, with no failing call: one successful existence
query per file and nothing else, whatever the bodies would do. -/
theorem runFiles_noop (env : Env) (files : List String) (w : World)
    (hall : ∀ f ∈ files, filepathBase f ∈ w.rows) (hnofault : ∀ n, env.fault n = none) :
    (runFiles env files w).1 = none ∧ (runFiles env files w).2.table = w.table ∧
    (runFiles env files w).2.applied = w.applied ∧
    (runFiles env files w).2.log = w.log ++
      files.map (fun f => (⟨.countVersion f (filepathBase f), true, w.rows⟩ : Entry)) := by
  induction files generalizing w with
  | nil => simp [runFiles]
  | cons file rest ih =>
    have h : runFiles env (file :: rest) w = runFiles env rest (afterCount file true w) := by
      simp [runFiles, runMigration_skip (hall file (by simp)) (hnofault _)]
    rw [h]
    have := ih (afterCount file true w)
      (fun f hf => by simpa using hall f (List.mem_cons_of_mem _ hf))
    simpa using this

/-- What one call of `runMigration` adds to the log, whatever the bodies do: calls for this
file only, at most one execution, and on failure the failed call last, with the error of a
failed database call, of the read or of the script. -/
theorem step_trace (env : Env) (file : String) (w : World) :
    ∃ es, (runMigration env file w).2.log = w.log ++ es ∧ (∀ e ∈ es, e.file = some file) ∧
      (attemptedFiles es = [] ∨ attemptedFiles es = [file]) ∧
      (executedFiles es = [] ∨ executedFiles es = [file]) ∧
      ∀ cause, (runMigration env file w).1 = some cause →
        (∃ e, es.getLast? = some e ∧ e.ok = false ∧ e.file = some file) ∧
        ((∃ n, env.fault n = some cause) ∨ env.readFile file = .error cause ∨
          (∃ sql, env.readFile file = .ok sql ∧ env.scriptError sql = some cause) ∨
          cause = errNoTable ∨ cause = errDuplicate) := by
  rcases runMigration_cases env file w with ⟨err, h, hwhy⟩ | h | ⟨err, h, hread⟩ |
    ⟨err, sql, h, hread, hwhy⟩ | ⟨sql, h, hread, -⟩
  · rw [h]
    refine ⟨_, afterCount_log _ _ _, by simp [Entry.file], Or.inl rfl, Or.inl rfl, ?_⟩
    intro cause hc
    cases hc
    refine ⟨⟨_, rfl, rfl, rfl⟩, ?_⟩
    rcases hwhy with hq | rfl
    · exact Or.inl ⟨_, hq⟩
    · exact Or.inr (Or.inr (Or.inr (Or.inl rfl)))
  · rw [h]
    exact ⟨_, afterCount_log _ _ _, by simp [Entry.file], Or.inl rfl, Or.inl rfl,
      fun cause hc => by cases hc⟩
  · rw [h]
    refine ⟨_, afterRead_log _ _ _, by simp [Entry.file], Or.inl rfl, Or.inl rfl, ?_⟩
    intro cause hc
    cases hc
    exact ⟨⟨_, rfl, rfl, rfl⟩, Or.inr (Or.inl hread)⟩
  · rw [h]
    refine ⟨[⟨.countVersion file (filepathBase file), true, w.rows⟩,
        ⟨.readFile file, true, w.rows⟩,
        ⟨.execScript file sql, false,
          (afterScript env file sql false (afterRead file true w)).rows⟩], ?_,
      by simp [Entry.file], Or.inr rfl, Or.inl rfl, ?_⟩
    · rw [afterScript_log, afterRead_log]; simp
    · intro cause hc
      cases hc
      refine ⟨⟨_, rfl, rfl, rfl⟩, ?_⟩
      rcases hwhy with hq | hs
      · exact Or.inl ⟨_, hq⟩
      · exact Or.inr (Or.inr (Or.inl ⟨sql, hread, hs⟩))
  · rw [h]
    obtain ⟨ok, rows, hlog, herr⟩ := dbInsertVersion_trace env file (filepathBase file)
      (afterScript env file sql true (afterRead file true w))
    refine ⟨[⟨.countVersion file (filepathBase file), true, w.rows⟩,
        ⟨.readFile file, true, w.rows⟩,
        ⟨.execScript file sql, true,
          (afterScript env file sql true (afterRead file true w)).rows⟩,
        ⟨.insertVersion file (filepathBase file), ok, rows⟩], ?_,
      by simp [Entry.file], Or.inr rfl, Or.inr rfl, ?_⟩
    · rw [hlog, afterScript_log, afterRead_log]; simp
    · intro cause hc
      obtain ⟨hok, hwhy⟩ := herr cause hc
      subst hok
      refine ⟨⟨_, rfl, rfl, rfl⟩, ?_⟩
      rcases hwhy with hq | rfl | rfl
      · exact Or.inl ⟨_, hq⟩
      · exact Or.inr (Or.inr (Or.inr (Or.inl rfl)))
      · exact Or.inr (Or.inr (Or.inr (Or.inr rfl)))

/-- What the loop of `RunMigrations` adds to the log, whatever the bodies do: calls for the
files of the list only, the executions in the order of the list and at most one per place,
and on failure the failed call last. -/
theorem loop_trace (env : Env) (files : List String) (w : World) :
    ∃ es, (runFiles env files w).2.log = w.log ++ es ∧
      (∀ e ∈ es, ∃ f ∈ files, e.file = some f) ∧
      (attemptedFiles es).Sublist files ∧ (executedFiles es).Sublist files ∧
      ∀ err, (runFiles env files w).1 = some err →
        ∃ file cause ws, file ∈ files ∧
          runMigration env file ws = (some cause, (runFiles env files w).2) ∧
          err = errRunMigration file cause ∧
          (∃ e, es.getLast? = some e ∧ e.ok = false ∧ e.file = some file) ∧
          ((∃ n, env.fault n = some cause) ∨ env.readFile file = .error cause ∨
            (∃ sql, env.readFile file = .ok sql ∧ env.scriptError sql = some cause) ∨
            cause = errNoTable ∨ cause = errDuplicate) := by
  induction files generalizing w with
  | nil => exact ⟨[], by simp [runFiles], by simp, by simp [attemptedFiles],
      by simp [executedFiles], fun err h => by simp [runFiles] at h⟩
  | cons file rest ih =>
    obtain ⟨es1, hlog1, hfile1, hatt1, hexe1, herr1⟩ := step_trace env file w
    have hsub : ∀ {l : List String}, (l = [] ∨ l = [file]) → ∀ {m : List String},
        m.Sublist rest → (l ++ m).Sublist (file :: rest) := by
      intro l hl m hm
      rcases hl with rfl | rfl
      · exact hm.cons _
      · exact hm.cons₂ _
    cases hrm : runMigration env file w with
    | mk r w1 =>
      rw [hrm] at hlog1 herr1
      cases r with
      | some cause =>
        have h : runFiles env (file :: rest) w = (some (errRunMigration file cause), w1) := by
          simp [runFiles, hrm]
        rw [h]
        obtain ⟨hlast, hsrc⟩ := herr1 cause rfl
        refine ⟨es1, hlog1, fun e he => ⟨file, by simp, hfile1 e he⟩, ?_, ?_, ?_⟩
        · simpa using hsub hatt1 (List.nil_sublist rest)
        · simpa using hsub hexe1 (List.nil_sublist rest)
        · intro err herr
          cases herr
          exact ⟨file, cause, w, by simp, hrm, rfl, hlast, hsrc⟩
      | none =>
        have h : runFiles env (file :: rest) w = runFiles env rest w1 := by
          simp [runFiles, hrm]
        rw [h]
        obtain ⟨es2, hlog2, hfile2, hatt2, hexe2, herr2⟩ := ih w1
        refine ⟨es1 ++ es2, by rw [hlog2, hlog1, List.append_assoc], ?_, ?_, ?_, ?_⟩
        · intro e he
          rcases List.mem_append.mp he with he | he
          · exact ⟨file, by simp, hfile1 e he⟩
          · obtain ⟨f, hf, hfe⟩ := hfile2 e he
            exact ⟨f, List.mem_cons_of_mem _ hf, hfe⟩
        · rw [attemptedFiles_append]; exact hsub hatt1 hatt2
        · rw [executedFiles_append]; exact hsub hexe1 hexe2
        · intro err herr
          obtain ⟨f, cause, ws, hf, hrun, heq, ⟨e, he, hok, hfe⟩, hsrc⟩ := herr2 err herr
          exact ⟨f, cause, ws, List.mem_cons_of_mem _ hf, hrun, heq,
            ⟨e, by simp [List.getLast?_append, he], hok, hfe⟩, hsrc⟩

/-- What a run adds to the log, whatever the bodies do: calls for candidates of the scan
only, and executions in the order of the sorted candidate list. -/
theorem run_trace (env : Env) (migrationsPath : String) (w : World) :
    ∃ es, (RunMigrations env migrationsPath w).2.log = w.log ++ es ∧
      (∀ e ∈ es, ∀ f, e.file = some f →
        ∃ files, env.glob migrationsPath = .ok files ∧ f ∈ files) ∧
      (∀ files, env.glob migrationsPath = .ok files →
        (executedFiles es).Sublist (sortStrings files) ∧
        (attemptedFiles es).Sublist (sortStrings files)) := by
  cases hq : env.fault w.tick with
  | some cause =>
    rw [RunMigrations_create_fail migrationsPath hq]
    exact ⟨_, dbStep_log _ _ _, by simp [Entry.file],
      by simp [executedFiles, attemptedFiles, Entry.executedFile, Entry.attemptedFile]⟩
  | none =>
    cases hg : env.glob migrationsPath with
    | error cause =>
      rw [RunMigrations_glob_fail hq hg]
      exact ⟨_, afterGlob_log _ _ _, by simp [Entry.file], by simp⟩
    | ok files =>
      rw [RunMigrations_loop hq hg]
      obtain ⟨es, hlog, hent, hatt, hexe, -⟩ :=
        loop_trace env (sortStrings files) (afterGlob migrationsPath true w)
      refine ⟨⟨.createTable, true, w.rows⟩ :: ⟨.glob migrationsPath, true, w.rows⟩ :: es,
        by simp [hlog], fun e he f hf => ?_, fun files2 hfiles2 => ?_⟩
      · rcases List.mem_cons.mp he with rfl | he
        · simp [Entry.file] at hf
        rcases List.mem_cons.mp he with rfl | he
        · simp [Entry.file] at hf
        · obtain ⟨g, hg2, hge⟩ := hent e he
          rw [hge] at hf
          cases hf
          exact ⟨files, rfl, mem_sortStrings.mp hg2⟩
      · cases hfiles2
        simpa [executedFiles, attemptedFiles, Entry.executedFile, Entry.attemptedFile]
          using And.intro hexe hatt

/-- A failing run, whatever the bodies do: its last logged call is the one that failed, and
the error returned tells whether that was the table creation, the directory listing or the
processing of a file. -/
theorem run_error_trace (env : Env) (migrationsPath : String) (w : World) (err : GoError)
    (hr : (RunMigrations env migrationsPath w).1 = some err) :
    ∃ es e, (RunMigrations env migrationsPath w).2.log = w.log ++ es ∧
      es.getLast? = some e ∧ e.ok = false ∧
      ((e.call = .createTable ∧ ∃ cause, err = errCreateTable cause) ∨
       (e.call = .glob migrationsPath ∧ ∃ cause, err = errListFiles cause) ∨
       (∃ file cause, e.file = some file ∧ err = errRunMigration file cause)) := by
  cases hq : env.fault w.tick with
  | some cause =>
    rw [RunMigrations_create_fail migrationsPath hq] at hr ⊢
    cases hr
    exact ⟨_, _, dbStep_log _ _ _, rfl, rfl, Or.inl ⟨rfl, cause, rfl⟩⟩
  | none =>
    cases hg : env.glob migrationsPath with
    | error cause =>
      rw [RunMigrations_glob_fail hq hg] at hr ⊢
      cases hr
      exact ⟨_, _, afterGlob_log _ _ _, rfl, rfl, Or.inr (Or.inl ⟨rfl, cause, rfl⟩)⟩
    | ok files =>
      rw [RunMigrations_loop hq hg] at hr ⊢
      obtain ⟨es, hlog, -, -, -, herr⟩ :=
        loop_trace env (sortStrings files) (afterGlob migrationsPath true w)
      obtain ⟨file, cause, ws, -, -, heq, ⟨e, he, hok, hfe⟩, -⟩ := herr err hr
      refine ⟨⟨.createTable, true, w.rows⟩ :: ⟨.glob migrationsPath, true, w.rows⟩ :: es, e,
        by simp [hlog], getLast_cons_of_some (getLast_cons_of_some he), hok,
        Or.inr (Or.inr ⟨file, cause, hfe, heq⟩)⟩

/-- C1, counterexample: the body of `002_b.sql` is `DELETE FROM schema_migrations`.  The first
run on the fresh database returns success and leaves `002_b.sql` and `003_c.sql` recorded; the
second run, in which no call fails, executes the body of `001_a.sql` again and inserts its
record. -/
theorem C1_counterexample :
    (RunMigrations (demoEnvScripts ["m/002_b.sql", "m/003_c.sql", "m/001_a.sql"]
      (clearsTable "m/002_b.sql") noFault) "m" World.fresh).1 = none ∧
    (RunMigrations (demoEnvScripts ["m/002_b.sql", "m/003_c.sql", "m/001_a.sql"]
      (clearsTable "m/002_b.sql") noFault) "m" World.fresh).2.rows =
      ["002_b.sql", "003_c.sql"] ∧
    executedFiles (newEntries
      (RunMigrations (demoEnvScripts ["m/002_b.sql", "m/003_c.sql", "m/001_a.sql"]
        (clearsTable "m/002_b.sql") noFault) "m" World.fresh).2
      (RunMigrations (demoEnvScripts ["m/002_b.sql", "m/003_c.sql", "m/001_a.sql"]
        (clearsTable "m/002_b.sql") noFault) "m"
        (RunMigrations (demoEnvScripts ["m/002_b.sql", "m/003_c.sql", "m/001_a.sql"]
          (clearsTable "m/002_b.sql") noFault) "m" World.fresh).2).2) = ["m/001_a.sql"] ∧
    insertedVersions (newEntries
      (RunMigrations (demoEnvScripts ["m/002_b.sql", "m/003_c.sql", "m/001_a.sql"]
        (clearsTable "m/002_b.sql") noFault) "m" World.fresh).2
      (RunMigrations (demoEnvScripts ["m/002_b.sql", "m/003_c.sql", "m/001_a.sql"]
        (clearsTable "m/002_b.sql") noFault) "m"
        (RunMigrations (demoEnvScripts ["m/002_b.sql", "m/003_c.sql", "m/001_a.sql"]
          (clearsTable "m/002_b.sql") noFault) "m" World.fresh).2).2) = ["001_a.sql"] := by
  decide

/-- C1, amended. Idempotence of `RunMigrations` for migration bodies that leave
`schema_migrations` as it is: when a first run with such bodies returns success, a second run
on the same directory and the resulting database, in which no database call fails, returns
success, leaves the bookkeeping table and the applied scripts unchanged, and makes no call but
the table creation, the directory listing and one successful existence query per candidate:
it executes no body and inserts no record.  (This holds from every start, the initially
empty table included, and whatever the bodies of the second run would do.) -/
theorem C1_second_run_is_noop (env env2 : Env) (migrationsPath : String) (w : World)
    (hkeep : env.keepsTable)
    (hfirst : (RunMigrations env migrationsPath w).1 = none)
    (hsame : env2.glob migrationsPath = env.glob migrationsPath)
    (hnofault : ∀ n, env2.fault n = none) :
    (RunMigrations env2 migrationsPath (RunMigrations env migrationsPath w).2).1 = none ∧
    (RunMigrations env2 migrationsPath (RunMigrations env migrationsPath w).2).2.rows =
      (RunMigrations env migrationsPath w).2.rows ∧
    (RunMigrations env2 migrationsPath (RunMigrations env migrationsPath w).2).2.table =
      (RunMigrations env migrationsPath w).2.table ∧
    (RunMigrations env2 migrationsPath (RunMigrations env migrationsPath w).2).2.applied =
      (RunMigrations env migrationsPath w).2.applied ∧
    executedFiles (newEntries (RunMigrations env migrationsPath w).2
      (RunMigrations env2 migrationsPath (RunMigrations env migrationsPath w).2).2) = [] ∧
    insertedVersions (newEntries (RunMigrations env migrationsPath w).2
      (RunMigrations env2 migrationsPath (RunMigrations env migrationsPath w).2).2) = [] ∧
    ∃ files, env.glob migrationsPath = .ok files ∧
      newEntries (RunMigrations env migrationsPath w).2
        (RunMigrations env2 migrationsPath (RunMigrations env migrationsPath w).2).2 =
      ⟨.createTable, true, (RunMigrations env migrationsPath w).2.rows⟩ ::
      ⟨.glob migrationsPath, true, (RunMigrations env migrationsPath w).2.rows⟩ ::
      (sortStrings files).map (fun f =>
        (⟨.countVersion f (filepathBase f), true, (RunMigrations env migrationsPath w).2.rows⟩ :
          Entry)) := by
  have h1 := RunMigrations_facts env hkeep migrationsPath w
  generalize (RunMigrations env migrationsPath w).1 = r1 at h1 hfirst
  generalize (RunMigrations env migrationsPath w).2 = w1 at h1
  subst hfirst
  cases h1 with
  | looped files r w1 hfault hglob hloop =>
    obtain ⟨es, -, hrows, htab, -, -, -, -, hok, -⟩ := loop_log hloop
    have hall : ∀ f ∈ sortStrings files, filepathBase f ∈ w1.rows := by
      intro f hf
      rw [hrows]
      exact List.mem_append.mpr (hok rfl f hf)
    have hsome : w1.table.isSome := htab.mpr (by simp)
    have hrun := @RunMigrations_loop env2 w1 files migrationsPath (hnofault _) (hsame.trans hglob)
    have hloop2 := runFiles_noop env2 (sortStrings files) (afterGlob migrationsPath true w1)
      (by simpa using hall) hnofault
    rw [← hrun] at hloop2
    obtain ⟨hr, htable, happlied, hlog⟩ := hloop2
    have hlog2 : (RunMigrations env2 migrationsPath w1).2.log = w1.log ++
        (⟨.createTable, true, w1.rows⟩ :: ⟨.glob migrationsPath, true, w1.rows⟩ ::
          (sortStrings files).map (fun f =>
            (⟨.countVersion f (filepathBase f), true, w1.rows⟩ : Entry))) := by
      simpa using hlog
    have hnew := newEntries_of_log hlog2
    have htable2 : (RunMigrations env2 migrationsPath w1).2.table = w1.table := by
      rw [htable, afterGlob_table, table_eq_some_rows hsome]
    refine ⟨hr, ?_, htable2, by simpa using happlied, ?_, ?_, files, hglob, hnew⟩
    · simp [World.rows, htable2]
    · rw [hnew]
      simp [executedFiles, Entry.executedFile, List.filterMap_map]
    · rw [hnew]
      simp [insertedVersions, Entry.insertedVersion, List.filterMap_map]

/-- C1 amended, at a concrete input: the three-file directory on a fresh database, run
twice. -/
theorem C1_second_run_is_noop_witness :
    (demoEnv noFault).keepsTable ∧
    (RunMigrations (demoEnv noFault) "m" World.fresh).1 = none ∧
    (RunMigrations (demoEnv noFault) "m"
      (RunMigrations (demoEnv noFault) "m" World.fresh).2).1 = none ∧
    (RunMigrations (demoEnv noFault) "m"
      (RunMigrations (demoEnv noFault) "m" World.fresh).2).2.rows =
      ["001_a.sql", "002_b.sql", "003_c.sql"] :=
  ⟨fun _ _ _ _ => rfl, by decide,
    (C1_second_run_is_noop (demoEnv noFault) (demoEnv noFault) "m" World.fresh
      (fun _ _ _ _ => rfl) (by decide) rfl (fun _ => rfl)).1,
    (C1_second_run_is_noop (demoEnv noFault) (demoEnv noFault) "m" World.fresh
      (fun _ _ _ _ => rfl) (by decide) rfl (fun _ => rfl)).2.1.trans (by decide)⟩

/-- A run in which no database call fails and every candidate is readable and valid
returns success. -/
theorem run_success {env : Env} {migrationsPath : String} {w w1 : World} {r : Option GoError}
    {files : List String} (h : RunFacts env migrationsPath w r w1)
    (hglob : env.glob migrationsPath = .ok files) (hnofault : ∀ n, env.fault n = none)
    (hfiles : ∀ f ∈ files, ∃ sql, env.readFile f = .ok sql ∧ env.scriptError sql = none) :
    r = none := by
  cases h with
  | createFailed err hfault => simp [hnofault] at hfault
  | globFailed err hfault hglob2 => simp [hglob] at hglob2
  | looped files2 r w1 hfault hglob2 hloop =>
    rw [hglob] at hglob2
    cases hglob2
    exact loop_success hloop hnofault (fun f hf => hfiles f (mem_sortStrings.mp hf)) (by simp)

/-- C2, counterexample.  First, a source path `m*`: the scan returns `m1/002_b.sql` and
`m2/001_a.sql`, and the body of `002_b.sql` is executed before the body of `001_a.sql`, so
the bodies executed are not a subsequence of the candidates in ascending order of file name.
Second, the directory `m` whose `001_a.sql` itself inserts the record `002_b.sql`: on the
empty database, with no failing call, the run returns success and the body of `002_b.sql` is
not executed. -/
theorem C2_counterexample :
    executedFiles (newEntries World.fresh
      (RunMigrations (fsEnv demoFSPatterns (fun file => .ok ("-- body of " ++ file))
        (fun _ => none) noFault) "m*" World.fresh).2) = ["m1/002_b.sql", "m2/001_a.sql"] ∧
    ¬ (["m1/002_b.sql", "m2/001_a.sql"].map filepathBase).Sorted stringLE ∧
    (RunMigrations (demoEnvScripts ["m/002_b.sql", "m/003_c.sql", "m/001_a.sql"]
      (recordsVersion "m/001_a.sql" "002_b.sql") noFault) "m" World.fresh).1 = none ∧
    executedFiles (newEntries World.fresh
      (RunMigrations (demoEnvScripts ["m/002_b.sql", "m/003_c.sql", "m/001_a.sql"]
        (recordsVersion "m/001_a.sql" "002_b.sql") noFault) "m" World.fresh).2) =
      ["m/001_a.sql", "m/003_c.sql"] := by
  decide

/-- C2, amended. Application order: the bodies `RunMigrations` sends to the database
(successfully or not), and so the bodies it executes successfully, form a subsequence of the
candidates sorted in ascending lexical order of their paths, whatever the order in which the
directory scan returned them and whatever the bodies do; for the files of one directory this
is the ascending order of the file names.  In particular, for the candidates `001_a.sql`,
`002_b.sql`, `003_c.sql` of a directory, on an empty table, with readable valid bodies that
leave `schema_migrations` as it is and no failing call, the bodies are executed in exactly
that order. -/
theorem C2_execution_order (env : Env) (migrationsPath : String) (w : World)
    (files : List String) (hglob : env.glob migrationsPath = .ok files) :
    (attemptedFiles (newEntries w (RunMigrations env migrationsPath w).2)).Sublist
      (sortStrings files) ∧
    (executedFiles (newEntries w (RunMigrations env migrationsPath w).2)).Sublist
      (sortStrings files) ∧
    (sortStrings files).Perm files ∧
    (sortStrings files).Sorted (fun a b => a ≤ b) ∧
    (∀ dir : String,
      files.Perm [dir ++ "/" ++ "001_a.sql", dir ++ "/" ++ "002_b.sql",
        dir ++ "/" ++ "003_c.sql"] →
      env.keepsTable → w.rows = [] → (∀ n, env.fault n = none) →
      (∀ f ∈ files, ∃ sql, env.readFile f = .ok sql ∧ env.scriptError sql = none) →
      executedFiles (newEntries w (RunMigrations env migrationsPath w).2) =
        [dir ++ "/" ++ "001_a.sql", dir ++ "/" ++ "002_b.sql", dir ++ "/" ++ "003_c.sql"]) ∧
    (∀ (dir : String) (names : List String), files = names.map (fun name => dir ++ name) →
      sortStrings files = (sortStrings names).map (fun name => dir ++ name)) := by
  obtain ⟨es, hlog, -, hsub⟩ := run_trace env migrationsPath w
  rw [newEntries_of_log hlog]
  obtain ⟨hexec, hatt⟩ := hsub files hglob
  refine ⟨hatt, hexec, sortStrings_perm files, sortStrings_sorted_le files, ?_,
    fun dir names hnames => sortStrings_map_append dir hnames⟩
  intro dir hperm hkeep hempty hnofault hfiles
  have hfacts := RunMigrations_facts env hkeep migrationsPath w
  obtain ⟨es2, hlog2, hrows, -, -, hrel, hok⟩ := run_log hfacts
  have hes : es = es2 := List.append_cancel_left (hlog.symm.trans hlog2)
  subst hes
  have hr := run_success hfacts hglob hnofault hfiles
  have ha : filepathBase (dir ++ "/" ++ "001_a.sql") = "001_a.sql" :=
    filepathBase_append_slash dir _ (by decide) (by decide)
  have hb : filepathBase (dir ++ "/" ++ "002_b.sql") = "002_b.sql" :=
    filepathBase_append_slash dir _ (by decide) (by decide)
  have hc : filepathBase (dir ++ "/" ++ "003_c.sql") = "003_c.sql" :=
    filepathBase_append_slash dir _ (by decide) (by decide)
  have hab : dir ++ "/" ++ "001_a.sql" ≠ dir ++ "/" ++ "002_b.sql" := by
    intro h
    have := congrArg filepathBase h
    rw [ha, hb] at this
    exact absurd this (by decide)
  have hac : dir ++ "/" ++ "001_a.sql" ≠ dir ++ "/" ++ "003_c.sql" := by
    intro h
    have := congrArg filepathBase h
    rw [ha, hc] at this
    exact absurd this (by decide)
  have hbc : dir ++ "/" ++ "002_b.sql" ≠ dir ++ "/" ++ "003_c.sql" := by
    intro h
    have := congrArg filepathBase h
    rw [hb, hc] at this
    exact absurd this (by decide)
  have hsorted : List.Sorted stringLE [dir ++ "/" ++ "001_a.sql", dir ++ "/" ++ "002_b.sql",
      dir ++ "/" ++ "003_c.sql"] := by
    simp only [List.sorted_cons, List.mem_cons, List.mem_singleton, List.not_mem_nil,
      forall_eq_or_imp, forall_eq, List.sorted_nil, and_true, IsEmpty.forall_iff, implies_true]
    exact ⟨⟨stringLE_append_left _ _ _ (by decide), stringLE_append_left _ _ _ (by decide)⟩,
      stringLE_append_left _ _ _ (by decide)⟩
  have hsort := sortStrings_eq_of_perm hperm hsorted
  rw [hsort] at hexec
  have hins : insertedVersions es = (executedFiles es).map filepathBase := by
    rcases hrel with hx | ⟨hne, -⟩
    · exact hx
    · exact absurd hr hne
  obtain ⟨files2, hglob2, hall⟩ := hok hr
  rw [hglob] at hglob2
  cases hglob2
  rw [hsort] at hall
  apply sublist_eq_of_subset hexec
  · simp [hab, hac, hbc]
  · intro f hf
    have hbase : filepathBase f ∈ (executedFiles es).map filepathBase := by
      rcases hall f hf with h | h
      · simp [hempty] at h
      · rwa [hins] at h
    obtain ⟨g, hg, hgf⟩ := List.mem_map.mp hbase
    have hg2 := hexec.subset hg
    have hfg : g = f := by
      simp only [List.mem_cons, List.mem_singleton, List.not_mem_nil, or_false] at hf hg2
      rcases hf with rfl | rfl | rfl <;> rcases hg2 with rfl | rfl | rfl <;>
        first
        | rfl
        | (rw [ha, hb] at hgf; exact absurd hgf (by decide))
        | (rw [ha, hc] at hgf; exact absurd hgf (by decide))
        | (rw [hb, hc] at hgf; exact absurd hgf (by decide))
    rw [← hfg]; exact hg

/-- C2 amended, at a concrete input: the directory scan returns `002_b`, `003_c`, `001_a`; the
bodies run in the order `001_a`, `002_b`, `003_c`. -/
theorem C2_execution_order_witness :
    (demoEnv noFault).glob "m" = .ok ["m/002_b.sql", "m/003_c.sql", "m/001_a.sql"] ∧
    executedFiles (newEntries World.fresh (RunMigrations (demoEnv noFault) "m" World.fresh).2) =
      ["m/001_a.sql", "m/002_b.sql", "m/003_c.sql"] :=
  ⟨rfl, (C2_execution_order (demoEnv noFault) "m" World.fresh _ rfl).2.2.2.2.1 "m" (by decide)
    (fun _ _ _ _ => rfl) rfl (fun _ => rfl) (fun _ _ => ⟨_, rfl, rfl⟩)⟩

/-- C3, counterexample: the body of `002_b.sql` is `DELETE FROM schema_migrations` and the
execution of the body of `003_c.sql` fails (database call 8).  The run returns the error of
`003_c.sql` with `002_b.sql` alone recorded: `001_a.sql`, which precedes the failing
candidate and was executed and recorded by this run, is no longer recorded. -/
theorem C3_counterexample :
    (RunMigrations (demoEnvScripts ["m/002_b.sql", "m/003_c.sql", "m/001_a.sql"]
      (clearsTable "m/002_b.sql") (faultAt 8 (.base "connection lost"))) "m" World.fresh).1 =
      some (errRunMigration "m/003_c.sql" (.base "connection lost")) ∧
    (RunMigrations (demoEnvScripts ["m/002_b.sql", "m/003_c.sql", "m/001_a.sql"]
      (clearsTable "m/002_b.sql") (faultAt 8 (.base "connection lost"))) "m" World.fresh).2.rows =
      ["002_b.sql"] ∧
    insertedVersions (newEntries World.fresh
      (RunMigrations (demoEnvScripts ["m/002_b.sql", "m/003_c.sql", "m/001_a.sql"]
        (clearsTable "m/002_b.sql") (faultAt 8 (.base "connection lost"))) "m"
        World.fresh).2) = ["001_a.sql", "002_b.sql"] := by
  decide

/-- C3, amended. Partial-failure halting: when the table creation and the directory scan
succeed, the candidates before `k` in the sorted list are processed without failure and
processing `k` fails, `RunMigrations` returns the error of `k` and stops in the world
`runMigration` left: no logged call concerns a candidate other than those before `k` and `k`
itself.  When moreover the migration bodies leave `schema_migrations` as it is, the failing
step leaves the table as it was, and the recorded versions are those recorded before the run
followed by versions inserted for candidates before `k`: a version is recorded exactly when it
was recorded before or is the base name of a candidate before `k`. -/
theorem C3_partial_failure (env : Env) (migrationsPath : String) (w w1 w2 w3 w4 : World)
    (files pre post : List String) (k : String) (err : GoError)
    (hcreate : createMigrationsTable env w = (none, w1))
    (hglob : fsGlob env migrationsPath w1 = (.ok files, w2))
    (hsplit : sortStrings files = pre ++ k :: post)
    (hpre : runFiles env pre w2 = (none, w3))
    (hk : runMigration env k w3 = (some err, w4)) :
    RunMigrations env migrationsPath w = (some (errRunMigration k err), w4) ∧
    (∀ e ∈ newEntries w w4, ∀ f, e.file = some f → f ∈ pre ∨ f = k) ∧
    (env.keepsTable →
      w4.table = w3.table ∧
      w4.rows = w.rows ++ insertedVersions (newEntries w w4) ∧
      (insertedVersions (newEntries w w4)).Sublist (pre.map filepathBase) ∧
      (∀ v, v ∈ w4.rows ↔ v ∈ w.rows ∨ v ∈ pre.map filepathBase)) := by
  have hrun : RunMigrations env migrationsPath w = (some (errRunMigration k err), w4) := by
    simp only [RunMigrations, hcreate, hglob, hsplit]
    rw [runFiles_append hpre, runFiles_halt hk]
  obtain ⟨-, rfl⟩ := createMigrationsTable_inv hcreate
  obtain ⟨-, rfl⟩ := fsGlob_inv hglob
  obtain ⟨es1, hlog1, hent1, -⟩ :=
    loop_trace env pre ((afterCreate w).fsStep (.glob migrationsPath) true)
  rw [hpre] at hlog1
  obtain ⟨es2, hlog2, hent2, -⟩ := step_trace env k w3
  rw [hk] at hlog2
  have hlog : w4.log = w.log ++ (⟨.createTable, true, w.rows⟩ ::
      ⟨.glob migrationsPath, true, w.rows⟩ :: (es1 ++ es2)) := by
    rw [hlog2, hlog1]
    simp [World.fsStep]
  rw [newEntries_of_log hlog]
  refine ⟨hrun, ?_, fun hkeep => ?_⟩
  · intro e he f hf
    rcases List.mem_cons.mp he with rfl | he
    · simp [Entry.file] at hf
    rcases List.mem_cons.mp he with rfl | he
    · simp [Entry.file] at hf
    rcases List.mem_append.mp he with he | he
    · obtain ⟨g, hg, hge⟩ := hent1 e he
      rw [hge] at hf
      cases hf
      exact Or.inl hg
    · rw [hent2 e he] at hf
      cases hf
      exact Or.inr rfl
  · have hloop : LoopFacts env pre ((afterCreate w).fsStep (.glob migrationsPath) true)
        none w3 := by
      have := runFiles_facts env hkeep pre ((afterCreate w).fsStep (.glob migrationsPath) true)
      rw [hpre] at this
      exact this
    obtain ⟨es3, hlog3, hrows1, hsub1, -, hiff1⟩ := loop_ok_rows hloop
    have hes1 : es1 = es3 := List.append_cancel_left (hlog1.symm.trans hlog3)
    subst hes1
    have hstep : StepFacts env k w3 (some err) w4 := by
      have := runMigration_facts env hkeep k w3
      rw [hk] at this
      exact this
    obtain ⟨es4, hlog4, -, -, -, -, -, -, -, -, hframe, -⟩ := step_log hstep
    have hes2 : es2 = es4 := List.append_cancel_left (hlog2.symm.trans hlog4)
    subst hes2
    obtain ⟨htable, hnone⟩ := hframe (by simp)
    have hins : insertedVersions ((⟨.createTable, true, w.rows⟩ : Entry) ::
        ⟨.glob migrationsPath, true, w.rows⟩ :: (es1 ++ es2)) = insertedVersions es1 := by
      have := insertedVersions_append es1 es2
      rw [hnone, List.append_nil] at this
      rw [← this]
      simp [insertedVersions, Entry.insertedVersion]
    have hrows3 : w3.rows = w.rows ++ insertedVersions es1 := by
      rw [hrows1]; rfl
    have hrows4 : w4.rows = w3.rows := by
      simp [World.rows, htable]
    rw [hins]
    refine ⟨htable, by rw [hrows4, hrows3], hsub1, ?_⟩
    intro v
    rw [hrows4, hiff1 v]
    rfl

/-- C3 amended, at a concrete input: the body of `002_b.sql` is invalid; the run fails naming
it, with `001_a.sql` recorded and `003_c.sql` never touched. -/
theorem C3_partial_failure_witness :
    RunMigrations (demoEnvInvalid "m/002_b.sql") "m" World.fresh =
      (some (errRunMigration "m/002_b.sql" (.base "syntax error")),
        (RunMigrations (demoEnvInvalid "m/002_b.sql") "m" World.fresh).2) ∧
    (∀ e ∈ newEntries World.fresh (RunMigrations (demoEnvInvalid "m/002_b.sql") "m"
        World.fresh).2, ∀ f, e.file = some f → f ∈ ["m/001_a.sql"] ∨ f = "m/002_b.sql") ∧
    (∀ v, v ∈ (RunMigrations (demoEnvInvalid "m/002_b.sql") "m" World.fresh).2.rows ↔
      v ∈ World.fresh.rows ∨ v ∈ ["m/001_a.sql"].map filepathBase) :=
  have h := C3_partial_failure (demoEnvInvalid "m/002_b.sql") "m" World.fresh
    (afterCreate World.fresh) (afterGlob "m" true World.fresh)
    (runFiles (demoEnvInvalid "m/002_b.sql") ["m/001_a.sql"] (afterGlob "m" true World.fresh)).2
    (RunMigrations (demoEnvInvalid "m/002_b.sql") "m" World.fresh).2
    ["m/002_b.sql", "m/003_c.sql", "m/001_a.sql"] ["m/001_a.sql"] ["m/003_c.sql"] "m/002_b.sql"
    (.base "syntax error") (by decide) rfl (by decide) (by decide) (by decide)
  ⟨h.1, h.2.1, (h.2.2 (fun _ _ _ _ => rfl)).2.2.2⟩

/-- C4, counterexample.  First, the insert of the version of `001_a.sql` fails (database call
3) after its body was executed; the run returns with the body executed and the version not
recorded.  Second, two candidates `m1/001_a.sql` and `m2/001_a.sql` share a base name: the
run returns success with the version `001_a.sql` recorded, and the body of `m2/001_a.sql`
was not executed.  Third, the body of `002_b.sql` is `DELETE FROM schema_migrations`: the run
returns success, the body of `001_a.sql` was executed and its version is not recorded. -/
theorem C4_counterexample :
    World.fresh.rows = [] ∧
    "m/001_a.sql" ∈ executedFiles (newEntries World.fresh
      (RunMigrations (demoEnv (faultAt 3 (.base "connection lost"))) "m" World.fresh).2) ∧
    filepathBase "m/001_a.sql" ∉
      (RunMigrations (demoEnv (faultAt 3 (.base "connection lost"))) "m" World.fresh).2.rows ∧
    (RunMigrations (demoEnv (faultAt 3 (.base "connection lost"))) "m" World.fresh).2.applied =
      ["-- body of m/001_a.sql"] ∧
    (RunMigrations demoEnvSameBase "m*" World.fresh).1 = none ∧
    filepathBase "m2/001_a.sql" ∈ (RunMigrations demoEnvSameBase "m*" World.fresh).2.rows ∧
    "m2/001_a.sql" ∉ executedFiles (newEntries World.fresh
      (RunMigrations demoEnvSameBase "m*" World.fresh).2) ∧
    (RunMigrations (demoEnvScripts ["m/002_b.sql", "m/003_c.sql", "m/001_a.sql"]
      (clearsTable "m/002_b.sql") noFault) "m" World.fresh).1 = none ∧
    "m/001_a.sql" ∈ executedFiles (newEntries World.fresh
      (RunMigrations (demoEnvScripts ["m/002_b.sql", "m/003_c.sql", "m/001_a.sql"]
        (clearsTable "m/002_b.sql") noFault) "m" World.fresh).2) ∧
    filepathBase "m/001_a.sql" ∉
      (RunMigrations (demoEnvScripts ["m/002_b.sql", "m/003_c.sql", "m/001_a.sql"]
        (clearsTable "m/002_b.sql") noFault) "m" World.fresh).2.rows := by
  decide

/-- C4, amended. For migration bodies that leave `schema_migrations` as it is: starting from
an empty table, when `RunMigrations` returns, the recorded versions are, in order, the base
names of the candidates whose bodies were executed successfully in the run; the one exception
is a run that ends with a failed record insert, in which the last executed candidate is
executed and not recorded.  A run that returns success has recorded exactly the base names of
the candidates it executed. -/
theorem C4_recorded_executed (env : Env) (migrationsPath : String) (w : World)
    (hkeep : env.keepsTable) (hempty : w.rows = []) :
    ((RunMigrations env migrationsPath w).1 = none →
      (RunMigrations env migrationsPath w).2.rows =
        (executedFiles (newEntries w (RunMigrations env migrationsPath w).2)).map
          filepathBase) ∧
    ((RunMigrations env migrationsPath w).2.rows =
        (executedFiles (newEntries w (RunMigrations env migrationsPath w).2)).map
          filepathBase ∨
      ((RunMigrations env migrationsPath w).1 ≠ none ∧ ∃ f rows,
        (RunMigrations env migrationsPath w).2.rows ++ [filepathBase f] =
          (executedFiles (newEntries w (RunMigrations env migrationsPath w).2)).map
            filepathBase ∧
        (newEntries w (RunMigrations env migrationsPath w).2).getLast? =
          some ⟨.insertVersion f (filepathBase f), false, rows⟩)) := by
  obtain ⟨es, hlog, hrows, -, -, hrel, -⟩ :=
    run_log (RunMigrations_facts env hkeep migrationsPath w)
  rw [newEntries_of_log hlog, hrows, hempty, List.nil_append]
  refine ⟨fun hr => ?_, hrel⟩
  rcases hrel with hx | ⟨hne, -⟩
  · exact hx
  · exact absurd hr hne

/-- C4 amended, at a concrete input: the failing insert of the counterexample. -/
theorem C4_recorded_executed_witness :
    (demoEnv (faultAt 3 (.base "connection lost"))).keepsTable ∧ World.fresh.rows = [] ∧
    ((RunMigrations (demoEnv (faultAt 3 (.base "connection lost"))) "m" World.fresh).2.rows =
        (executedFiles (newEntries World.fresh (RunMigrations
          (demoEnv (faultAt 3 (.base "connection lost"))) "m" World.fresh).2)).map
            filepathBase ∨
      ((RunMigrations (demoEnv (faultAt 3 (.base "connection lost"))) "m" World.fresh).1 ≠
          none ∧ ∃ f rows,
        (RunMigrations (demoEnv (faultAt 3 (.base "connection lost"))) "m" World.fresh).2.rows ++
            [filepathBase f] =
          (executedFiles (newEntries World.fresh (RunMigrations
            (demoEnv (faultAt 3 (.base "connection lost"))) "m" World.fresh).2)).map
              filepathBase ∧
        (newEntries World.fresh (RunMigrations
          (demoEnv (faultAt 3 (.base "connection lost"))) "m" World.fresh).2).getLast? =
          some ⟨.insertVersion f (filepathBase f), false, rows⟩)) :=
  ⟨fun _ _ _ _ => rfl, rfl,
    (C4_recorded_executed (demoEnv (faultAt 3 (.base "connection lost"))) "m" World.fresh
      (fun _ _ _ _ => rfl) rfl).2⟩

/-- C5, counterexample: the body of `002_b.sql` is `DELETE FROM schema_migrations`.  On the
fresh database the run returns success, and the base name of the candidate `001_a.sql` is not
among the recorded versions. -/
theorem C5_counterexample :
    (RunMigrations (demoEnvScripts ["m/002_b.sql", "m/003_c.sql", "m/001_a.sql"]
      (clearsTable "m/002_b.sql") noFault) "m" World.fresh).1 = none ∧
    (demoEnvScripts ["m/002_b.sql", "m/003_c.sql", "m/001_a.sql"]
      (clearsTable "m/002_b.sql") noFault).glob "m" =
      .ok ["m/002_b.sql", "m/003_c.sql", "m/001_a.sql"] ∧
    filepathBase "m/001_a.sql" ∉
      (RunMigrations (demoEnvScripts ["m/002_b.sql", "m/003_c.sql", "m/001_a.sql"]
        (clearsTable "m/002_b.sql") noFault) "m" World.fresh).2.rows :=
  ⟨by decide, rfl, by decide⟩

/-- C5, amended. Success postcondition for migration bodies that leave `schema_migrations` as
it is: when `RunMigrations` returns success, the directory scan succeeded and the base name
of every candidate is recorded, having been recorded before the run or inserted by it; every
version the run inserted is the base name of a candidate, verbatim; and starting from an
empty table the recorded versions are exactly the candidates' base names. -/
theorem C5_success_postcondition (env : Env) (migrationsPath : String) (w : World)
    (hkeep : env.keepsTable) (h : (RunMigrations env migrationsPath w).1 = none) :
    ∃ files, env.glob migrationsPath = .ok files ∧
      (∀ f ∈ files, filepathBase f ∈ (RunMigrations env migrationsPath w).2.rows ∧
        (filepathBase f ∈ w.rows ∨ filepathBase f ∈
          insertedVersions (newEntries w (RunMigrations env migrationsPath w).2))) ∧
      (∀ v ∈ insertedVersions (newEntries w (RunMigrations env migrationsPath w).2),
        ∃ f ∈ files, v = filepathBase f) ∧
      (w.rows = [] → ∀ v, v ∈ (RunMigrations env migrationsPath w).2.rows ↔
        v ∈ files.map filepathBase) := by
  obtain ⟨es, hlog, hrows, -, hsub, hrel, hok⟩ :=
    run_log (RunMigrations_facts env hkeep migrationsPath w)
  rw [newEntries_of_log hlog, hrows]
  obtain ⟨files, hglob, hall⟩ := hok h
  have hins : insertedVersions es = (executedFiles es).map filepathBase := by
    rcases hrel with hx | ⟨hne, -⟩
    · exact hx
    · exact absurd h hne
  have hfrom : ∀ v ∈ insertedVersions es, ∃ f ∈ files, v = filepathBase f := by
    intro v hv
    rw [hins] at hv
    obtain ⟨f, hf, rfl⟩ := List.mem_map.mp hv
    exact ⟨f, mem_sortStrings.mp ((hsub files hglob).1.subset hf), rfl⟩
  refine ⟨files, hglob, fun f hf => ?_, hfrom, fun hempty v => ?_⟩
  · have := hall f (mem_sortStrings.mpr hf)
    exact ⟨List.mem_append.mpr this, this⟩
  · rw [hempty, List.nil_append]
    constructor
    · intro hv
      obtain ⟨f, hf, rfl⟩ := hfrom v hv
      exact List.mem_map_of_mem _ hf
    · intro hv
      obtain ⟨f, hf, rfl⟩ := List.mem_map.mp hv
      rcases hall f (mem_sortStrings.mpr hf) with h1 | h1
      · simp [hempty] at h1
      · exact h1

/-- C5 amended, at a concrete input: the three-file directory on a fresh database. -/
theorem C5_success_postcondition_witness :
    (demoEnv noFault).keepsTable ∧
    (RunMigrations (demoEnv noFault) "m" World.fresh).1 = none ∧
    ∃ files, (demoEnv noFault).glob "m" = .ok files ∧
      (∀ f ∈ files, filepathBase f ∈ (RunMigrations (demoEnv noFault) "m" World.fresh).2.rows ∧
        (filepathBase f ∈ World.fresh.rows ∨ filepathBase f ∈
          insertedVersions (newEntries World.fresh
            (RunMigrations (demoEnv noFault) "m" World.fresh).2))) ∧
      (∀ v ∈ insertedVersions (newEntries World.fresh
          (RunMigrations (demoEnv noFault) "m" World.fresh).2),
        ∃ f ∈ files, v = filepathBase f) ∧
      (World.fresh.rows = [] → ∀ v,
        v ∈ (RunMigrations (demoEnv noFault) "m" World.fresh).2.rows ↔
          v ∈ files.map filepathBase) :=
  ⟨fun _ _ _ _ => rfl, by decide,
    C5_success_postcondition (demoEnv noFault) "m" World.fresh (fun _ _ _ _ => rfl) (by decide)⟩

/-- C6, counterexample: the body of `002_b.sql` is `DELETE FROM schema_migrations`.  The run
starts on the empty table, a beginning of the sorted candidate list, and returns with
`002_b.sql` and `003_c.sql` recorded, which is not a beginning of it; and the body of
`003_c.sql` is executed while `001_a.sql`, which precedes it, is not recorded. -/
theorem C6_counterexample :
    recordedPrefix (sortStrings ["m/002_b.sql", "m/003_c.sql", "m/001_a.sql"])
      World.fresh.rows ∧
    ¬ recordedPrefix (sortStrings ["m/002_b.sql", "m/003_c.sql", "m/001_a.sql"])
      (RunMigrations (demoEnvScripts ["m/002_b.sql", "m/003_c.sql", "m/001_a.sql"]
        (clearsTable "m/002_b.sql") noFault) "m" World.fresh).2.rows ∧
    (⟨.execScript "m/003_c.sql" "-- body of m/003_c.sql", true, ["002_b.sql"]⟩ : Entry) ∈
      newEntries World.fresh
        (RunMigrations (demoEnvScripts ["m/002_b.sql", "m/003_c.sql", "m/001_a.sql"]
          (clearsTable "m/002_b.sql") noFault) "m" World.fresh).2 := by
  have hrows : (RunMigrations (demoEnvScripts ["m/002_b.sql", "m/003_c.sql", "m/001_a.sql"]
      (clearsTable "m/002_b.sql") noFault) "m" World.fresh).2.rows =
      ["002_b.sql", "003_c.sql"] := by decide
  have hsort : sortStrings ["m/002_b.sql", "m/003_c.sql", "m/001_a.sql"] =
      ["m/001_a.sql", "m/002_b.sql", "m/003_c.sql"] := by decide
  have hb1 : filepathBase "m/001_a.sql" = "001_a.sql" := by decide
  refine ⟨⟨0, by simp [World.fresh, World.rows]⟩, ?_, by decide⟩
  rw [hrows, hsort]
  rintro ⟨n, hn⟩
  have h2 := (hn "002_b.sql").mp (by simp)
  rcases n with _ | _ | n
  · simp at h2
  · rw [List.take_succ_cons, List.take_zero, List.map_singleton, hb1] at h2
    exact absurd h2 (by decide)
  · have h1 := (hn "001_a.sql").mpr (by
      rw [List.take_succ_cons, List.map_cons, hb1]
      exact List.mem_cons_self _ _)
    exact absurd h1 (by decide)

/-- C6, amended. Prefix invariant for migration bodies that leave `schema_migrations` as it
is: when the recorded versions are a beginning of the sorted candidate list before
`RunMigrations` starts, they are one after every call the run makes and when it returns,
with success or with an error.  And, whatever the start, a candidate's body is sent to the
database only when every candidate before it in the sorted list is recorded. -/
theorem C6_prefix_invariant (env : Env) (migrationsPath : String) (w : World)
    (files : List String) (hkeep : env.keepsTable)
    (hglob : env.glob migrationsPath = .ok files) :
    (recordedPrefix (sortStrings files) w.rows →
      recordedPrefix (sortStrings files) (RunMigrations env migrationsPath w).2.rows ∧
      ∀ e ∈ newEntries w (RunMigrations env migrationsPath w).2,
        recordedPrefix (sortStrings files) e.rows) ∧
    (∀ e ∈ newEntries w (RunMigrations env migrationsPath w).2, ∀ f,
      e.attemptedFile = some f →
        ∃ pre post, sortStrings files = pre ++ f :: post ∧
          ∀ g ∈ pre, filepathBase g ∈ e.rows) := by
  have hfacts := RunMigrations_facts env hkeep migrationsPath w
  revert hfacts
  generalize (RunMigrations env migrationsPath w).1 = r
  generalize (RunMigrations env migrationsPath w).2 = w1
  intro hfacts
  cases hfacts with
  | createFailed err hfault =>
    rw [newEntries_of_log (dbStep_log _ _ _)]
    refine ⟨fun hpre => ⟨by simpa using hpre, fun e he => ?_⟩, fun e he f hf => ?_⟩
    · rw [List.mem_singleton.mp he]; exact hpre
    · rw [List.mem_singleton.mp he] at hf
      simp [Entry.attemptedFile] at hf
  | globFailed err hfault hglob2 => simp [hglob] at hglob2
  | looped files2 r w1 hfault hglob2 hloop =>
    rw [hglob] at hglob2
    cases hglob2
    obtain ⟨es, hlog, hpre, hexec⟩ := loop_prefix hloop [] (by simp)
    simp only [List.nil_append, afterGlob_rows] at hpre hexec
    have hlog2 : w1.log = w.log ++ (⟨.createTable, true, w.rows⟩ ::
        ⟨.glob migrationsPath, true, w.rows⟩ :: es) := by
      simp [hlog]
    rw [newEntries_of_log hlog2]
    refine ⟨fun h0 => ⟨(hpre h0).1, fun e he => ?_⟩, fun e he f hf => ?_⟩
    · rcases List.mem_cons.mp he with rfl | he
      · exact h0
      rcases List.mem_cons.mp he with rfl | he
      · exact h0
      · exact (hpre h0).2 e he
    · rcases List.mem_cons.mp he with rfl | he
      · simp [Entry.attemptedFile] at hf
      rcases List.mem_cons.mp he with rfl | he
      · simp [Entry.attemptedFile] at hf
      · exact hexec e he f hf

/-- C6 amended, at a concrete input: a run that halts at `002_b.sql`, started on an empty
table. -/
theorem C6_prefix_invariant_witness :
    (demoEnvInvalid "m/002_b.sql").keepsTable ∧
    recordedPrefix (sortStrings ["m/002_b.sql", "m/003_c.sql", "m/001_a.sql"])
      World.fresh.rows ∧
    recordedPrefix (sortStrings ["m/002_b.sql", "m/003_c.sql", "m/001_a.sql"])
      (RunMigrations (demoEnvInvalid "m/002_b.sql") "m" World.fresh).2.rows :=
  ⟨fun _ _ _ _ => rfl, ⟨0, by simp [World.fresh, World.rows]⟩,
    ((C6_prefix_invariant (demoEnvInvalid "m/002_b.sql") "m" World.fresh _
      (fun _ _ _ _ => rfl) rfl).1 ⟨0, by simp [World.fresh, World.rows]⟩).1⟩

/-- C7, counterexample: the version of `001_a.sql` is recorded and the existence query fails;
`runMigration` returns the error, not success. -/
theorem C7_counterexample :
    filepathBase "m/001_a.sql" ∈ demoRecorded.rows ∧
    (runMigration (demoEnv (faultAt 0 (.base "connection lost"))) "m/001_a.sql"
      demoRecorded).1 = some (.base "connection lost") := by
  decide

/-- C7, amended. For a candidate whose base name is already recorded, `runMigration` makes
one call, the existence query, and returns what that call returns: success when the query
succeeds, its error when it fails.  In both cases the file is not read, no body is executed
and no record is inserted, so the table and the applied scripts are unchanged, whatever the
file's readability and content. -/
theorem C7_skip_recorded (env : Env) (file : String) (w : World)
    (hmem : filepathBase file ∈ w.rows) :
    (runMigration env file w).1 = env.fault w.tick ∧
    (runMigration env file w).2.table = w.table ∧
    (runMigration env file w).2.applied = w.applied ∧
    newEntries w (runMigration env file w).2 =
      [⟨.countVersion file (filepathBase file), (env.fault w.tick).isNone, w.rows⟩] := by
  obtain ⟨rows, ht⟩ : ∃ rows, w.table = some rows := by
    cases ht : w.table with
    | none => simp [World.rows, ht] at hmem
    | some rows => exact ⟨rows, rfl⟩
  have hmem2 : filepathBase file ∈ rows := by simpa [World.rows, ht] using hmem
  cases hq : env.fault w.tick with
  | some err =>
    have h : runMigration env file w = (some err, afterCount file false w) := by
      simp [runMigration, dbCountVersion, hq, afterCount]
    rw [h]
    exact ⟨rfl, rfl, rfl, newEntries_of_log (afterCount_log _ _ _)⟩
  | none =>
    have h : runMigration env file w = (none, afterCount file true w) := by
      simp [runMigration, dbCountVersion, hq, ht, afterCount, List.count_pos_iff, hmem2]
    rw [h]
    exact ⟨rfl, rfl, rfl, newEntries_of_log (afterCount_log _ _ _)⟩

/-- C7 amended, at a concrete input: `001_a.sql` is recorded, and is neither readable nor
valid; the query succeeds and the candidate is skipped. -/
theorem C7_skip_recorded_witness :
    filepathBase "m/001_a.sql" ∈ demoRecorded.rows ∧
    (runMigration (demoEnvUnreadable noFault) "m/001_a.sql" demoRecorded).1 = none ∧
    (runMigration (demoEnvUnreadable noFault) "m/001_a.sql" demoRecorded).2.table =
      demoRecorded.table :=
  ⟨by decide,
    (C7_skip_recorded (demoEnvUnreadable noFault) "m/001_a.sql" demoRecorded (by decide)).1,
    (C7_skip_recorded (demoEnvUnreadable noFault) "m/001_a.sql" demoRecorded (by decide)).2.1⟩

/-- C9, counterexample: two runs on the same directory; in the first the execution of the body
of `001_a.sql` fails, in the second the insert of its version, with the same underlying
error.  The errors returned are equal: they do not tell the two phases apart. -/
theorem C9_counterexample :
    (RunMigrations (demoEnv (faultAt 2 (.base "connection lost"))) "m" World.fresh).1 =
      (RunMigrations (demoEnv (faultAt 3 (.base "connection lost"))) "m" World.fresh).1 ∧
    (RunMigrations (demoEnv (faultAt 2 (.base "connection lost"))) "m" World.fresh).1 =
      some (errRunMigration "m/001_a.sql" (.base "connection lost")) ∧
    (RunMigrations (demoEnv (faultAt 2 (.base "connection lost"))) "m"
        World.fresh).2.log.getLast? =
      some ⟨.execScript "m/001_a.sql" "-- body of m/001_a.sql", false, []⟩ ∧
    (RunMigrations (demoEnv (faultAt 3 (.base "connection lost"))) "m"
        World.fresh).2.log.getLast? =
      some ⟨.insertVersion "m/001_a.sql" "001_a.sql", false, []⟩ := by
  decide

/-- C9, amended. The error of a failing run tells three phases apart, whatever the
underlying cause: the last logged call is the failed one, and the error is
`failed to create migrations table: ...` when it is the table creation,
`failed to list migration files: ...` when it is the directory listing, and
`failed to run migration <file>: ...` when it is a call made for a candidate (existence
query, read, execution or insert, which the error does not tell apart).  The three messages
are pairwise different, and the error of a per-file failure determines the file. -/
theorem C9_error_phase (env : Env) (migrationsPath : String) (w : World) (err : GoError)
    (hfail : (RunMigrations env migrationsPath w).1 = some err) :
    (∃ e, (newEntries w (RunMigrations env migrationsPath w).2).getLast? = some e ∧
      e.ok = false ∧
      ((e.call = .createTable ∧ ∃ cause, err = errCreateTable cause) ∨
       (e.call = .glob migrationsPath ∧ ∃ cause, err = errListFiles cause) ∨
       (∃ file cause, e.file = some file ∧ err = errRunMigration file cause))) ∧
    (∀ (c1 c2 c3 : GoError) (file : String),
      (errCreateTable c1).Error ≠ (errListFiles c2).Error ∧
      (errCreateTable c1).Error ≠ (errRunMigration file c3).Error ∧
      (errListFiles c2).Error ≠ (errRunMigration file c3).Error) ∧
    (∀ (f1 f2 : String) (c1 c2 : GoError),
      errRunMigration f1 c1 = errRunMigration f2 c2 → f1 = f2 ∧ c1 = c2) := by
  obtain ⟨es, e, hlog, he, hok, hphase⟩ := run_error_trace env migrationsPath w err hfail
  rw [newEntries_of_log hlog]
  exact ⟨⟨e, he, hok, hphase⟩,
    fun c1 c2 c3 file => ⟨errCreateTable_ne_errListFiles c1 c2,
      errCreateTable_ne_errRunMigration c1 c3 file, errListFiles_ne_errRunMigration c2 c3 file⟩,
    fun _ _ _ _ h => errRunMigration_inj h⟩

/-- C9 amended, at a concrete input: the table creation fails. -/
theorem C9_error_phase_witness :
    (RunMigrations (demoEnv (faultAt 0 (.base "connection lost"))) "m" World.fresh).1 =
      some (errCreateTable (.base "connection lost")) ∧
    ∃ e, (newEntries World.fresh (RunMigrations (demoEnv (faultAt 0 (.base "connection lost")))
        "m" World.fresh).2).getLast? = some e ∧ e.ok = false ∧
      ((e.call = .createTable ∧
          ∃ cause, errCreateTable (.base "connection lost") = errCreateTable cause) ∨
       (e.call = .glob "m" ∧
          ∃ cause, errCreateTable (.base "connection lost") = errListFiles cause) ∨
       (∃ file cause, e.file = some file ∧
          errCreateTable (.base "connection lost") = errRunMigration file cause)) :=
  ⟨by decide,
    (C9_error_phase (demoEnv (faultAt 0 (.base "connection lost"))) "m" World.fresh _
      (by decide)).1⟩

/-- C10, counterexample: `001_a.sql` is recorded and the body of `002_b.sql` is
`DELETE FROM schema_migrations`.  The run returns success, and `001_a.sql`, recorded before
the run, is not recorded after it. -/
theorem C10_counterexample :
    "001_a.sql" ∈ demoRecorded.rows ∧
    (RunMigrations (demoEnvScripts ["m/002_b.sql", "m/003_c.sql", "m/001_a.sql"]
      (clearsTable "m/002_b.sql") noFault) "m" demoRecorded).1 = none ∧
    "001_a.sql" ∉ (RunMigrations (demoEnvScripts ["m/002_b.sql", "m/003_c.sql", "m/001_a.sql"]
      (clearsTable "m/002_b.sql") noFault) "m" demoRecorded).2.rows := by
  decide

/-- C10, amended. Append-only bookkeeping: whatever the candidates, the initial table and the
failures, when the migration bodies leave `schema_migrations` as it is, after every call of a
run and when it returns the recorded versions are those recorded before the run, unchanged
and in place, followed by the versions the run inserted.  And a table that already exists is
no cause of error: when the `CREATE TABLE IF NOT EXISTS` call itself does not fail,
`createMigrationsTable` returns success and leaves the rows and the applied scripts as they
were. -/
theorem C10_append_only (env : Env) (migrationsPath : String) (w : World) :
    (env.keepsTable →
      (RunMigrations env migrationsPath w).2.rows =
        w.rows ++ insertedVersions (newEntries w (RunMigrations env migrationsPath w).2) ∧
      (∀ e ∈ newEntries w (RunMigrations env migrationsPath w).2,
        ∃ extra, e.rows = w.rows ++ extra)) ∧
    (∀ rows, w.table = some rows → env.fault w.tick = none →
      (createMigrationsTable env w).1 = none ∧
      (createMigrationsTable env w).2.table = some rows ∧
      (createMigrationsTable env w).2.applied = w.applied) := by
  refine ⟨fun hkeep => ?_, fun rows ht hq => ?_⟩
  · obtain ⟨es, hlog, hrows, hent, -⟩ :=
      run_log (RunMigrations_facts env hkeep migrationsPath w)
    rw [newEntries_of_log hlog]
    exact ⟨hrows, hent⟩
  · rw [createMigrationsTable_ok hq]
    simp [World.rows, ht]

/-- C10 amended, at a concrete input: the table exists with `001_a.sql` recorded, and the
bodies of the three-file directory leave it as it is. -/
theorem C10_append_only_witness :
    (demoEnv noFault).keepsTable ∧
    (∀ e ∈ newEntries demoRecorded (RunMigrations (demoEnv noFault) "m" demoRecorded).2,
      ∃ extra, e.rows = demoRecorded.rows ++ extra) ∧
    demoRecorded.table = some ["001_a.sql"] ∧
    (createMigrationsTable (demoEnv noFault) demoRecorded).1 = none ∧
    (createMigrationsTable (demoEnv noFault) demoRecorded).2.table = some ["001_a.sql"] ∧
    (createMigrationsTable (demoEnv noFault) demoRecorded).2.applied = demoRecorded.applied :=
  ⟨fun _ _ _ _ => rfl,
    ((C10_append_only (demoEnv noFault) "m" demoRecorded).1 (fun _ _ _ _ => rfl)).2,
    rfl, (C10_append_only (demoEnv noFault) "m" demoRecorded).2 _ rfl rfl⟩

/-! ## Version uniqueness -/

theorem attemptedInserts_append (a b : List Entry) :
    attemptedInserts (a ++ b) = attemptedInserts a ++ attemptedInserts b := by
  simp [attemptedInserts]

/-- One call of `runMigration`: it issues at most one insert, for the file's base name, only
when that version is absent, and right after the query, the read and the execution. -/
theorem step_unique {env : Env} {file : String} {w w1 : World} {r : Option GoError}
    (h : StepFacts env file w r w1) :
    ∃ es, w1.log = w.log ++ es ∧
      (attemptedInserts es = [] ∨
        (attemptedInserts es = [filepathBase file] ∧ filepathBase file ∉ w.rows)) ∧
      (w1.rows = w.rows ∨
        (w1.rows = w.rows ++ [filepathBase file] ∧ filepathBase file ∉ w.rows)) ∧
      (r = none → filepathBase file ∈ w1.rows) ∧
      (∀ e ∈ es, e.rows = w.rows ∨ e.rows = w1.rows) ∧
      (∀ pre e post, es = pre ++ e :: post → ∀ f v, e.call = .insertVersion f v →
        ∃ sql, pre = [⟨.countVersion f v, true, w.rows⟩, ⟨.readFile f, true, w.rows⟩,
          ⟨.execScript f sql, true, w.rows⟩] ∧ v ∉ w.rows) := by
  cases h
  case countFailed err hwhy =>
    refine ⟨_, afterCount_log _ _ _, by simp [attemptedInserts, Entry.attemptedInsert], by simp,
      by simp, by simp, ?_⟩
    intro pre e post hsplit f v hcall
    rcases pre with _ | ⟨p1, t⟩ <;> simp at hsplit
    obtain ⟨rfl, -⟩ := hsplit
    simp at hcall
  case skipped hfault htable hmem =>
    refine ⟨_, afterCount_log _ _ _, by simp [attemptedInserts, Entry.attemptedInsert, hmem],
      by simp [hmem], by simp [hmem], by simp, ?_⟩
    intro pre e post hsplit f v hcall
    rcases pre with _ | ⟨p1, t⟩ <;> simp at hsplit
    obtain ⟨rfl, -⟩ := hsplit
    simp at hcall
  case readFailed err htable hmem hread =>
    refine ⟨_, afterRead_log _ _ _, by simp [attemptedInserts, Entry.attemptedInsert], by simp,
      by simp, by simp, ?_⟩
    intro pre e post hsplit f v hcall
    rcases pre with _ | ⟨p1, _ | ⟨p2, t⟩⟩ <;> simp at hsplit
    · obtain ⟨rfl, -⟩ := hsplit
      simp at hcall
    · obtain ⟨-, rfl, -⟩ := hsplit
      simp at hcall
  case execFailed err sql htable hmem hread hwhy =>
    refine ⟨_, afterExecFailed_log _ _ _, by simp [attemptedInserts, Entry.attemptedInsert],
      by simp, by simp, by simp, ?_⟩
    intro pre e post hsplit f v hcall
    rcases pre with _ | ⟨p1, _ | ⟨p2, _ | ⟨p3, t⟩⟩⟩ <;> simp at hsplit
    · obtain ⟨rfl, -⟩ := hsplit
      simp at hcall
    · obtain ⟨-, rfl, -⟩ := hsplit
      simp at hcall
    · obtain ⟨-, -, rfl, -⟩ := hsplit
      simp at hcall
  case insertFailed err sql htable hmem hread hwhy =>
    refine ⟨_, afterInsertFailed_log _ _ _,
      by simp [attemptedInserts, Entry.attemptedInsert, hmem], by simp [hmem], by simp [hmem],
      by simp, ?_⟩
    intro pre e post hsplit f v hcall
    rcases pre with _ | ⟨p1, _ | ⟨p2, _ | ⟨p3, _ | ⟨p4, t⟩⟩⟩⟩ <;> simp at hsplit
    · obtain ⟨rfl, -⟩ := hsplit
      simp at hcall
    · obtain ⟨-, rfl, -⟩ := hsplit
      simp at hcall
    · obtain ⟨-, -, rfl, -⟩ := hsplit
      simp at hcall
    · obtain ⟨rfl, rfl, rfl, rfl, -⟩ := hsplit
      simp only [Call.insertVersion.injEq] at hcall
      obtain ⟨rfl, rfl⟩ := hcall
      exact ⟨sql, rfl, hmem⟩
  case recorded sql htable hmem hread =>
    refine ⟨_, afterInsert_log _ _ _,
      by simp [attemptedInserts, Entry.attemptedInsert, hmem], by simp [hmem], by simp [hmem],
      by simp, ?_⟩
    intro pre e post hsplit f v hcall
    rcases pre with _ | ⟨p1, _ | ⟨p2, _ | ⟨p3, _ | ⟨p4, t⟩⟩⟩⟩ <;> simp at hsplit
    · obtain ⟨rfl, -⟩ := hsplit
      simp at hcall
    · obtain ⟨-, rfl, -⟩ := hsplit
      simp at hcall
    · obtain ⟨-, -, rfl, -⟩ := hsplit
      simp at hcall
    · obtain ⟨rfl, rfl, rfl, rfl, -⟩ := hsplit
      simp only [Call.insertVersion.injEq] at hcall
      obtain ⟨rfl, rfl⟩ := hcall
      exact ⟨sql, rfl, hmem⟩

/-- The loop: the inserts it issues are for pairwise different versions, none of them in
the table at the start, each right after a query that saw the version absent; a table without
duplicates stays without duplicates after every call. -/
theorem loop_unique {env : Env} {files : List String} {w w1 : World} {r : Option GoError}
    (h : LoopFacts env files w r w1) :
    ∃ es, w1.log = w.log ++ es ∧
      (attemptedInserts es).Nodup ∧ (∀ v ∈ attemptedInserts es, v ∉ w.rows) ∧
      (∀ v ∈ w.rows, v ∈ w1.rows) ∧
      (w.rows.Nodup → w1.rows.Nodup ∧ ∀ e ∈ es, e.rows.Nodup) ∧
      insertsAfterAbsentCount es := by
  induction h with
  | done w =>
    refine ⟨[], by simp, by simp [attemptedInserts], by simp [attemptedInserts],
      fun v hv => hv, fun hnd => ⟨hnd, by simp⟩, ?_⟩
    intro pre e post hsplit
    simp at hsplit
  | halt file rest w w1 err hstep hrun =>
    obtain ⟨es, hlog, hatt, hrows, -, hent, hdec⟩ := step_unique hstep
    have hnd1 : w.rows.Nodup → w1.rows.Nodup := by
      intro hnd
      rcases hrows with hx | ⟨hx, hnew⟩
      · rw [hx]; exact hnd
      · rw [hx]; exact List.Nodup.append hnd (List.nodup_singleton _) (by simpa using hnew)
    refine ⟨es, hlog, ?_, ?_, ?_, fun hnd => ⟨hnd1 hnd, fun e he => ?_⟩, ?_⟩
    · rcases hatt with hx | ⟨hx, -⟩ <;> simp [hx]
    · rcases hatt with hx | ⟨hx, hnew⟩ <;> simp [hx]
      exact hnew
    · intro v hv
      rcases hrows with hx | ⟨hx, -⟩
      · rw [hx]; exact hv
      · rw [hx]; exact List.mem_append_left _ hv
    · rcases hent e he with hx | hx
      · rw [hx]; exact hnd
      · rw [hx]; exact hnd1 hnd
    · intro pre e post hsplit f v hcall
      obtain ⟨sql, hpre, hnew⟩ := hdec pre e post hsplit f v hcall
      exact ⟨[], w.rows, sql, by simpa using hpre, hnew⟩
  | next file rest w w1 w2 r hstep hrest ih =>
    obtain ⟨es1, hlog1, hatt1, hrows1, hok1, hent1, hdec1⟩ := step_unique hstep
    obtain ⟨es2, hlog2, hnd2, hdisj2, hmono2, hrows2, hdec2⟩ := ih
    have hmono1 : ∀ v ∈ w.rows, v ∈ w1.rows := by
      intro v hv
      rcases hrows1 with hx | ⟨hx, -⟩
      · rw [hx]; exact hv
      · rw [hx]; exact List.mem_append_left _ hv
    have hnd1 : w.rows.Nodup → w1.rows.Nodup := by
      intro hnd
      rcases hrows1 with hx | ⟨hx, hnew⟩
      · rw [hx]; exact hnd
      · rw [hx]; exact List.Nodup.append hnd (List.nodup_singleton _) (by simpa using hnew)
    have hatt1in : ∀ v ∈ attemptedInserts es1, v ∈ w1.rows := by
      intro v hv
      rcases hatt1 with hx | ⟨hx, -⟩
      · simp [hx] at hv
      · rw [hx] at hv
        rw [List.mem_singleton.mp hv]
        exact hok1 rfl
    refine ⟨es1 ++ es2, by rw [hlog2, hlog1, List.append_assoc], ?_, ?_,
      fun v hv => hmono2 v (hmono1 v hv), fun hnd => ?_, ?_⟩
    · rw [attemptedInserts_append]
      refine List.Nodup.append ?_ hnd2 ?_
      · rcases hatt1 with hx | ⟨hx, -⟩ <;> simp [hx]
      · intro v hv1 hv2
        exact hdisj2 v hv2 (hatt1in v hv1)
    · intro v hv
      rw [attemptedInserts_append] at hv
      rcases List.mem_append.mp hv with hv | hv
      · rcases hatt1 with hx | ⟨hx, hnew⟩
        · simp [hx] at hv
        · rw [hx] at hv
          rw [List.mem_singleton.mp hv]
          exact hnew
      · exact fun hin => hdisj2 v hv (hmono1 v hin)
    · obtain ⟨hfinal, hall2⟩ := hrows2 (hnd1 hnd)
      refine ⟨hfinal, fun e he => ?_⟩
      rcases List.mem_append.mp he with he | he
      · rcases hent1 e he with hx | hx
        · rw [hx]; exact hnd
        · rw [hx]; exact hnd1 hnd
      · exact hall2 e he
    · intro pre e post hsplit f v hcall
      rcases List.append_eq_append_iff.mp hsplit with ⟨a, hpre, hes2⟩ | ⟨c, hes1, hc⟩
      · obtain ⟨pre0, rows, sql, hp, hnew⟩ := hdec2 a e post hes2 f v hcall
        exact ⟨es1 ++ pre0, rows, sql, by rw [hpre, hp, List.append_assoc], hnew⟩
      · rcases c with _ | ⟨c1, ct⟩
        · simp only [List.nil_append] at hc
          simp only [List.append_nil] at hes1
          obtain ⟨pre0, rows, sql, hp, hnew⟩ := hdec2 [] e post (by simpa using hc.symm) f v hcall
          simp at hp
        · simp only [List.cons_append, List.cons.injEq] at hc
          obtain ⟨rfl, -⟩ := hc
          obtain ⟨sql, hp, hnew⟩ := hdec1 pre e ct hes1 f v hcall
          exact ⟨[], w.rows, sql, by simpa using hp, hnew⟩

/-- The inserts of a whole run, and the rows after each of its calls. -/
theorem run_unique {env : Env} {migrationsPath : String} {w w1 : World} {r : Option GoError}
    (h : RunFacts env migrationsPath w r w1) :
    ∃ es, w1.log = w.log ++ es ∧
      (attemptedInserts es).Nodup ∧ (∀ v ∈ attemptedInserts es, v ∉ w.rows) ∧
      (w.rows.Nodup → w1.rows.Nodup ∧ ∀ e ∈ es, e.rows.Nodup) ∧
      insertsAfterAbsentCount es := by
  cases h with
  | createFailed err hfault =>
    refine ⟨_, dbStep_log _ _ _, by simp [attemptedInserts, Entry.attemptedInsert],
      by simp [attemptedInserts, Entry.attemptedInsert], fun hnd => ⟨by simpa using hnd,
        by simpa using hnd⟩, ?_⟩
    intro pre e post hsplit f v hcall
    rcases pre with _ | ⟨p1, t⟩ <;> simp at hsplit
    obtain ⟨rfl, -⟩ := hsplit
    simp at hcall
  | globFailed err hfault hglob =>
    refine ⟨_, afterGlob_log _ _ _, by simp [attemptedInserts, Entry.attemptedInsert],
      by simp [attemptedInserts, Entry.attemptedInsert], fun hnd => ⟨by simpa using hnd,
        by simpa using hnd⟩, ?_⟩
    intro pre e post hsplit f v hcall
    rcases pre with _ | ⟨p1, _ | ⟨p2, t⟩⟩ <;> simp at hsplit
    · obtain ⟨rfl, -⟩ := hsplit
      simp at hcall
    · obtain ⟨-, rfl, -⟩ := hsplit
      simp at hcall
  | looped files r w1 hfault hglob hloop =>
    obtain ⟨es, hlog, hnd, hdisj, -, hrows, hdec⟩ := loop_unique hloop
    have hatt : attemptedInserts ((⟨.createTable, true, w.rows⟩ : Entry) ::
        ⟨.glob migrationsPath, true, w.rows⟩ :: es) = attemptedInserts es := by
      simp [attemptedInserts, Entry.attemptedInsert]
    refine ⟨⟨.createTable, true, w.rows⟩ :: ⟨.glob migrationsPath, true, w.rows⟩ :: es,
      by simp [hlog], by rw [hatt]; exact hnd, by rw [hatt]; simpa using hdisj,
      fun hn => ?_, ?_⟩
    · obtain ⟨hfinal, hall⟩ := hrows (by simpa using hn)
      refine ⟨hfinal, fun e he => ?_⟩
      rcases List.mem_cons.mp he with rfl | he
      · exact hn
      rcases List.mem_cons.mp he with rfl | he
      · exact hn
      · exact hall e he
    · intro pre e post hsplit f v hcall
      rcases pre with _ | ⟨p1, _ | ⟨p2, t⟩⟩
      · simp only [List.nil_append, List.cons.injEq] at hsplit
        obtain ⟨rfl, -⟩ := hsplit
        simp at hcall
      · simp only [List.cons_append, List.nil_append, List.cons.injEq] at hsplit
        obtain ⟨-, rfl, -⟩ := hsplit
        simp at hcall
      · simp only [List.cons_append, List.cons.injEq] at hsplit
        obtain ⟨rfl, rfl, hes⟩ := hsplit
        obtain ⟨pre0, rows, sql, hp, hnew⟩ := hdec t e post hes f v hcall
        exact ⟨⟨.createTable, true, w.rows⟩ :: ⟨.glob migrationsPath, true, w.rows⟩ :: pre0,
          rows, sql, by simp [hp], hnew⟩

/-! ## Inserts follow an existence query that saw the version absent -/

theorem insertsFollowAbsentCount_of_none {es : List Entry}
    (h : ∀ e ∈ es, e.attemptedInsert = none) : insertsFollowAbsentCount es := by
  intro pre e post hsplit f v hcall
  have he : e ∈ es := by rw [hsplit]; simp
  have := h e he
  simp [Entry.attemptedInsert, hcall] at this

theorem insertsFollowAbsentCount_append {es1 es2 : List Entry}
    (h1 : insertsFollowAbsentCount es1) (h2 : insertsFollowAbsentCount es2) :
    insertsFollowAbsentCount (es1 ++ es2) := by
  intro pre e post hsplit f v hcall
  rcases List.append_eq_append_iff.mp hsplit with ⟨a, hpre, hes2⟩ | ⟨c, hes1, hc⟩
  · obtain ⟨pre0, rows, rows2, sql, hp, hnew⟩ := h2 a e post hes2 f v hcall
    exact ⟨es1 ++ pre0, rows, rows2, sql, by rw [hpre, hp, List.append_assoc], hnew⟩
  · rcases c with _ | ⟨c1, ct⟩
    · simp only [List.nil_append] at hc
      simp only [List.append_nil] at hes1
      obtain ⟨pre0, rows, rows2, sql, hp, hnew⟩ :=
        h2 [] e post (by simpa using hc.symm) f v hcall
      simp at hp
    · simp only [List.cons_append, List.cons.injEq] at hc
      obtain ⟨rfl, -⟩ := hc
      exact h1 pre e ct hes1 f v hcall

/-- One call of `runMigration`, whatever the bodies do: an insert is issued only right after
the existence query saw the version absent and the body was read and executed. -/
theorem step_absent (env : Env) (file : String) (w : World) :
    ∃ es, (runMigration env file w).2.log = w.log ++ es ∧ insertsFollowAbsentCount es := by
  rcases runMigration_cases env file w with ⟨err, h, hwhy⟩ | h | ⟨err, h, hread⟩ |
    ⟨err, sql, h, hread, hwhy⟩ | ⟨sql, h, hread, hmem⟩
  · rw [h]
    exact ⟨_, afterCount_log _ _ _,
      insertsFollowAbsentCount_of_none (by simp [Entry.attemptedInsert])⟩
  · rw [h]
    exact ⟨_, afterCount_log _ _ _,
      insertsFollowAbsentCount_of_none (by simp [Entry.attemptedInsert])⟩
  · rw [h]
    exact ⟨_, afterRead_log _ _ _,
      insertsFollowAbsentCount_of_none (by simp [Entry.attemptedInsert])⟩
  · rw [h]
    refine ⟨[⟨.countVersion file (filepathBase file), true, w.rows⟩,
        ⟨.readFile file, true, w.rows⟩,
        ⟨.execScript file sql, false,
          (afterScript env file sql false (afterRead file true w)).rows⟩], ?_,
      insertsFollowAbsentCount_of_none (by simp [Entry.attemptedInsert])⟩
    rw [afterScript_log, afterRead_log]; simp
  · rw [h]
    obtain ⟨ok, rows, hlog, -⟩ := dbInsertVersion_trace env file (filepathBase file)
      (afterScript env file sql true (afterRead file true w))
    refine ⟨[⟨.countVersion file (filepathBase file), true, w.rows⟩,
        ⟨.readFile file, true, w.rows⟩,
        ⟨.execScript file sql, true,
          (afterScript env file sql true (afterRead file true w)).rows⟩,
        ⟨.insertVersion file (filepathBase file), ok, rows⟩], ?_, ?_⟩
    · rw [hlog, afterScript_log, afterRead_log]; simp
    · intro pre e post hsplit f v hcall
      rcases pre with _ | ⟨p1, _ | ⟨p2, _ | ⟨p3, _ | ⟨p4, t⟩⟩⟩⟩ <;> simp at hsplit
      · obtain ⟨rfl, -⟩ := hsplit
        simp at hcall
      · obtain ⟨-, rfl, -⟩ := hsplit
        simp at hcall
      · obtain ⟨-, -, rfl, -⟩ := hsplit
        simp at hcall
      · obtain ⟨rfl, rfl, rfl, rfl, -⟩ := hsplit
        simp only [Call.insertVersion.injEq] at hcall
        obtain ⟨rfl, rfl⟩ := hcall
        exact ⟨[], w.rows, _, sql, rfl, hmem⟩

theorem loop_absent (env : Env) (files : List String) (w : World) :
    ∃ es, (runFiles env files w).2.log = w.log ++ es ∧ insertsFollowAbsentCount es := by
  induction files generalizing w with
  | nil =>
    exact ⟨[], by simp [runFiles], insertsFollowAbsentCount_of_none (by simp)⟩
  | cons file rest ih =>
    obtain ⟨es1, hlog1, habs1⟩ := step_absent env file w
    cases hrm : runMigration env file w with
    | mk r w1 =>
      rw [hrm] at hlog1
      cases r with
      | some cause =>
        have h : runFiles env (file :: rest) w = (some (errRunMigration file cause), w1) := by
          simp [runFiles, hrm]
        rw [h]
        exact ⟨es1, hlog1, habs1⟩
      | none =>
        have h : runFiles env (file :: rest) w = runFiles env rest w1 := by
          simp [runFiles, hrm]
        rw [h]
        obtain ⟨es2, hlog2, habs2⟩ := ih w1
        exact ⟨es1 ++ es2, by rw [hlog2, hlog1, List.append_assoc],
          insertsFollowAbsentCount_append habs1 habs2⟩

/-- A whole run, whatever the bodies do: an insert is issued only right after the existence
query saw the version absent and the body was read and executed. -/
theorem run_absent (env : Env) (migrationsPath : String) (w : World) :
    insertsFollowAbsentCount (newEntries w (RunMigrations env migrationsPath w).2) := by
  cases hq : env.fault w.tick with
  | some cause =>
    rw [RunMigrations_create_fail migrationsPath hq, newEntries_of_log (dbStep_log _ _ _)]
    exact insertsFollowAbsentCount_of_none (by simp [Entry.attemptedInsert])
  | none =>
    cases hg : env.glob migrationsPath with
    | error cause =>
      rw [RunMigrations_glob_fail hq hg, newEntries_of_log (afterGlob_log _ _ _)]
      exact insertsFollowAbsentCount_of_none (by simp [Entry.attemptedInsert])
    | ok files =>
      rw [RunMigrations_loop hq hg]
      obtain ⟨es, hlog, habs⟩ :=
        loop_absent env (sortStrings files) (afterGlob migrationsPath true w)
      have hlog2 : (runFiles env (sortStrings files) (afterGlob migrationsPath true w)).2.log =
          w.log ++ ([⟨.createTable, true, w.rows⟩, ⟨.glob migrationsPath, true, w.rows⟩] ++
            es) := by
        simp [hlog]
      rw [newEntries_of_log hlog2]
      exact insertsFollowAbsentCount_append
        (insertsFollowAbsentCount_of_none (by simp [Entry.attemptedInsert])) habs

/-- C11, counterexample: the paths `m1/001_a.sql` and `m2/001_a.sql` share a base name, and
the body of `m1/002_b.sql` is `DELETE FROM schema_migrations`.  In one run, in which no call
fails, the version `001_a.sql` is inserted twice. -/
theorem C11_counterexample :
    World.fresh.rows.Nodup ∧
    (RunMigrations (demoEnvScripts ["m2/001_a.sql", "m1/002_b.sql", "m1/001_a.sql"]
      (clearsTable "m1/002_b.sql") noFault) "m*" World.fresh).1 = none ∧
    insertedVersions (newEntries World.fresh
      (RunMigrations (demoEnvScripts ["m2/001_a.sql", "m1/002_b.sql", "m1/001_a.sql"]
        (clearsTable "m1/002_b.sql") noFault) "m*" World.fresh).2) =
      ["001_a.sql", "002_b.sql", "001_a.sql"] ∧
    ¬ (attemptedInserts (newEntries World.fresh
      (RunMigrations (demoEnvScripts ["m2/001_a.sql", "m1/002_b.sql", "m1/001_a.sql"]
        (clearsTable "m1/002_b.sql") noFault) "m*" World.fresh).2)).Nodup := by
  decide

/-- C11, amended. Version uniqueness: whatever the candidates (two paths may share a base
name), the failures and the bodies, `RunMigrations` issues an insert only right after the
existence query, the read and the execution of the same file, and the query saw the version
absent from the table.  When moreover the migration bodies leave `schema_migrations` as it
is: a table that holds no duplicate version before the run holds none after any call of the
run nor when the run returns, the table is the same at the query, the read and the
execution that precede an insert, and the versions for which the run issues an insert,
successful or not, are pairwise different and were not recorded before the run. -/
theorem C11_version_unique (env : Env) (migrationsPath : String) (w : World) :
    insertsFollowAbsentCount (newEntries w (RunMigrations env migrationsPath w).2) ∧
    (env.keepsTable →
      (w.rows.Nodup →
        (RunMigrations env migrationsPath w).2.rows.Nodup ∧
        ∀ e ∈ newEntries w (RunMigrations env migrationsPath w).2, e.rows.Nodup) ∧
      insertsAfterAbsentCount (newEntries w (RunMigrations env migrationsPath w).2) ∧
      (attemptedInserts (newEntries w (RunMigrations env migrationsPath w).2)).Nodup ∧
      (∀ v ∈ attemptedInserts (newEntries w (RunMigrations env migrationsPath w).2),
        v ∉ w.rows)) := by
  refine ⟨run_absent env migrationsPath w, fun hkeep => ?_⟩
  obtain ⟨es, hlog, hnd, hdisj, hrows, hdec⟩ :=
    run_unique (RunMigrations_facts env hkeep migrationsPath w)
  rw [newEntries_of_log hlog]
  exact ⟨hrows, hdec, hnd, hdisj⟩

/-- C11 amended, at a concrete input: two matched paths share the base name `001_a.sql`; one
insert is issued for it and the table has no duplicate. -/
theorem C11_version_unique_witness :
    demoEnvSameBase.keepsTable ∧ World.fresh.rows.Nodup ∧
    (RunMigrations demoEnvSameBase "m*" World.fresh).2.rows = ["001_a.sql", "002_b.sql"] ∧
    (RunMigrations demoEnvSameBase "m*" World.fresh).2.rows.Nodup ∧
    (attemptedInserts (newEntries World.fresh
      (RunMigrations demoEnvSameBase "m*" World.fresh).2)).Nodup :=
  ⟨fun _ _ _ _ => rfl, by decide, by decide,
    (((C11_version_unique demoEnvSameBase "m*" World.fresh).2 (fun _ _ _ _ => rfl)).1
      (by decide)).1,
    ((C11_version_unique demoEnvSameBase "m*" World.fresh).2 (fun _ _ _ _ => rfl)).2.2.1⟩

/-! ## Fix and retry -/

theorem runMigration_apply {env : Env} {file sql : String} {w : World}
    (hkeep : env.keepsTable) (htable : w.table.isSome) (hmem : filepathBase file ∉ w.rows)
    (hread : env.readFile file = .ok sql) (hvalid : env.scriptError sql = none)
    (hnofault : ∀ n, env.fault n = none) :
    runMigration env file w = (none, afterInsert file sql w) := by
  have h := runMigration_facts env hkeep file w
  revert h
  generalize runMigration env file w = p
  obtain ⟨r, w1⟩ := p
  intro h
  cases h with
  | countFailed err hwhy =>
    rcases hwhy with hq | ⟨ht, -⟩
    · simp [hnofault] at hq
    · simp [ht] at htable
  | skipped hfault htable2 hmem2 => exact absurd hmem2 hmem
  | readFailed err htable2 hmem2 hread2 => simp [hread] at hread2
  | execFailed err sql2 htable2 hmem2 hread2 hwhy =>
    rcases hwhy with hq | hs
    · simp [hnofault] at hq
    · rw [hread] at hread2
      cases hread2
      simp [hvalid] at hs
  | insertFailed err sql2 htable2 hmem2 hread2 hwhy => simp [hnofault] at hwhy
  | recorded sql2 htable2 hmem2 hread2 =>
    rw [hread] at hread2
    cases hread2
    rfl

/-- The last call logged by one `runMigration` is a call for its file. -/
theorem step_last {env : Env} {file : String} {w w1 : World} {r : Option GoError}
    (h : StepFacts env file w r w1) :
    ∃ es e, w1.log = w.log ++ es ∧ es.getLast? = some e ∧ e.file = some file := by
  cases h
  case countFailed err hwhy => exact ⟨_, _, afterCount_log _ _ _, rfl, rfl⟩
  case skipped hfault htable hmem => exact ⟨_, _, afterCount_log _ _ _, rfl, rfl⟩
  case readFailed err htable hmem hread => exact ⟨_, _, afterRead_log _ _ _, rfl, rfl⟩
  case execFailed err sql htable hmem hread hwhy =>
    exact ⟨_, _, afterExecFailed_log _ _ _, rfl, rfl⟩
  case insertFailed err sql htable hmem hread hwhy =>
    exact ⟨_, _, afterInsertFailed_log _ _ _, rfl, rfl⟩
  case recorded sql htable hmem hread => exact ⟨_, _, afterInsert_log _ _ _, rfl, rfl⟩

theorem file_of_attemptedFile {e : Entry} {f : String} (h : e.attemptedFile = some f) :
    e.file = some f := by
  cases hc : e.call <;> simp [Entry.attemptedFile, Entry.file, hc] at h ⊢
  exact h

/-- A loop over three candidates on an empty table whose last call is a call for the second:
the first candidate is recorded and nothing else. -/
theorem loop_halt_second {env : Env} {c1 c2 c3 : String} {w w1 : World} {r : Option GoError}
    {e : Entry} (h : LoopFacts env [c1, c2, c3] w r w1) (hempty : w.rows = [])
    (h12 : c1 ≠ c2) (h23 : c2 ≠ c3)
    (hlast : (newEntries w w1).getLast? = some e) (hfile : e.file = some c2) :
    r ≠ none ∧ w1.rows = [filepathBase c1] ∧ w1.table.isSome := by
  cases h with
  | halt _ _ _ _ err hstep hrun =>
    obtain ⟨es, e1, hlog, he1, hf1⟩ := step_last hstep
    rw [newEntries_of_log hlog, he1] at hlast
    cases hlast
    rw [hf1] at hfile
    cases hfile
    exact absurd rfl h12
  | next _ _ _ wA _ _ hstep1 hrest =>
    obtain ⟨esA, hlogA, hrowsA, htabA, -, -, -, -, hokA, -, -, hinsA, -⟩ := step_log hstep1
    have hrowsA2 : wA.rows = [filepathBase c1] := by
      rw [hrowsA, hempty]
      rcases hinsA with hx | ⟨hx, -⟩
      · rcases hokA rfl with hm | hm
        · simp [hempty] at hm
        · have := mem_insertedVersions_of_entry hm
          simp [hx] at this
      · simp [hx]
    have htabA2 : wA.table.isSome := by
      cases hstep1 with
      | skipped hfault htable hmem => simpa using htable
      | recorded sql htable hmem hread => simp
    cases hrest with
    | halt _ _ _ _ err hstep2 hrun2 =>
      obtain ⟨_, -, -, -, -, -, -, -, -, -, hframe, -⟩ := step_log hstep2
      obtain ⟨htab, -⟩ := hframe (by simp)
      refine ⟨by simp [errRunMigration], ?_, by rw [htab]; exact htabA2⟩
      rw [← hrowsA2]
      simp [World.rows, htab]
    | next _ _ _ wB _ _ hstep2 hrest3 =>
      obtain ⟨esB, eB, hlogB, -, -⟩ := step_last hstep2
      exfalso
      cases hrest3 with
      | halt _ _ _ _ err hstep3 hrun3 =>
        obtain ⟨esC, eC, hlogC, heC, hfC⟩ := step_last hstep3
        have hlog : w1.log = w.log ++ (esA ++ esB ++ esC) := by
          rw [hlogC, hlogB, hlogA]; simp
        rw [newEntries_of_log hlog] at hlast
        simp only [List.getLast?_append, heC, Option.or_some, Option.some.injEq] at hlast
        rw [← hlast, hfC] at hfile
        cases hfile
        exact h23 rfl
      | next _ _ _ wC _ _ hstep3 hrest4 =>
        obtain ⟨esC, eC, hlogC, heC, hfC⟩ := step_last hstep3
        cases hrest4 with
        | done _ =>
          have hlog : w1.log = w.log ++ (esA ++ esB ++ esC) := by
            rw [hlogC, hlogB, hlogA]; simp
          rw [newEntries_of_log hlog] at hlast
          simp only [List.getLast?_append, heC, Option.or_some, Option.some.injEq] at hlast
          rw [← hlast, hfC] at hfile
          cases hfile
          exact h23 rfl

/-- C12, counterexample.  First, the candidates `m1/001_a.sql`, `m1/002_b.sql`,
`m2/001_a.sql`, of which the first and the third share a base name: the first run fails at
the execution of the invalid body of the second, and the second run, in which that body is
valid and nothing fails, executes the body of the second candidate only.  Second, the
directory `m` whose `002_b.sql` is invalid in the first run and replaced by
`DELETE FROM schema_migrations` for the second: the second run executes the bodies of
`002_b.sql` and `003_c.sql`, returns success and leaves `001_a.sql` unrecorded. -/
theorem C12_counterexample :
    sortStrings ["m2/001_a.sql", "m1/002_b.sql", "m1/001_a.sql"] =
      ["m1/001_a.sql", "m1/002_b.sql", "m2/001_a.sql"] ∧
    (RunMigrations demoEnvSameBaseInvalid "m*" World.fresh).2.log.getLast? =
      some ⟨.execScript "m1/002_b.sql" "-- body of m1/002_b.sql", false, ["001_a.sql"]⟩ ∧
    (RunMigrations demoEnvSameBase "m*"
      (RunMigrations demoEnvSameBaseInvalid "m*" World.fresh).2).1 = none ∧
    executedFiles (newEntries (RunMigrations demoEnvSameBaseInvalid "m*" World.fresh).2
      (RunMigrations demoEnvSameBase "m*"
        (RunMigrations demoEnvSameBaseInvalid "m*" World.fresh).2).2) = ["m1/002_b.sql"] ∧
    (RunMigrations (demoEnvInvalid "m/002_b.sql") "m" World.fresh).2.log.getLast? =
      some ⟨.execScript "m/002_b.sql" "-- body of m/002_b.sql", false, ["001_a.sql"]⟩ ∧
    (RunMigrations (demoEnvScripts ["m/002_b.sql", "m/003_c.sql", "m/001_a.sql"]
        (clearsTable "m/002_b.sql") noFault) "m"
      (RunMigrations (demoEnvInvalid "m/002_b.sql") "m" World.fresh).2).1 = none ∧
    executedFiles (newEntries (RunMigrations (demoEnvInvalid "m/002_b.sql") "m" World.fresh).2
      (RunMigrations (demoEnvScripts ["m/002_b.sql", "m/003_c.sql", "m/001_a.sql"]
          (clearsTable "m/002_b.sql") noFault) "m"
        (RunMigrations (demoEnvInvalid "m/002_b.sql") "m" World.fresh).2).2) =
      ["m/002_b.sql", "m/003_c.sql"] ∧
    (RunMigrations (demoEnvScripts ["m/002_b.sql", "m/003_c.sql", "m/001_a.sql"]
        (clearsTable "m/002_b.sql") noFault) "m"
      (RunMigrations (demoEnvInvalid "m/002_b.sql") "m" World.fresh).2).2.rows =
      ["002_b.sql", "003_c.sql"] := by
  decide

/-- C12, amended. Fix-and-retry: three candidates `c1 < c2 < c3` with pairwise different base
names, whose bodies in both runs leave `schema_migrations` as it is, on an initially empty
table.  When the last call of a first run is the execution of the body of `c2` (the run
stopped there: the execution failed), that run returned an error with exactly `c1` recorded;
and a second run on the resulting database, in which the bodies of `c2` and `c3` are readable
and valid and no database call fails, sends to the database and executes exactly the bodies
of `c2` and `c3`, in that order, returns success and leaves exactly `c1`, `c2`, `c3`
recorded. -/
theorem C12_fix_and_retry (env env2 : Env) (migrationsPath : String) (w : World)
    (files files2 : List String) (c1 c2 c3 : String) (e : Entry)
    (hkeep : env.keepsTable) (hkeep2 : env2.keepsTable)
    (hempty : w.rows = [])
    (hglob : env.glob migrationsPath = .ok files) (hsort : sortStrings files = [c1, c2, c3])
    (hbase : ([c1, c2, c3].map filepathBase).Nodup)
    (hlast : (newEntries w (RunMigrations env migrationsPath w).2).getLast? = some e)
    (hexec : e.attemptedFile = some c2)
    (hglob2 : env2.glob migrationsPath = .ok files2)
    (hsort2 : sortStrings files2 = [c1, c2, c3])
    (hnofault : ∀ n, env2.fault n = none)
    (hc2 : ∃ sql, env2.readFile c2 = .ok sql ∧ env2.scriptError sql = none)
    (hc3 : ∃ sql, env2.readFile c3 = .ok sql ∧ env2.scriptError sql = none) :
    (RunMigrations env migrationsPath w).1 ≠ none ∧
    (RunMigrations env migrationsPath w).2.rows = [filepathBase c1] ∧
    (RunMigrations env2 migrationsPath (RunMigrations env migrationsPath w).2).1 = none ∧
    attemptedFiles (newEntries (RunMigrations env migrationsPath w).2
      (RunMigrations env2 migrationsPath (RunMigrations env migrationsPath w).2).2) =
        [c2, c3] ∧
    executedFiles (newEntries (RunMigrations env migrationsPath w).2
      (RunMigrations env2 migrationsPath (RunMigrations env migrationsPath w).2).2) =
        [c2, c3] ∧
    (RunMigrations env2 migrationsPath (RunMigrations env migrationsPath w).2).2.rows =
      [filepathBase c1, filepathBase c2, filepathBase c3] := by
  have hb12 : filepathBase c1 ≠ filepathBase c2 := by
    intro h; simp [h] at hbase
  have hb13 : filepathBase c1 ≠ filepathBase c3 := by
    intro h; simp [h] at hbase
  have hb23 : filepathBase c2 ≠ filepathBase c3 := by
    intro h; simp [h] at hbase
  have h12 : c1 ≠ c2 := fun h => hb12 (by rw [h])
  have h23 : c2 ≠ c3 := fun h => hb23 (by rw [h])
  -- the first run
  have hfirst : (RunMigrations env migrationsPath w).1 ≠ none ∧
      (RunMigrations env migrationsPath w).2.rows = [filepathBase c1] ∧
      (RunMigrations env migrationsPath w).2.table.isSome := by
    have hfacts := RunMigrations_facts env hkeep migrationsPath w
    revert hfacts hlast
    generalize (RunMigrations env migrationsPath w).1 = r
    generalize (RunMigrations env migrationsPath w).2 = w1
    intro hlast hfacts
    cases hfacts with
    | createFailed err hfault =>
      rw [newEntries_of_log (dbStep_log _ _ _)] at hlast
      simp only [List.getLast?_singleton, Option.some.injEq] at hlast
      rw [← hlast] at hexec
      simp [Entry.attemptedFile] at hexec
    | globFailed err hfault hglob0 => simp [hglob] at hglob0
    | looped files0 r w1 hfault hglob0 hloop =>
      rw [hglob] at hglob0
      cases hglob0
      rw [hsort] at hloop
      obtain ⟨es, hlog, -⟩ := loop_log hloop
      have hlog2 : w1.log = w.log ++ (⟨.createTable, true, w.rows⟩ ::
          ⟨.glob migrationsPath, true, w.rows⟩ :: es) := by
        simp [hlog]
      have hes : es ≠ [] := by
        intro h0
        rw [newEntries_of_log hlog2, h0] at hlast
        simp at hlast
        rw [← hlast] at hexec
        simp [Entry.attemptedFile] at hexec
      have hlast2 : (newEntries (afterGlob migrationsPath true w) w1).getLast? = some e := by
        rw [newEntries_of_log hlog]
        rw [newEntries_of_log hlog2] at hlast
        rw [List.getLast?_cons_cons] at hlast
        obtain ⟨x, t, rfl⟩ := List.exists_cons_of_ne_nil hes
        rw [List.getLast?_cons_cons] at hlast
        exact hlast
      exact loop_halt_second hloop (by simpa using hempty) h12 h23 hlast2
        (file_of_attemptedFile hexec)
  obtain ⟨hr1, hrows1, htab1⟩ := hfirst
  refine ⟨hr1, hrows1, ?_⟩
  revert hrows1 htab1
  generalize (RunMigrations env migrationsPath w).2 = w1
  intro hrows1 htab1
  -- the second run
  obtain ⟨s2, hread2, hvalid2⟩ := hc2
  obtain ⟨s3, hread3, hvalid3⟩ := hc3
  have hs1 : runMigration env2 c1 (afterGlob migrationsPath true w1) =
      (none, afterCount c1 true (afterGlob migrationsPath true w1)) :=
    runMigration_skip (by simp [hrows1]) (hnofault _)
  have hs2 : runMigration env2 c2 (afterCount c1 true (afterGlob migrationsPath true w1)) =
      (none, afterInsert c2 s2 (afterCount c1 true (afterGlob migrationsPath true w1))) :=
    runMigration_apply hkeep2 (by simp) (by simpa [hrows1] using hb12.symm) hread2 hvalid2
      hnofault
  have hs3 : runMigration env2 c3
      (afterInsert c2 s2 (afterCount c1 true (afterGlob migrationsPath true w1))) =
      (none, afterInsert c3 s3
        (afterInsert c2 s2 (afterCount c1 true (afterGlob migrationsPath true w1)))) :=
    runMigration_apply hkeep2 (by simp) (by simp [hrows1, hb13.symm, hb23.symm]) hread3
      hvalid3 hnofault
  have hrun2 : RunMigrations env2 migrationsPath w1 = (none, afterInsert c3 s3
      (afterInsert c2 s2 (afterCount c1 true (afterGlob migrationsPath true w1)))) := by
    rw [RunMigrations_loop (hnofault _) hglob2, hsort2]
    simp [runFiles, hs1, hs2, hs3]
  rw [hrun2]
  have hlog : (afterInsert c3 s3 (afterInsert c2 s2
      (afterCount c1 true (afterGlob migrationsPath true w1)))).log = w1.log ++
      [⟨.createTable, true, w1.rows⟩, ⟨.glob migrationsPath, true, w1.rows⟩,
       ⟨.countVersion c1 (filepathBase c1), true, w1.rows⟩,
       ⟨.countVersion c2 (filepathBase c2), true, w1.rows⟩,
       ⟨.readFile c2, true, w1.rows⟩, ⟨.execScript c2 s2, true, w1.rows⟩,
       ⟨.insertVersion c2 (filepathBase c2), true, w1.rows ++ [filepathBase c2]⟩,
       ⟨.countVersion c3 (filepathBase c3), true, w1.rows ++ [filepathBase c2]⟩,
       ⟨.readFile c3, true, w1.rows ++ [filepathBase c2]⟩,
       ⟨.execScript c3 s3, true, w1.rows ++ [filepathBase c2]⟩,
       ⟨.insertVersion c3 (filepathBase c3), true,
         w1.rows ++ [filepathBase c2] ++ [filepathBase c3]⟩] := by
    simp
  refine ⟨rfl, ?_, ?_, by simp [hrows1]⟩
  · rw [newEntries_of_log hlog]
    simp [attemptedFiles, Entry.attemptedFile]
  · rw [newEntries_of_log hlog]
    simp [executedFiles, Entry.executedFile]

/-- C12 amended, at a concrete input: the body of `002_b.sql` is invalid in the first run and
valid in the second. -/
theorem C12_fix_and_retry_witness :
    (RunMigrations (demoEnvInvalid "m/002_b.sql") "m" World.fresh).2.rows = ["001_a.sql"] ∧
    (RunMigrations (demoEnv noFault) "m"
      (RunMigrations (demoEnvInvalid "m/002_b.sql") "m" World.fresh).2).1 = none ∧
    executedFiles (newEntries (RunMigrations (demoEnvInvalid "m/002_b.sql") "m" World.fresh).2
      (RunMigrations (demoEnv noFault) "m"
        (RunMigrations (demoEnvInvalid "m/002_b.sql") "m" World.fresh).2).2) =
      ["m/002_b.sql", "m/003_c.sql"] ∧
    (RunMigrations (demoEnv noFault) "m"
      (RunMigrations (demoEnvInvalid "m/002_b.sql") "m" World.fresh).2).2.rows =
      ["001_a.sql", "002_b.sql", "003_c.sql"] :=
  have h := C12_fix_and_retry (demoEnvInvalid "m/002_b.sql") (demoEnv noFault) "m" World.fresh
    ["m/002_b.sql", "m/003_c.sql", "m/001_a.sql"] ["m/002_b.sql", "m/003_c.sql", "m/001_a.sql"]
    "m/001_a.sql" "m/002_b.sql" "m/003_c.sql"
    ⟨.execScript "m/002_b.sql" "-- body of m/002_b.sql", false, ["001_a.sql"]⟩
    (fun _ _ _ _ => rfl) (fun _ _ _ _ => rfl)
    rfl rfl (by decide) (by decide) (by decide) rfl rfl (by decide) (fun _ => rfl)
    ⟨_, rfl, rfl⟩ ⟨_, rfl, rfl⟩
  ⟨h.2.1.trans (by decide), h.2.2.1, h.2.2.2.2.1, h.2.2.2.2.2.trans (by decide)⟩

/-! ## Table creation, the directory scan and the candidates -/

/-- C13. Bookkeeping-table failure is fatal: when the `CREATE TABLE IF NOT EXISTS` statement
fails with `err`, `RunMigrations` returns an error that wraps `err` with the message
`failed to create migrations table: <err>`, having made no other call: the directory is not
listed, no migration is queried, read, executed or recorded, and the table and the applied
scripts are as before. -/
theorem C13_create_failure_fatal (env : Env) (migrationsPath : String) (w w1 : World)
    (err : GoError) (hcreate : createMigrationsTable env w = (some err, w1)) :
    RunMigrations env migrationsPath w = (some (errCreateTable err), w1) ∧
    (errCreateTable err).Unwrap = some err ∧
    (errCreateTable err).Error = "failed to create migrations table: " ++ err.Error ∧
    newEntries w w1 = [⟨.createTable, false, w.rows⟩] ∧
    w1.table = w.table ∧ w1.applied = w.applied := by
  have hrun : RunMigrations env migrationsPath w = (some (errCreateTable err), w1) := by
    simp [RunMigrations, hcreate]
  cases hq : env.fault w.tick with
  | none => simp [createMigrationsTable_ok hq] at hcreate
  | some err2 =>
    rw [createMigrationsTable_fail hq] at hcreate
    simp only [Prod.mk.injEq, Option.some.injEq] at hcreate
    obtain ⟨-, rfl⟩ := hcreate
    exact ⟨hrun, rfl, rfl, newEntries_of_log (dbStep_log _ _ _), rfl, rfl⟩

/-- C13, at a concrete input: the first database call fails. -/
theorem C13_create_failure_fatal_witness :
    RunMigrations (demoEnv (faultAt 0 (.base "permission denied"))) "m" World.fresh =
      (some (errCreateTable (.base "permission denied")),
        World.fresh.dbStep .createTable false) ∧
    newEntries World.fresh (World.fresh.dbStep .createTable false) =
      [⟨.createTable, false, World.fresh.rows⟩] :=
  have h := C13_create_failure_fatal (demoEnv (faultAt 0 (.base "permission denied"))) "m"
    World.fresh (World.fresh.dbStep .createTable false) (.base "permission denied") rfl
  ⟨h.1, h.2.2.2.1⟩

/-- The directory part of the pattern and the paths of the matches, at concrete inputs: the
source path is cleaned, and the file part of the pattern is `*.sql`. -/
theorem scanDir_examples :
    scanDir "m" = "m" ∧ scanDir "./m" = "m" ∧ scanDir "m/" = "m" ∧ scanDir "m//x/.." = "m" ∧
    scanDir "" = "." ∧ scanDir "." = "." ∧ scanDir "/" = "/" ∧ scanDir "/srv/m" = "/srv/m" ∧
    scanDir "../m" = "../m" ∧ scanDir "a/../../m" = "../m" ∧ scanDir "/.." = "/" ∧
    (filepathSplit (globPattern "./m")).2 = "*.sql" ∧
    (filepathSplit (globPattern "")).2 = "*.sql" ∧
    (filepathSplit (globPattern "/")).2 = "*.sql" ∧
    filepathJoin (scanDir "./m") "001_a.sql" = "m/001_a.sql" ∧
    filepathJoin (scanDir "") "001_a.sql" = "001_a.sql" ∧
    filepathJoin (scanDir "/") "001_a.sql" = "/001_a.sql" := by
  decide

theorem globSql_single {fs : FileSystem} {migrationsPath : String} {names : List String}
    (hmeta : hasMeta (scanDir migrationsPath) = false)
    (hread : fs.readDir (scanDir migrationsPath) = some names) :
    globSql fs migrationsPath =
      .ok (((sortStrings names).filter matchSql).map
        (filepathJoin (scanDir migrationsPath))) := by
  simp [globSql, globDirs, hmeta, globDir, hread]

/-- The pattern `*.sql` matches exactly the names `stem.sql` without a slash. -/
theorem matchSql_iff (name : String) :
    matchSql name = true ↔ ∃ stem : String, name = stem ++ ".sql" ∧ '/' ∉ name.data := by
  unfold matchSql
  rw [Bool.and_eq_true, List.isSuffixOf_iff_suffix, Bool.not_eq_true']
  constructor
  · rintro ⟨⟨t, ht⟩, hno⟩
    refine ⟨String.mk t, ?_, by simpa using hno⟩
    apply String.ext
    simp [String.data_append, ← ht]
  · rintro ⟨stem, hname, hno⟩
    refine ⟨⟨stem.data, ?_⟩, by simpa using hno⟩
    rw [hname]
    simp [String.data_append]

theorem runMigration_congr {env env2 : Env} (hread : env2.readFile = env.readFile)
    (hscript : env2.scriptError = env.scriptError)
    (heffect : env2.scriptEffect = env.scriptEffect) (hfault : env2.fault = env.fault)
    (file : String) (w : World) : runMigration env2 file w = runMigration env file w := by
  simp only [runMigration, dbCountVersion, fsReadFile, dbExecScript, afterScript,
    dbInsertVersion, hread, hscript, heffect, hfault]

theorem runFiles_congr {env env2 : Env} (hread : env2.readFile = env.readFile)
    (hscript : env2.scriptError = env.scriptError)
    (heffect : env2.scriptEffect = env.scriptEffect) (hfault : env2.fault = env.fault)
    (files : List String) (w : World) : runFiles env2 files w = runFiles env files w := by
  induction files generalizing w with
  | nil => rfl
  | cons file rest ih =>
    simp only [runFiles, runMigration_congr hread hscript heffect hfault, ih]

/-- A run depends on the directory scan only through the sorted list of candidates. -/
theorem RunMigrations_congr {env env2 : Env} {migrationsPath : String}
    {files files2 : List String} (hread : env2.readFile = env.readFile)
    (hscript : env2.scriptError = env.scriptError)
    (heffect : env2.scriptEffect = env.scriptEffect) (hfault : env2.fault = env.fault)
    (hglob : env.glob migrationsPath = .ok files) (hglob2 : env2.glob migrationsPath = .ok files2)
    (hperm : files2.Perm files) (w : World) :
    RunMigrations env2 migrationsPath w = RunMigrations env migrationsPath w := by
  have hsort : sortStrings files2 = sortStrings files :=
    sortStrings_eq_of_perm (hperm.trans (sortStrings_perm files).symm) (sortStrings_sorted files)
  simp only [RunMigrations, createMigrationsTable, dbCreateTable, fsGlob, hfault, hglob, hglob2,
    hsort, runFiles_congr hread hscript heffect hfault]

/-- C15, counterexample: the source directory `a[1]` holds the file `x.sql`.  The scan takes
the path for a pattern, which the directory `a1` matches and `a[1]` itself does not: the one
candidate is `a1/y.sql`, its body is executed, and no call is made for `x.sql`. -/
theorem C15_counterexample :
    demoFSPatterns.readDir "a[1]" = some ["x.sql"] ∧ matchSql "x.sql" = true ∧
    (fsEnv demoFSPatterns (fun file => .ok ("-- body of " ++ file)) (fun _ => none)
      noFault).glob "a[1]" = .ok ["a1/y.sql"] ∧
    (newEntries World.fresh
      (RunMigrations (fsEnv demoFSPatterns (fun file => .ok ("-- body of " ++ file))
        (fun _ => none) noFault) "a[1]" World.fresh).2).filterMap Entry.file =
      ["a1/y.sql", "a1/y.sql", "a1/y.sql", "a1/y.sql"] ∧
    executedFiles (newEntries World.fresh
      (RunMigrations (fsEnv demoFSPatterns (fun file => .ok ("-- body of " ++ file))
        (fun _ => none) noFault) "a[1]" World.fresh).2) = ["a1/y.sql"] :=
  ⟨rfl, by decide, rfl, by decide, by decide⟩

/-- C15, amended. Non-SQL files are ignored: for a source directory whose cleaned path holds
no pattern character (`*`, `?`, `[`, backslash) and that can be read, the candidates of
`RunMigrations` are exactly the entries directly in that directory that `*.sql` matches, that
is, whose name ends in `.sql`; every call the run makes for a file is for such an entry, so
an entry whose name does not end in `.sql` is never queried, read, executed or recorded; and
two directories with the same `.sql` entries give the same run, whatever their other
entries. -/
theorem C15_non_sql_ignored (env : Env) (fs : FileSystem) (migrationsPath : String)
    (names : List String) (w : World) (hscan : env.glob = globSql fs)
    (hmeta : hasMeta (scanDir migrationsPath) = false)
    (hread : fs.readDir (scanDir migrationsPath) = some names) :
    env.glob migrationsPath =
      .ok (((sortStrings names).filter matchSql).map
        (filepathJoin (scanDir migrationsPath))) ∧
    (∀ name, matchSql name = true ↔
      ∃ stem : String, name = stem ++ ".sql" ∧ '/' ∉ name.data) ∧
    (∀ e ∈ newEntries w (RunMigrations env migrationsPath w).2,
      ∀ f, e.file = some f →
        ∃ name ∈ names, matchSql name = true ∧
          f = filepathJoin (scanDir migrationsPath) name) ∧
    (∀ (env2 : Env) (fs2 : FileSystem) (names2 : List String),
      env2.glob = globSql fs2 → env2.readFile = env.readFile →
      env2.scriptError = env.scriptError → env2.scriptEffect = env.scriptEffect →
      env2.fault = env.fault →
      fs2.readDir (scanDir migrationsPath) = some names2 →
      (names2.filter matchSql).Perm (names.filter matchSql) →
      RunMigrations env2 migrationsPath w = RunMigrations env migrationsPath w) := by
  have hglob : env.glob migrationsPath =
      .ok (((sortStrings names).filter matchSql).map
        (filepathJoin (scanDir migrationsPath))) := by
    rw [hscan]; exact globSql_single hmeta hread
  refine ⟨hglob, matchSql_iff, ?_, ?_⟩
  · obtain ⟨es, hlog, hent, -⟩ := run_trace env migrationsPath w
    rw [newEntries_of_log hlog]
    intro e he f hf
    obtain ⟨files, hfiles, hmem⟩ := hent e he f hf
    rw [hglob] at hfiles
    cases hfiles
    obtain ⟨name, hname, rfl⟩ := List.mem_map.mp hmem
    obtain ⟨hin, hmatch⟩ := List.mem_filter.mp hname
    exact ⟨name, mem_sortStrings.mp hin, hmatch, rfl⟩
  · intro env2 fs2 names2 hscan2 hreadFile hscript heffect hfault hread2 hperm
    have hglob2 : env2.glob migrationsPath =
        .ok (((sortStrings names2).filter matchSql).map
          (filepathJoin (scanDir migrationsPath))) := by
      rw [hscan2]; exact globSql_single hmeta hread2
    refine @RunMigrations_congr env env2 migrationsPath _ _ hreadFile hscript heffect hfault
      hglob hglob2 (List.Perm.map _ ?_) w
    exact (((sortStrings_perm names2).filter _).trans hperm).trans
      ((sortStrings_perm names).filter _).symm

/-- C15 amended, at a concrete input: the directory `m`, given as `./m`, holds two migrations,
a note and a subdirectory. -/
theorem C15_non_sql_ignored_witness :
    hasMeta (scanDir "./m") = false ∧
    (demoFS ["002_b.sql", "notes.txt", "001_a.sql", "sub"]).readDir (scanDir "./m") =
      some ["002_b.sql", "notes.txt", "001_a.sql", "sub"] ∧
    (fsEnv (demoFS ["002_b.sql", "notes.txt", "001_a.sql", "sub"])
      (fun file => .ok ("-- body of " ++ file)) (fun _ => none) noFault).glob "./m" =
      .ok ["m/001_a.sql", "m/002_b.sql"] ∧
    RunMigrations (fsEnv (demoFS ["001_a.sql", "002_b.sql"])
        (fun file => .ok ("-- body of " ++ file)) (fun _ => none) noFault) "./m" World.fresh =
      RunMigrations (fsEnv (demoFS ["002_b.sql", "notes.txt", "001_a.sql", "sub"])
        (fun file => .ok ("-- body of " ++ file)) (fun _ => none) noFault) "./m" World.fresh :=
  have h := C15_non_sql_ignored
    (fsEnv (demoFS ["002_b.sql", "notes.txt", "001_a.sql", "sub"])
      (fun file => .ok ("-- body of " ++ file)) (fun _ => none) noFault)
    (demoFS ["002_b.sql", "notes.txt", "001_a.sql", "sub"]) "./m"
    ["002_b.sql", "notes.txt", "001_a.sql", "sub"] World.fresh rfl (by decide) (by decide)
  ⟨by decide, by decide, h.1.trans rfl,
    h.2.2.2 (fsEnv (demoFS ["001_a.sql", "002_b.sql"])
      (fun file => .ok ("-- body of " ++ file)) (fun _ => none) noFault)
      (demoFS ["001_a.sql", "002_b.sql"]) ["001_a.sql", "002_b.sql"] rfl rfl rfl rfl rfl
      (by decide) (by decide)⟩

/-- C16, counterexample: the source directory `m*` holds a note and no `.sql` file, and the
table creation succeeds.  The scan takes the path for a pattern, which the directories `m1`
and `m2` match as well: the run executes the bodies of `m1/002_b.sql` and `m2/001_a.sql` and
records their versions. -/
theorem C16_counterexample :
    demoFSPatterns.readDir "m*" = some ["notes.txt"] ∧ matchSql "notes.txt" = false ∧
    (createMigrationsTable (fsEnv demoFSPatterns (fun file => .ok ("-- body of " ++ file))
      (fun _ => none) noFault) World.fresh).1 = none ∧
    executedFiles (newEntries World.fresh
      (RunMigrations (fsEnv demoFSPatterns (fun file => .ok ("-- body of " ++ file))
        (fun _ => none) noFault) "m*" World.fresh).2) = ["m1/002_b.sql", "m2/001_a.sql"] ∧
    (RunMigrations (fsEnv demoFSPatterns (fun file => .ok ("-- body of " ++ file))
      (fun _ => none) noFault) "m*" World.fresh).2.rows = ["002_b.sql", "001_a.sql"] :=
  ⟨rfl, by decide, by decide, by decide, by decide⟩

/-- C16, amended. No candidates: whatever the database state, when the source directory,
whose cleaned path holds no pattern character (`*`, `?`, `[`, backslash), has no entry that
`*.sql` matches (or cannot be read) and the table creation succeeds, the directory scan
returns no candidate and `RunMigrations` returns success having made only the table creation
and the directory listing: no existence query, read, execution or insert, and the recorded
versions and the applied scripts are unchanged. -/
theorem C16_no_candidates (env : Env) (fs : FileSystem) (migrationsPath : String)
    (w w1 : World) (hscan : env.glob = globSql fs)
    (hmeta : hasMeta (scanDir migrationsPath) = false)
    (hnone : ∀ names, fs.readDir (scanDir migrationsPath) = some names →
      ∀ name ∈ names, matchSql name = false)
    (hcreate : createMigrationsTable env w = (none, w1)) :
    env.glob migrationsPath = .ok [] ∧
    RunMigrations env migrationsPath w = (none, afterGlob migrationsPath true w) ∧
    newEntries w (afterGlob migrationsPath true w) =
      [⟨.createTable, true, w.rows⟩, ⟨.glob migrationsPath, true, w.rows⟩] ∧
    (afterGlob migrationsPath true w).rows = w.rows ∧
    (afterGlob migrationsPath true w).applied = w.applied := by
  obtain ⟨hq, -⟩ := createMigrationsTable_inv hcreate
  have hglob : env.glob migrationsPath = .ok [] := by
    rw [hscan]
    cases hread : fs.readDir (scanDir migrationsPath) with
    | none => simp [globSql, globDirs, hmeta, globDir, hread]
    | some names =>
      rw [globSql_single hmeta hread]
      have : (sortStrings names).filter matchSql = [] := by
        rw [List.filter_eq_nil_iff]
        intro name hname
        simp [hnone names hread name (mem_sortStrings.mp hname)]
      rw [this]
      rfl
  refine ⟨hglob, ?_, newEntries_of_log (afterGlob_log _ _ _), rfl, rfl⟩
  rw [RunMigrations_loop hq hglob]
  rfl

/-- C16 amended, at a concrete input: the directory `m` holds a note only, and `001_a.sql` is
already recorded. -/
theorem C16_no_candidates_witness :
    hasMeta (scanDir "m") = false ∧
    (demoFS ["notes.txt"]).readDir (scanDir "m") = some ["notes.txt"] ∧
    RunMigrations (fsEnv (demoFS ["notes.txt"]) (fun file => .ok ("-- body of " ++ file))
        (fun _ => none) noFault) "m" demoRecorded =
      (none, afterGlob "m" true demoRecorded) ∧
    (afterGlob "m" true demoRecorded).rows = ["001_a.sql"] :=
  have h := C16_no_candidates
    (fsEnv (demoFS ["notes.txt"]) (fun file => .ok ("-- body of " ++ file)) (fun _ => none)
      noFault) (demoFS ["notes.txt"]) "m" demoRecorded (afterCreate demoRecorded) rfl
    (by decide) (fun names hnames name hname => by
      have h2 : names = ["notes.txt"] := by
        have : (demoFS ["notes.txt"]).readDir (scanDir "m") = some ["notes.txt"] := by decide
        rw [this] at hnames
        exact (Option.some.inj hnames).symm
      subst h2
      rw [List.mem_singleton.mp hname]
      decide) rfl
  ⟨by decide, by decide, h.2.1, h.2.2.2.1.trans (by decide)⟩

end Migrations

namespace Handlers

open Gin
open Migrations (GoError)

/-- C17. Create-employee presence validation: for a request whose body binds to an
`Employee`, `CreateEmployeeHandler` responds 400 with `first_name is required` when
`FirstName` is empty, whatever `LastName` is, and 400 with `last_name is required` when
`FirstName` is not empty and `LastName` is; in both cases it returns without any database
access.  The database is accessed only when both names are non-empty, and then the handle is
obtained and the insert issued. -/
theorem C17_create_presence_validation (db : Option Config.GormDB) (c : Context)
    (requestID : String) (employee : Models.Employee)
    (hid : Middleware.GetRequestID c = .ok requestID)
    (hbind : c.ShouldBindJSON = .ok employee) :
    (employee.FirstName = "" →
      ∃ c1, CreateEmployeeHandler db c = .ok c1 ∧
        c1.written = c.written ++ [⟨400, .errorResponse ⟨"first_name is required"⟩⟩] ∧
        c1.dbCalls = c.dbCalls) ∧
    (employee.FirstName ≠ "" → employee.LastName = "" →
      ∃ c1, CreateEmployeeHandler db c = .ok c1 ∧
        c1.written = c.written ++ [⟨400, .errorResponse ⟨"last_name is required"⟩⟩] ∧
        c1.dbCalls = c.dbCalls) ∧
    (∀ c1, CreateEmployeeHandler db c = .ok c1 → c1.dbCalls ≠ c.dbCalls →
      employee.FirstName ≠ "" ∧ employee.LastName ≠ "") ∧
    (employee.FirstName ≠ "" → employee.LastName ≠ "" → ∀ gorm, db = some gorm →
      ∃ c1, CreateEmployeeHandler db c = .ok c1 ∧
        c1.dbCalls = c.dbCalls ++ [.getDB, .create employee]) := by
  have hbind2 : c.bindJSON = .ok employee := hbind
  refine ⟨fun h1 => ?_, fun h1 h2 => ?_, fun c1 hc1 hcalls => ?_, fun h1 h2 gorm hdb => ?_⟩
  · simp [CreateEmployeeHandler, hid, Context.ShouldBindJSON, Context.log, hbind2, h1,
      Utils.LogValidationError, Context.JSON, StatusBadRequest]
  · simp [CreateEmployeeHandler, hid, Context.ShouldBindJSON, Context.log, hbind2, h1, h2,
      Utils.LogValidationError, Context.JSON, StatusBadRequest]
  · by_cases h1 : employee.FirstName = ""
    · simp [CreateEmployeeHandler, hid, Context.ShouldBindJSON, Context.log, hbind2, h1,
        Utils.LogValidationError, Context.JSON] at hc1
      rw [← hc1] at hcalls
      exact absurd rfl hcalls
    · by_cases h2 : employee.LastName = ""
      · simp [CreateEmployeeHandler, hid, Context.ShouldBindJSON, Context.log, hbind2, h1, h2,
          Utils.LogValidationError, Context.JSON] at hc1
        rw [← hc1] at hcalls
        exact absurd rfl hcalls
      · exact ⟨h1, h2⟩
  · subst hdb
    cases hcreate : gorm.create employee with
    | error err =>
      by_cases hnf : err = Config.ErrRecordNotFound
      · simp [CreateEmployeeHandler, hid, Context.ShouldBindJSON, Context.log, hbind2, h1, h2,
          Config.GetDB, Context.db, hcreate, Utils.LogDBError, hnf, Context.JSON]
      · simp [CreateEmployeeHandler, hid, Context.ShouldBindJSON, Context.log, hbind2, h1, h2,
          Config.GetDB, Context.db, hcreate, Utils.LogDBError, hnf, Context.JSON]
    | ok created =>
      simp [CreateEmployeeHandler, hid, Context.ShouldBindJSON, Context.log, hbind2, h1, h2,
        Config.GetDB, Context.db, hcreate, Context.JSON]

/-- C17, at a concrete input: the body binds with an empty first name. -/
theorem C17_create_presence_validation_witness :
    ∃ c1, CreateEmployeeHandler (some demoGorm) (demoContext (.ok ⟨0, "", "Doe", 0, 0⟩)) =
        .ok c1 ∧
      c1.written = (demoContext (.ok ⟨0, "", "Doe", 0, 0⟩)).written ++
        [⟨400, .errorResponse ⟨"first_name is required"⟩⟩] ∧
      c1.dbCalls = (demoContext (.ok ⟨0, "", "Doe", 0, 0⟩)).dbCalls :=
  (C17_create_presence_validation (some demoGorm) (demoContext (.ok ⟨0, "", "Doe", 0, 0⟩)) ""
    ⟨0, "", "Doe", 0, 0⟩ rfl rfl).1 rfl

/-- C18. Malformed body rejection: for a request whose body fails to bind to an `Employee`,
`CreateEmployeeHandler`, and `UpdateEmployeeHandler` when the `id` parameter is not empty,
respond with status 400 and the `ErrorResponse` whose JSON object is
`error: Invalid request format`, and return without any database access. -/
theorem C18_malformed_body_rejected (db : Option Config.GormDB) (c : Context)
    (requestID : String) (err : GoError)
    (hid : Middleware.GetRequestID c = .ok requestID)
    (hbind : c.ShouldBindJSON = .error err) :
    (∃ c1, CreateEmployeeHandler db c = .ok c1 ∧
      c1.written = c.written ++ [⟨400, .errorResponse ⟨"Invalid request format"⟩⟩] ∧
      c1.dbCalls = c.dbCalls) ∧
    (c.Param "id" ≠ "" →
      ∃ c1, UpdateEmployeeHandler db c = .ok c1 ∧
        c1.written = c.written ++ [⟨400, .errorResponse ⟨"Invalid request format"⟩⟩] ∧
        c1.dbCalls = c.dbCalls) ∧
    (ErrorResponse.mk "Invalid request format").jsonFields =
      [("error", "Invalid request format")] := by
  have hbind2 : c.bindJSON = .error err := hbind
  refine ⟨?_, fun hparam => ?_, rfl⟩
  · simp [CreateEmployeeHandler, hid, Context.ShouldBindJSON, Context.log, hbind2,
      Utils.LogValidationError, Context.JSON, StatusBadRequest]
  · simp [UpdateEmployeeHandler, hid, hparam, Context.ShouldBindJSON, Context.log, hbind2,
      Utils.LogValidationError, Context.JSON, StatusBadRequest]

/-- C18, at a concrete input: the body is cut short. -/
theorem C18_malformed_body_rejected_witness :
    ∃ c1, CreateEmployeeHandler none (demoContext (.error (.base "unexpected EOF"))) = .ok c1 ∧
      c1.written = (demoContext (.error (.base "unexpected EOF"))).written ++
        [⟨400, .errorResponse ⟨"Invalid request format"⟩⟩] ∧
      c1.dbCalls = (demoContext (.error (.base "unexpected EOF"))).dbCalls :=
  (C18_malformed_body_rejected none (demoContext (.error (.base "unexpected EOF"))) ""
    (.base "unexpected EOF") rfl rfl).1

/-- C19. Health response shape: `HealthCheckHandler` responds once; with status 200, status
`ok`, database `healthy` and message `GormTest application is running` exactly when the
database health check succeeds, and with status 503, status `degraded`, database `unhealthy`
and message `Application is running but database is unavailable` exactly when it fails.  So
the code is 200 or 503, the status `ok` or `degraded`, the message not empty and the database
`healthy` or `unhealthy`.  The check succeeds exactly when the database is initialised, its
connection handle is available and the ping succeeds. -/
theorem C19_health_response (db : Option Config.GormDB) (c : Context) (requestID : String)
    (hid : Middleware.GetRequestID c = .ok requestID) :
    ∃ c1 status h, HealthCheckHandler db c = .ok c1 ∧
      c1.written = c.written ++ [⟨status, .health h⟩] ∧
      (Config.HealthCheck db = none ↔
        (status = 200 ∧ h = ⟨"ok", "healthy", "GormTest application is running"⟩)) ∧
      (Config.HealthCheck db ≠ none ↔
        (status = 503 ∧
          h = ⟨"degraded", "unhealthy",
            "Application is running but database is unavailable"⟩)) ∧
      (status = 200 ∨ status = 503) ∧ (h.Status = "ok" ∨ h.Status = "degraded") ∧
      h.Message ≠ "" ∧ (h.Database = "healthy" ∨ h.Database = "unhealthy") ∧
      (Config.HealthCheck db = none ↔
        ∃ gorm sqlDB, db = some gorm ∧ gorm.DB = .ok sqlDB ∧ sqlDB.ping = none) := by
  have hcheck : Config.HealthCheck db = none ↔
      ∃ gorm sqlDB, db = some gorm ∧ gorm.DB = .ok sqlDB ∧ sqlDB.ping = none := by
    unfold Config.HealthCheck
    cases db with
    | none => simp
    | some gorm =>
      cases hdb : gorm.DB with
      | error err => simp [hdb]
      | ok sqlDB => simp [hdb]
  have hlogdb : ∀ (c0 : Context) (err : GoError),
      (Utils.LogDBError c0 err).written = c0.written := by
    intro c0 err
    unfold Utils.LogDBError
    split <;> rfl
  by_cases hh : Config.HealthCheck db = none
  · have hrun : HealthCheckHandler db c = .ok
        (((c.log "info" "Processing health check request").log "info"
          "Health check completed successfully").JSON StatusOK
          (.health ⟨"ok", "healthy", "GormTest application is running"⟩)) := by
      simp [HealthCheckHandler, hid, hh]
    exact ⟨_, 200, ⟨"ok", "healthy", "GormTest application is running"⟩, hrun, rfl,
      by simp [hh], by simp [hh], by simp, by simp, by decide, by simp, hcheck⟩
  · obtain ⟨err, herr⟩ := Option.ne_none_iff_exists'.mp hh
    have hrun : HealthCheckHandler db c = .ok
        (((Utils.LogDBError (c.log "info" "Processing health check request") err).log "warning"
          "Health check returned degraded status").JSON StatusServiceUnavailable
          (.health ⟨"degraded", "unhealthy",
            "Application is running but database is unavailable"⟩)) := by
      simp [HealthCheckHandler, hid, herr]
    refine ⟨_, 503, ⟨"degraded", "unhealthy",
      "Application is running but database is unavailable"⟩, hrun, ?_,
      by simp [hh], by simp [hh], by simp, by simp, by decide, by simp, hcheck⟩
    simp [Context.JSON, Context.log, hlogdb, StatusServiceUnavailable]

/-- C19, at a concrete input: the database was never initialised. -/
theorem C19_health_response_witness :
    ∃ c1 status h, HealthCheckHandler none (demoContext (.error (.base "EOF"))) = .ok c1 ∧
      c1.written = (demoContext (.error (.base "EOF"))).written ++ [⟨status, .health h⟩] ∧
      (Config.HealthCheck none ≠ none ↔
        (status = 503 ∧
          h = ⟨"degraded", "unhealthy",
            "Application is running but database is unavailable"⟩)) :=
  have ⟨c1, status, h, h1, h2, _, h4, _⟩ :=
    C19_health_response none (demoContext (.error (.base "EOF"))) "" rfl
  ⟨c1, status, h, h1, h2, h4⟩

end Handlers

namespace Middleware

open Gin

theorem canonical_request_id : canonicalMIMEHeaderKey "X-Request-ID" = "X-Request-Id" := by
  decide

/-- The UUID string has thirty-six characters. -/
theorem uuid_string_length (u : Uuid.UUID) : u.String.length = 36 := by
  simp [Uuid.UUID.String, Uuid.hexByte, String.length]

theorem uuid_string_ne_empty (u : Uuid.UUID) : u.String ≠ "" := by
  intro h
  have := uuid_string_length u
  rw [h] at this
  simp at this

theorem digitChar_hex (k : Fin 16) : Nat.digitChar k.val ∈ "0123456789abcdef".data := by
  revert k; decide

theorem digitChar_inj (x y : Fin 16) (h : Nat.digitChar x.val = Nat.digitChar y.val) :
    x = y := by
  revert x y; decide

theorem hexByte_inj {a b : Fin 256} (h : Uuid.hexByte a = Uuid.hexByte b) : a = b := by
  simp only [Uuid.hexByte, List.cons.injEq, and_true] at h
  obtain ⟨h1, h2⟩ := h
  have hd := digitChar_inj ⟨a.val / 16, by omega⟩ ⟨b.val / 16, by omega⟩ h1
  have hm := digitChar_inj ⟨a.val % 16, by omega⟩ ⟨b.val % 16, by omega⟩ h2
  simp only [Fin.mk.injEq] at hd hm
  apply Fin.ext
  omega

theorem hexByte_hex (b : Fin 256) : ∀ ch ∈ Uuid.hexByte b, ch ∈ "0123456789abcdef".data := by
  intro ch hch
  simp only [Uuid.hexByte, List.mem_cons, List.mem_singleton, List.not_mem_nil, or_false] at hch
  rcases hch with rfl | rfl
  · exact digitChar_hex ⟨b.val / 16, by omega⟩
  · exact digitChar_hex ⟨b.val % 16, by omega⟩

/-- The string of a UUID determines the UUID. -/
theorem uuid_string_inj {u v : Uuid.UUID} (h : u.String = v.String) : u = v := by
  have h2 : u.String.data = v.String.data := congrArg String.data h
  dsimp only [Uuid.UUID.String] at h2
  have hl : ∀ a b : Fin 256, (Uuid.hexByte a).length = (Uuid.hexByte b).length :=
    fun _ _ => rfl
  obtain ⟨h2, e15⟩ := List.append_inj' h2 (hl _ _)
  obtain ⟨h2, e14⟩ := List.append_inj' h2 (hl _ _)
  obtain ⟨h2, e13⟩ := List.append_inj' h2 (hl _ _)
  obtain ⟨h2, e12⟩ := List.append_inj' h2 (hl _ _)
  obtain ⟨h2, e11⟩ := List.append_inj' h2 (hl _ _)
  obtain ⟨h2, e10⟩ := List.append_inj' h2 (hl _ _)
  obtain ⟨h2, -⟩ := List.append_inj' h2 rfl
  obtain ⟨h2, e9⟩ := List.append_inj' h2 (hl _ _)
  obtain ⟨h2, e8⟩ := List.append_inj' h2 (hl _ _)
  obtain ⟨h2, -⟩ := List.append_inj' h2 rfl
  obtain ⟨h2, e7⟩ := List.append_inj' h2 (hl _ _)
  obtain ⟨h2, e6⟩ := List.append_inj' h2 (hl _ _)
  obtain ⟨h2, -⟩ := List.append_inj' h2 rfl
  obtain ⟨h2, e5⟩ := List.append_inj' h2 (hl _ _)
  obtain ⟨h2, e4⟩ := List.append_inj' h2 (hl _ _)
  obtain ⟨h2, -⟩ := List.append_inj' h2 rfl
  obtain ⟨h2, e3⟩ := List.append_inj' h2 (hl _ _)
  obtain ⟨h2, e2⟩ := List.append_inj' h2 (hl _ _)
  obtain ⟨e0, e1⟩ := List.append_inj' h2 (hl _ _)
  have hb : ∀ i, u.byte i = v.byte i := by
    intro i
    fin_cases i
    · exact hexByte_inj e0
    · exact hexByte_inj e1
    · exact hexByte_inj e2
    · exact hexByte_inj e3
    · exact hexByte_inj e4
    · exact hexByte_inj e5
    · exact hexByte_inj e6
    · exact hexByte_inj e7
    · exact hexByte_inj e8
    · exact hexByte_inj e9
    · exact hexByte_inj e10
    · exact hexByte_inj e11
    · exact hexByte_inj e12
    · exact hexByte_inj e13
    · exact hexByte_inj e14
    · exact hexByte_inj e15
  cases u with
  | mk ub =>
    cases v with
    | mk vb => exact congrArg Uuid.UUID.mk (funext hb)

/-- The string of a UUID has the form `xxxxxxxx-xxxx-xxxx-xxxx-xxxxxxxxxxxx`: five groups of
8, 4, 4, 4 and 12 lower-case hexadecimal digits, joined by dashes. -/
theorem uuid_string_form (u : Uuid.UUID) :
    ∃ g1 g2 g3 g4 g5 : List Char,
      u.String.data = g1 ++ '-' :: (g2 ++ '-' :: (g3 ++ '-' :: (g4 ++ '-' :: g5))) ∧
      g1.length = 8 ∧ g2.length = 4 ∧ g3.length = 4 ∧ g4.length = 4 ∧ g5.length = 12 ∧
      ∀ ch ∈ g1 ++ g2 ++ g3 ++ g4 ++ g5, ch ∈ "0123456789abcdef".data := by
  refine ⟨Uuid.hexByte (u.byte 0) ++ Uuid.hexByte (u.byte 1) ++ Uuid.hexByte (u.byte 2) ++
      Uuid.hexByte (u.byte 3),
    Uuid.hexByte (u.byte 4) ++ Uuid.hexByte (u.byte 5),
    Uuid.hexByte (u.byte 6) ++ Uuid.hexByte (u.byte 7),
    Uuid.hexByte (u.byte 8) ++ Uuid.hexByte (u.byte 9),
    Uuid.hexByte (u.byte 10) ++ Uuid.hexByte (u.byte 11) ++ Uuid.hexByte (u.byte 12) ++
      Uuid.hexByte (u.byte 13) ++ Uuid.hexByte (u.byte 14) ++ Uuid.hexByte (u.byte 15),
    ?_, rfl, rfl, rfl, rfl, rfl, ?_⟩
  · dsimp only [Uuid.UUID.String]
    simp only [List.append_assoc, List.singleton_append, List.cons_append, List.nil_append]
  · intro ch hch
    simp only [List.mem_append] at hch
    rcases hch with
      ((((((h | h) | h) | h) | (h | h)) | (h | h)) | (h | h)) | (((((h | h) | h) | h) | h) | h)
    all_goals exact hexByte_hex _ ch h

/-- What `RequestID` stores for the request ID `id`, when `id` is not empty. -/
theorem stored_request_id (c : Context) (id : String) (hid : id ≠ "") :
    ((c.Header "X-Request-ID" id).Set "request_id" (.str id)).responseHeaderGet
        "X-Request-ID" = id ∧
    ((c.Header "X-Request-ID" id).Set "request_id" (.str id)).Get "request_id" =
      some (.str id) ∧
    GetRequestID ((c.Header "X-Request-ID" id).Set "request_id" (.str id)) = .ok id := by
  refine ⟨?_, ?_, ?_⟩
  · simp [Context.responseHeaderGet, Context.Set, Context.Header, hid]
  · simp [Context.Get, Context.Set]
  · simp [GetRequestID, Context.Get, Context.Set]

/-- C20. Request-ID propagation: for a request whose `X-Request-ID` header is a non-empty
`id`, `RequestID` runs the rest of the chain on a context in which the response header
`X-Request-ID` and the key `request_id` hold exactly `id`, and `GetRequestID` on it returns
`id`.  For a request without the header, or with an empty one, the same holds for the string
of the UUID drawn at that call: thirty-six characters of the form
`xxxxxxxx-xxxx-xxxx-xxxx-xxxxxxxxxxxx`, the lower-case hexadecimal digits of the sixteen bytes
in groups joined by dashes, so it is not empty and two different UUIDs never give the same
ID.  On a context in which `request_id` was never set, `GetRequestID` returns the empty
string. -/
theorem C20_request_id_propagation (newUUID : Uuid.UUID)
    (next : Context → Except Abort Context) (c : Context) :
    (c.GetHeader "X-Request-ID" ≠ "" →
      RequestID newUUID next c =
        next ((c.Header "X-Request-ID" (c.GetHeader "X-Request-ID")).Set "request_id"
          (.str (c.GetHeader "X-Request-ID"))) ∧
      ((c.Header "X-Request-ID" (c.GetHeader "X-Request-ID")).Set "request_id"
        (.str (c.GetHeader "X-Request-ID"))).responseHeaderGet "X-Request-ID" =
          c.GetHeader "X-Request-ID" ∧
      ((c.Header "X-Request-ID" (c.GetHeader "X-Request-ID")).Set "request_id"
        (.str (c.GetHeader "X-Request-ID"))).Get "request_id" =
          some (.str (c.GetHeader "X-Request-ID")) ∧
      GetRequestID ((c.Header "X-Request-ID" (c.GetHeader "X-Request-ID")).Set "request_id"
        (.str (c.GetHeader "X-Request-ID"))) = .ok (c.GetHeader "X-Request-ID")) ∧
    (c.GetHeader "X-Request-ID" = "" →
      RequestID newUUID next c =
        next ((c.Header "X-Request-ID" newUUID.String).Set "request_id"
          (.str newUUID.String)) ∧
      newUUID.String ≠ "" ∧ newUUID.String.length = 36 ∧
      (∃ g1 g2 g3 g4 g5 : List Char,
        newUUID.String.data =
          g1 ++ '-' :: (g2 ++ '-' :: (g3 ++ '-' :: (g4 ++ '-' :: g5))) ∧
        g1.length = 8 ∧ g2.length = 4 ∧ g3.length = 4 ∧ g4.length = 4 ∧ g5.length = 12 ∧
        ∀ ch ∈ g1 ++ g2 ++ g3 ++ g4 ++ g5, ch ∈ "0123456789abcdef".data) ∧
      (∀ other : Uuid.UUID, other.String = newUUID.String → other = newUUID) ∧
      ((c.Header "X-Request-ID" newUUID.String).Set "request_id"
        (.str newUUID.String)).responseHeaderGet "X-Request-ID" = newUUID.String ∧
      ((c.Header "X-Request-ID" newUUID.String).Set "request_id"
        (.str newUUID.String)).Get "request_id" = some (.str newUUID.String) ∧
      GetRequestID ((c.Header "X-Request-ID" newUUID.String).Set "request_id"
        (.str newUUID.String)) = .ok newUUID.String) ∧
    (∀ c0 : Context, c0.Get "request_id" = none → GetRequestID c0 = .ok "") := by
  refine ⟨fun h => ?_, fun h => ?_, fun c0 h0 => ?_⟩
  · obtain ⟨h1, h2, h3⟩ := stored_request_id c (c.GetHeader "X-Request-ID") h
    exact ⟨by simp [RequestID, h], h1, h2, h3⟩
  · obtain ⟨h1, h2, h3⟩ := stored_request_id c newUUID.String (uuid_string_ne_empty newUUID)
    exact ⟨by simp [RequestID, h], uuid_string_ne_empty newUUID, uuid_string_length newUUID,
      uuid_string_form newUUID, fun other hother => uuid_string_inj hother, h1, h2, h3⟩
  · simp [GetRequestID, h0]

/-- C20, at a concrete input: a request with the header `x-request-id: abc-123`, and a
request without the header, for which the UUID of sixteen zero bytes is drawn. -/
theorem C20_request_id_propagation_witness :
    Handlers.demoContextWithID.GetHeader "X-Request-ID" = "abc-123" ∧
    GetRequestID ((Handlers.demoContextWithID.Header "X-Request-ID"
      (Handlers.demoContextWithID.GetHeader "X-Request-ID")).Set "request_id"
        (.str (Handlers.demoContextWithID.GetHeader "X-Request-ID"))) =
      .ok (Handlers.demoContextWithID.GetHeader "X-Request-ID") ∧
    (Handlers.demoContext (.error (.base "EOF"))).GetHeader "X-Request-ID" = "" ∧
    (⟨fun _ => 0⟩ : Uuid.UUID).String = "00000000-0000-0000-0000-000000000000" ∧
    GetRequestID (((Handlers.demoContext (.error (.base "EOF"))).Header "X-Request-ID"
      (⟨fun _ => 0⟩ : Uuid.UUID).String).Set "request_id"
        (.str (⟨fun _ => 0⟩ : Uuid.UUID).String)) = .ok (⟨fun _ => 0⟩ : Uuid.UUID).String :=
  ⟨by decide,
    ((C20_request_id_propagation ⟨fun _ => 0⟩ (fun c => .ok c) Handlers.demoContextWithID).1
      (by decide)).2.2.2,
    by decide, by decide,
    ((C20_request_id_propagation ⟨fun _ => 0⟩ (fun c => .ok c)
      (Handlers.demoContext (.error (.base "EOF")))).2.1 (by decide)).2.2.2.2.2.2.2⟩

end Middleware
